import Mathlib

/-!
Verification of the DeepBlunder chess engine core against its
natural-language specification.

This file is a shallow embedding of the engine's C++ sources into Lean 4:

* `src/ChessEngine/Attack.cpp` — ray tables, magic bitboards, slider attacks
  (this is the attack module of the repository; the latest iteration under
  `src/src` only declares the attack interface, whose leaper functions are
  modelled from the specification, see below);
* `src/src/board.cpp`, `src/src/boardstring.cpp`, `src/src/debug.cpp` —
  the `Board` class: bitboards, mailbox, make/undo, Zobrist keys, FEN;
* `src/src/movelist.cpp` — move generation and move ordering;
* `src/src/table.cpp` — the transposition table;
* `src/src/engine.cpp` — alpha-beta search, quiescence, time management.

Modelling conventions:

* `uint64` is `Nat`; every operation that can overflow 64 bits in C++
  (left shifts, multiplication) is reduced `% 2^64` (written `&&& U64` or
  an explicit `% (1 <<< 64)`) exactly where the C++ value wraps.
* C++ `int` is `Int`. The sentinel `NO_PIECE = INVALID = -1` is kept as
  the integer `-1` (see `Defs.h`).
* Arrays indexed by piece / color / square are total functions
  (`Int → Nat`, `Int → Int`, ...). Out-of-range accesses, which are
  undefined behavior in C++, read junk values of the total function; no
  theorem in this file depends on such junk: the stated hypotheses
  (`MovePre`, the board invariant) exclude every out-of-range access that
  the corresponding C++ execution would perform.
* `getLSB`/`getMSB` mirror `__builtin_ctzll`/`63 - __builtin_clzll` from
  `src/src/defs.cpp` (index of the least/most significant one bit); they
  are implemented by binary splitting, which agrees with the source
  semantics on every nonzero 64-bit input.  Their value at 0 (undefined
  behavior in C++) is junk and is never relied upon.
* The Zobrist hash keys are drawn from a PRNG at engine start-up
  (`HashKey.cpp`); the embedding is parameterized by an arbitrary
  `HashKeys` assignment, so every theorem about position keys holds for
  every possible key material.
* The static evaluation function is outside the specification's scope;
  the search embedding is parameterized by an arbitrary `Board → Int`.
-/

namespace DB

/-- mask of a full 64-bit word. -/
def U64 : Nat := 0xFFFFFFFFFFFFFFFF

/-- index of the least significant one bit, by binary splitting; agrees
with `__builtin_ctzll` (src/src/defs.cpp, getLSB) for nonzero inputs. -/
def getLSB (b : Nat) : Nat :=
  let p := if b &&& 0xFFFFFFFF == 0 then (b >>> 32, 32) else (b, 0)
  let p := if p.1 &&& 0xFFFF == 0 then (p.1 >>> 16, p.2 + 16) else p
  let p := if p.1 &&& 0xFF == 0 then (p.1 >>> 8, p.2 + 8) else p
  let p := if p.1 &&& 0xF == 0 then (p.1 >>> 4, p.2 + 4) else p
  let p := if p.1 &&& 0x3 == 0 then (p.1 >>> 2, p.2 + 2) else p
  if p.1 &&& 0x1 == 0 then p.2 + 1 else p.2

/-- index of the most significant one bit, by binary splitting; agrees
with `63 - __builtin_clzll` (src/src/defs.cpp, getMSB) for nonzero
64-bit inputs. -/
def getMSB (b : Nat) : Nat :=
  let p := if b >>> 32 != 0 then (b >>> 32, 32) else (b, 0)
  let p := if p.1 >>> 16 != 0 then (p.1 >>> 16, p.2 + 16) else p
  let p := if p.1 >>> 8 != 0 then (p.1 >>> 8, p.2 + 8) else p
  let p := if p.1 >>> 4 != 0 then (p.1 >>> 4, p.2 + 4) else p
  let p := if p.1 >>> 2 != 0 then (p.1 >>> 2, p.2 + 2) else p
  if p.1 >>> 1 != 0 then p.2 + 1 else p.2

/-- fuel-bounded helper for `countBits`; 64 units of fuel suffice for any
64-bit input. -/
def countBitsAux : Nat → Nat → Nat
  | 0, _ => 0
  | fuel + 1, b => if b == 0 then 0 else countBitsAux fuel (b &&& (b - 1)) + 1

/-- number of one bits (src/src/defs.cpp, countBits: clear the lowest
one bit until zero). -/
def countBits (b : Nat) : Nat := countBitsAux 64 b

end DB

namespace DB.attack

/-! Constant tables transcribed from src/ChessEngine/Attack.cpp. -/

def rayNorthC : List Nat := [
  0x0101010101010100, 0x0202020202020200, 0x0404040404040400, 0x0808080808080800,
  0x1010101010101000, 0x2020202020202000, 0x4040404040404000, 0x8080808080808000,
  0x0101010101010000, 0x0202020202020000, 0x0404040404040000, 0x0808080808080000,
  0x1010101010100000, 0x2020202020200000, 0x4040404040400000, 0x8080808080800000,
  0x0101010101000000, 0x0202020202000000, 0x0404040404000000, 0x0808080808000000,
  0x1010101010000000, 0x2020202020000000, 0x4040404040000000, 0x8080808080000000,
  0x0101010100000000, 0x0202020200000000, 0x0404040400000000, 0x0808080800000000,
  0x1010101000000000, 0x2020202000000000, 0x4040404000000000, 0x8080808000000000,
  0x0101010000000000, 0x0202020000000000, 0x0404040000000000, 0x0808080000000000,
  0x1010100000000000, 0x2020200000000000, 0x4040400000000000, 0x8080800000000000,
  0x0101000000000000, 0x0202000000000000, 0x0404000000000000, 0x0808000000000000,
  0x1010000000000000, 0x2020000000000000, 0x4040000000000000, 0x8080000000000000,
  0x0100000000000000, 0x0200000000000000, 0x0400000000000000, 0x0800000000000000,
  0x1000000000000000, 0x2000000000000000, 0x4000000000000000, 0x8000000000000000,
  0x0000000000000000, 0x0000000000000000, 0x0000000000000000, 0x0000000000000000,
  0x0000000000000000, 0x0000000000000000, 0x0000000000000000, 0x0000000000000000]

def raySouthC : List Nat := [
  0x0000000000000000, 0x0000000000000000, 0x0000000000000000, 0x0000000000000000,
  0x0000000000000000, 0x0000000000000000, 0x0000000000000000, 0x0000000000000000,
  0x0000000000000001, 0x0000000000000002, 0x0000000000000004, 0x0000000000000008,
  0x0000000000000010, 0x0000000000000020, 0x0000000000000040, 0x0000000000000080,
  0x0000000000000101, 0x0000000000000202, 0x0000000000000404, 0x0000000000000808,
  0x0000000000001010, 0x0000000000002020, 0x0000000000004040, 0x0000000000008080,
  0x0000000000010101, 0x0000000000020202, 0x0000000000040404, 0x0000000000080808,
  0x0000000000101010, 0x0000000000202020, 0x0000000000404040, 0x0000000000808080,
  0x0000000001010101, 0x0000000002020202, 0x0000000004040404, 0x0000000008080808,
  0x0000000010101010, 0x0000000020202020, 0x0000000040404040, 0x0000000080808080,
  0x0000000101010101, 0x0000000202020202, 0x0000000404040404, 0x0000000808080808,
  0x0000001010101010, 0x0000002020202020, 0x0000004040404040, 0x0000008080808080,
  0x0000010101010101, 0x0000020202020202, 0x0000040404040404, 0x0000080808080808,
  0x0000101010101010, 0x0000202020202020, 0x0000404040404040, 0x0000808080808080,
  0x0001010101010101, 0x0002020202020202, 0x0004040404040404, 0x0008080808080808,
  0x0010101010101010, 0x0020202020202020, 0x0040404040404040, 0x0080808080808080]

def rayEastC : List Nat := [
  0x00000000000000FE, 0x00000000000000FC, 0x00000000000000F8, 0x00000000000000F0,
  0x00000000000000E0, 0x00000000000000C0, 0x0000000000000080, 0x0000000000000000,
  0x000000000000FE00, 0x000000000000FC00, 0x000000000000F800, 0x000000000000F000,
  0x000000000000E000, 0x000000000000C000, 0x0000000000008000, 0x0000000000000000,
  0x0000000000FE0000, 0x0000000000FC0000, 0x0000000000F80000, 0x0000000000F00000,
  0x0000000000E00000, 0x0000000000C00000, 0x0000000000800000, 0x0000000000000000,
  0x00000000FE000000, 0x00000000FC000000, 0x00000000F8000000, 0x00000000F0000000,
  0x00000000E0000000, 0x00000000C0000000, 0x0000000080000000, 0x0000000000000000,
  0x000000FE00000000, 0x000000FC00000000, 0x000000F800000000, 0x000000F000000000,
  0x000000E000000000, 0x000000C000000000, 0x0000008000000000, 0x0000000000000000,
  0x0000FE0000000000, 0x0000FC0000000000, 0x0000F80000000000, 0x0000F00000000000,
  0x0000E00000000000, 0x0000C00000000000, 0x0000800000000000, 0x0000000000000000,
  0x00FE000000000000, 0x00FC000000000000, 0x00F8000000000000, 0x00F0000000000000,
  0x00E0000000000000, 0x00C0000000000000, 0x0080000000000000, 0x0000000000000000,
  0xFE00000000000000, 0xFC00000000000000, 0xF800000000000000, 0xF000000000000000,
  0xE000000000000000, 0xC000000000000000, 0x8000000000000000, 0x0000000000000000]

def rayWestC : List Nat := [
  0x0000000000000000, 0x0000000000000001, 0x0000000000000003, 0x0000000000000007,
  0x000000000000000F, 0x000000000000001F, 0x000000000000003F, 0x000000000000007F,
  0x0000000000000000, 0x0000000000000100, 0x0000000000000300, 0x0000000000000700,
  0x0000000000000F00, 0x0000000000001F00, 0x0000000000003F00, 0x0000000000007F00,
  0x0000000000000000, 0x0000000000010000, 0x0000000000030000, 0x0000000000070000,
  0x00000000000F0000, 0x00000000001F0000, 0x00000000003F0000, 0x00000000007F0000,
  0x0000000000000000, 0x0000000001000000, 0x0000000003000000, 0x0000000007000000,
  0x000000000F000000, 0x000000001F000000, 0x000000003F000000, 0x000000007F000000,
  0x0000000000000000, 0x0000000100000000, 0x0000000300000000, 0x0000000700000000,
  0x0000000F00000000, 0x0000001F00000000, 0x0000003F00000000, 0x0000007F00000000,
  0x0000000000000000, 0x0000010000000000, 0x0000030000000000, 0x0000070000000000,
  0x00000F0000000000, 0x00001F0000000000, 0x00003F0000000000, 0x00007F0000000000,
  0x0000000000000000, 0x0001000000000000, 0x0003000000000000, 0x0007000000000000,
  0x000F000000000000, 0x001F000000000000, 0x003F000000000000, 0x007F000000000000,
  0x0000000000000000, 0x0100000000000000, 0x0300000000000000, 0x0700000000000000,
  0x0F00000000000000, 0x1F00000000000000, 0x3F00000000000000, 0x7F00000000000000]

def rayNorthWestC : List Nat := [
  0x0000000000000000, 0x0000000000000100, 0x0000000000010200, 0x0000000001020400,
  0x0000000102040800, 0x0000010204081000, 0x0001020408102000, 0x0102040810204000,
  0x0000000000000000, 0x0000000000010000, 0x0000000001020000, 0x0000000102040000,
  0x0000010204080000, 0x0001020408100000, 0x0102040810200000, 0x0204081020400000,
  0x0000000000000000, 0x0000000001000000, 0x0000000102000000, 0x0000010204000000,
  0x0001020408000000, 0x0102040810000000, 0x0204081020000000, 0x0408102040000000,
  0x0000000000000000, 0x0000000100000000, 0x0000010200000000, 0x0001020400000000,
  0x0102040800000000, 0x0204081000000000, 0x0408102000000000, 0x0810204000000000,
  0x0000000000000000, 0x0000010000000000, 0x0001020000000000, 0x0102040000000000,
  0x0204080000000000, 0x0408100000000000, 0x0810200000000000, 0x1020400000000000,
  0x0000000000000000, 0x0001000000000000, 0x0102000000000000, 0x0204000000000000,
  0x0408000000000000, 0x0810000000000000, 0x1020000000000000, 0x2040000000000000,
  0x0000000000000000, 0x0100000000000000, 0x0200000000000000, 0x0400000000000000,
  0x0800000000000000, 0x1000000000000000, 0x2000000000000000, 0x4000000000000000,
  0x0000000000000000, 0x0000000000000000, 0x0000000000000000, 0x0000000000000000,
  0x0000000000000000, 0x0000000000000000, 0x0000000000000000, 0x0000000000000000]

def rayNorthEastC : List Nat := [
  0x8040201008040200, 0x0080402010080400, 0x0000804020100800, 0x0000008040201000,
  0x0000000080402000, 0x0000000000804000, 0x0000000000008000, 0x0000000000000000,
  0x4020100804020000, 0x8040201008040000, 0x0080402010080000, 0x0000804020100000,
  0x0000008040200000, 0x0000000080400000, 0x0000000000800000, 0x0000000000000000,
  0x2010080402000000, 0x4020100804000000, 0x8040201008000000, 0x0080402010000000,
  0x0000804020000000, 0x0000008040000000, 0x0000000080000000, 0x0000000000000000,
  0x1008040200000000, 0x2010080400000000, 0x4020100800000000, 0x8040201000000000,
  0x0080402000000000, 0x0000804000000000, 0x0000008000000000, 0x0000000000000000,
  0x0804020000000000, 0x1008040000000000, 0x2010080000000000, 0x4020100000000000,
  0x8040200000000000, 0x0080400000000000, 0x0000800000000000, 0x0000000000000000,
  0x0402000000000000, 0x0804000000000000, 0x1008000000000000, 0x2010000000000000,
  0x4020000000000000, 0x8040000000000000, 0x0080000000000000, 0x0000000000000000,
  0x0200000000000000, 0x0400000000000000, 0x0800000000000000, 0x1000000000000000,
  0x2000000000000000, 0x4000000000000000, 0x8000000000000000, 0x0000000000000000,
  0x0000000000000000, 0x0000000000000000, 0x0000000000000000, 0x0000000000000000,
  0x0000000000000000, 0x0000000000000000, 0x0000000000000000, 0x0000000000000000]

def raySouthWestC : List Nat := [
  0x0000000000000000, 0x0000000000000000, 0x0000000000000000, 0x0000000000000000,
  0x0000000000000000, 0x0000000000000000, 0x0000000000000000, 0x0000000000000000,
  0x0000000000000000, 0x0000000000000001, 0x0000000000000002, 0x0000000000000004,
  0x0000000000000008, 0x0000000000000010, 0x0000000000000020, 0x0000000000000040,
  0x0000000000000000, 0x0000000000000100, 0x0000000000000201, 0x0000000000000402,
  0x0000000000000804, 0x0000000000001008, 0x0000000000002010, 0x0000000000004020,
  0x0000000000000000, 0x0000000000010000, 0x0000000000020100, 0x0000000000040201,
  0x0000000000080402, 0x0000000000100804, 0x0000000000201008, 0x0000000000402010,
  0x0000000000000000, 0x0000000001000000, 0x0000000002010000, 0x0000000004020100,
  0x0000000008040201, 0x0000000010080402, 0x0000000020100804, 0x0000000040201008,
  0x0000000000000000, 0x0000000100000000, 0x0000000201000000, 0x0000000402010000,
  0x0000000804020100, 0x0000001008040201, 0x0000002010080402, 0x0000004020100804,
  0x0000000000000000, 0x0000010000000000, 0x0000020100000000, 0x0000040201000000,
  0x0000080402010000, 0x0000100804020100, 0x0000201008040201, 0x0000402010080402,
  0x0000000000000000, 0x0001000000000000, 0x0002010000000000, 0x0004020100000000,
  0x0008040201000000, 0x0010080402010000, 0x0020100804020100, 0x0040201008040201]

def raySouthEastC : List Nat := [
  0x0000000000000000, 0x0000000000000000, 0x0000000000000000, 0x0000000000000000,
  0x0000000000000000, 0x0000000000000000, 0x0000000000000000, 0x0000000000000000,
  0x0000000000000002, 0x0000000000000004, 0x0000000000000008, 0x0000000000000010,
  0x0000000000000020, 0x0000000000000040, 0x0000000000000080, 0x0000000000000000,
  0x0000000000000204, 0x0000000000000408, 0x0000000000000810, 0x0000000000001020,
  0x0000000000002040, 0x0000000000004080, 0x0000000000008000, 0x0000000000000000,
  0x0000000000020408, 0x0000000000040810, 0x0000000000081020, 0x0000000000102040,
  0x0000000000204080, 0x0000000000408000, 0x0000000000800000, 0x0000000000000000,
  0x0000000002040810, 0x0000000004081020, 0x0000000008102040, 0x0000000010204080,
  0x0000000020408000, 0x0000000040800000, 0x0000000080000000, 0x0000000000000000,
  0x0000000204081020, 0x0000000408102040, 0x0000000810204080, 0x0000001020408000,
  0x0000002040800000, 0x0000004080000000, 0x0000008000000000, 0x0000000000000000,
  0x0000020408102040, 0x0000040810204080, 0x0000081020408000, 0x0000102040800000,
  0x0000204080000000, 0x0000408000000000, 0x0000800000000000, 0x0000000000000000,
  0x0002040810204080, 0x0004081020408000, 0x0008102040800000, 0x0010204080000000,
  0x0020408000000000, 0x0040800000000000, 0x0080000000000000, 0x0000000000000000]

def bishopAttacksC : List Nat := [
  0x8040201008040200, 0x0080402010080500, 0x0000804020110A00, 0x0000008041221400,
  0x0000000182442800, 0x0000010204885000, 0x000102040810A000, 0x0102040810204000,
  0x4020100804020002, 0x8040201008050005, 0x00804020110A000A, 0x0000804122140014,
  0x0000018244280028, 0x0001020488500050, 0x0102040810A000A0, 0x0204081020400040,
  0x2010080402000204, 0x4020100805000508, 0x804020110A000A11, 0x0080412214001422,
  0x0001824428002844, 0x0102048850005088, 0x02040810A000A010, 0x0408102040004020,
  0x1008040200020408, 0x2010080500050810, 0x4020110A000A1120, 0x8041221400142241,
  0x0182442800284482, 0x0204885000508804, 0x040810A000A01008, 0x0810204000402010,
  0x0804020002040810, 0x1008050005081020, 0x20110A000A112040, 0x4122140014224180,
  0x8244280028448201, 0x0488500050880402, 0x0810A000A0100804, 0x1020400040201008,
  0x0402000204081020, 0x0805000508102040, 0x110A000A11204080, 0x2214001422418000,
  0x4428002844820100, 0x8850005088040201, 0x10A000A010080402, 0x2040004020100804,
  0x0200020408102040, 0x0500050810204080, 0x0A000A1120408000, 0x1400142241800000,
  0x2800284482010000, 0x5000508804020100, 0xA000A01008040201, 0x4000402010080402,
  0x0002040810204080, 0x0005081020408000, 0x000A112040800000, 0x0014224180000000,
  0x0028448201000000, 0x0050880402010000, 0x00A0100804020100, 0x0040201008040201]

def rookAttacksC : List Nat := [
  0x01010101010101FE, 0x02020202020202FD, 0x04040404040404FB, 0x08080808080808F7,
  0x10101010101010EF, 0x20202020202020DF, 0x40404040404040BF, 0x808080808080807F,
  0x010101010101FE01, 0x020202020202FD02, 0x040404040404FB04, 0x080808080808F708,
  0x101010101010EF10, 0x202020202020DF20, 0x404040404040BF40, 0x8080808080807F80,
  0x0101010101FE0101, 0x0202020202FD0202, 0x0404040404FB0404, 0x0808080808F70808,
  0x1010101010EF1010, 0x2020202020DF2020, 0x4040404040BF4040, 0x80808080807F8080,
  0x01010101FE010101, 0x02020202FD020202, 0x04040404FB040404, 0x08080808F7080808,
  0x10101010EF101010, 0x20202020DF202020, 0x40404040BF404040, 0x808080807F808080,
  0x010101FE01010101, 0x020202FD02020202, 0x040404FB04040404, 0x080808F708080808,
  0x101010EF10101010, 0x202020DF20202020, 0x404040BF40404040, 0x8080807F80808080,
  0x0101FE0101010101, 0x0202FD0202020202, 0x0404FB0404040404, 0x0808F70808080808,
  0x1010EF1010101010, 0x2020DF2020202020, 0x4040BF4040404040, 0x80807F8080808080,
  0x01FE010101010101, 0x02FD020202020202, 0x04FB040404040404, 0x08F7080808080808,
  0x10EF101010101010, 0x20DF202020202020, 0x40BF404040404040, 0x807F808080808080,
  0xFE01010101010101, 0xFD02020202020202, 0xFB04040404040404, 0xF708080808080808,
  0xEF10101010101010, 0xDF20202020202020, 0xBF40404040404040, 0x7F80808080808080]

def bishopBlockersC : List Nat := [
  0x0040201008040200, 0x0000402010080400, 0x0000004020100A00, 0x0000000040221400,
  0x0000000002442800, 0x0000000204085000, 0x0000020408102000, 0x0002040810204000,
  0x0020100804020000, 0x0040201008040000, 0x00004020100A0000, 0x0000004022140000,
  0x0000000244280000, 0x0000020408500000, 0x0002040810200000, 0x0004081020400000,
  0x0010080402000200, 0x0020100804000400, 0x004020100A000A00, 0x0000402214001400,
  0x0000024428002800, 0x0002040850005000, 0x0004081020002000, 0x0008102040004000,
  0x0008040200020400, 0x0010080400040800, 0x0020100A000A1000, 0x0040221400142200,
  0x0002442800284400, 0x0004085000500800, 0x0008102000201000, 0x0010204000402000,
  0x0004020002040800, 0x0008040004081000, 0x00100A000A102000, 0x0022140014224000,
  0x0044280028440200, 0x0008500050080400, 0x0010200020100800, 0x0020400040201000,
  0x0002000204081000, 0x0004000408102000, 0x000A000A10204000, 0x0014001422400000,
  0x0028002844020000, 0x0050005008040200, 0x0020002010080400, 0x0040004020100800,
  0x0000020408102000, 0x0000040810204000, 0x00000A1020400000, 0x0000142240000000,
  0x0000284402000000, 0x0000500804020000, 0x0000201008040200, 0x0000402010080400,
  0x0002040810204000, 0x0004081020400000, 0x000A102040000000, 0x0014224000000000,
  0x0028440200000000, 0x0050080402000000, 0x0020100804020000, 0x0040201008040200]

def rookBlockersC : List Nat := [
  0x000101010101017E, 0x000202020202027C, 0x000404040404047A, 0x0008080808080876,
  0x001010101010106E, 0x002020202020205E, 0x004040404040403E, 0x008080808080807E,
  0x0001010101017E00, 0x0002020202027C00, 0x0004040404047A00, 0x0008080808087600,
  0x0010101010106E00, 0x0020202020205E00, 0x0040404040403E00, 0x0080808080807E00,
  0x00010101017E0100, 0x00020202027C0200, 0x00040404047A0400, 0x0008080808760800,
  0x00101010106E1000, 0x00202020205E2000, 0x00404040403E4000, 0x00808080807E8000,
  0x000101017E010100, 0x000202027C020200, 0x000404047A040400, 0x0008080876080800,
  0x001010106E101000, 0x002020205E202000, 0x004040403E404000, 0x008080807E808000,
  0x0001017E01010100, 0x0002027C02020200, 0x0004047A04040400, 0x0008087608080800,
  0x0010106E10101000, 0x0020205E20202000, 0x0040403E40404000, 0x0080807E80808000,
  0x00017E0101010100, 0x00027C0202020200, 0x00047A0404040400, 0x0008760808080800,
  0x00106E1010101000, 0x00205E2020202000, 0x00403E4040404000, 0x00807E8080808000,
  0x007E010101010100, 0x007C020202020200, 0x007A040404040400, 0x0076080808080800,
  0x006E101010101000, 0x005E202020202000, 0x003E404040404000, 0x007E808080808000,
  0x7E01010101010100, 0x7C02020202020200, 0x7A04040404040400, 0x7608080808080800,
  0x6E10101010101000, 0x5E20202020202000, 0x3E40404040404000, 0x7E80808080808000]

def numBishopBlockersC : List Nat := [
  6, 5, 5, 5,
  5, 5, 5, 6,
  5, 5, 5, 5,
  5, 5, 5, 5,
  5, 5, 7, 7,
  7, 7, 5, 5,
  5, 5, 7, 9,
  9, 7, 5, 5,
  5, 5, 7, 9,
  9, 7, 5, 5,
  5, 5, 7, 7,
  7, 7, 5, 5,
  5, 5, 5, 5,
  5, 5, 5, 5,
  6, 5, 5, 5,
  5, 5, 5, 6]

def numRookBlockersC : List Nat := [
  12, 11, 11, 11,
  11, 11, 11, 12,
  11, 10, 10, 10,
  10, 10, 10, 11,
  11, 10, 10, 10,
  10, 10, 10, 11,
  11, 10, 10, 10,
  10, 10, 10, 11,
  11, 10, 10, 10,
  10, 10, 10, 11,
  11, 10, 10, 10,
  10, 10, 10, 11,
  11, 10, 10, 10,
  10, 10, 10, 11,
  12, 11, 11, 11,
  11, 11, 11, 12]

def bishopMagicsC : List Nat := [
  0x89a1121896040240, 0x2004844802002010, 0x2068080051921000, 0x62880a0220200808,
  0x0004042004000000, 0x0100822020200011, 0xc00444222012000a, 0x0028808801216001,
  0x0400492088408100, 0x0201c401040c0084, 0x00840800910a0010, 0x0000082080240060,
  0x2000840504006000, 0x30010c4108405004, 0x1008005410080802, 0x8144042209100900,
  0x0208081020014400, 0x004800201208ca00, 0x0F18140408012008, 0x1004002802102001,
  0x0841000820080811, 0x0040200200a42008, 0x0000800054042000, 0x88010400410c9000,
  0x0520040470104290, 0x1004040051500081, 0x2002081833080021, 0x000400c00c010142,
  0x941408200c002000, 0x0658810000806011, 0x0188071040440a00, 0x4800404002011c00,
  0x0104442040404200, 0x0511080202091021, 0x0004022401120400, 0x80c0040400080120,
  0x8040010040820802, 0x0480810700020090, 0x0102008e00040242, 0x0809005202050100,
  0x8002024220104080, 0x0431008804142000, 0x0019001802081400, 0x0200014208040080,
  0x3308082008200100, 0x041010500040c020, 0x4012020c04210308, 0x208220a202004080,
  0x0111040120082000, 0x6803040141280a00, 0x2101004202410000, 0x8200000041108022,
  0x0000021082088000, 0x0002410204010040, 0x0040100400809000, 0x0822088220820214,
  0x0040808090012004, 0x00910224040218c9, 0x0402814422015008, 0x0090014004842410,
  0x0001000042304105, 0x0010008830412a00, 0x2520081090008908, 0x40102000a0a60140]

def rookMagicsC : List Nat := [
  0x0A8002C000108020, 0x06C00049B0002001, 0x0100200010090040, 0x2480041000800801,
  0x0280028004000800, 0x0900410008040022, 0x0280020001001080, 0x2880002041000080,
  0xA000800080400034, 0x0004808020004000, 0x2290802004801000, 0x0411000D00100020,
  0x0402800800040080, 0x000B000401004208, 0x2409000100040200, 0x0001002100004082,
  0x0022878001E24000, 0x1090810021004010, 0x0801030040200012, 0x0500808008001000,
  0x0A08018014000880, 0x8000808004000200, 0x0201008080010200, 0x0801020000441091,
  0x0000800080204005, 0x1040200040100048, 0x0000120200402082, 0x0D14880480100080,
  0x0012040280080080, 0x0100040080020080, 0x9020010080800200, 0x0813241200148449,
  0x0491604001800080, 0x0100401000402001, 0x4820010021001040, 0x0400402202000812,
  0x0209009005000802, 0x0810800601800400, 0x4301083214000150, 0x204026458E001401,
  0x0040204000808000, 0x8001008040010020, 0x8410820820420010, 0x1003001000090020,
  0x0804040008008080, 0x0012000810020004, 0x1000100200040208, 0x430000A044020001,
  0x0280009023410300, 0x00E0100040002240, 0x0000200100401700, 0x2244100408008080,
  0x0008000400801980, 0x0002000810040200, 0x8010100228810400, 0x2000009044210200,
  0x4080008040102101, 0x0040002080411D01, 0x2005524060000901, 0x0502001008400422,
  0x489A000810200402, 0x0001004400080A13, 0x4000011008020084, 0x0026002114058042]


/-- array read of a 64-entry constant table (C array indexing). -/
def tbl (l : List Nat) (sq : Nat) : Nat := l.getD sq 0

def rayNorth (sq : Nat) : Nat := tbl rayNorthC sq
def raySouth (sq : Nat) : Nat := tbl raySouthC sq
def rayEast (sq : Nat) : Nat := tbl rayEastC sq
def rayWest (sq : Nat) : Nat := tbl rayWestC sq
def rayNorthWest (sq : Nat) : Nat := tbl rayNorthWestC sq
def rayNorthEast (sq : Nat) : Nat := tbl rayNorthEastC sq
def raySouthWest (sq : Nat) : Nat := tbl raySouthWestC sq
def raySouthEast (sq : Nat) : Nat := tbl raySouthEastC sq
def bishopAttacks (sq : Nat) : Nat := tbl bishopAttacksC sq
def rookAttacks (sq : Nat) : Nat := tbl rookAttacksC sq
def bishopBlockers (sq : Nat) : Nat := tbl bishopBlockersC sq
def rookBlockers (sq : Nat) : Nat := tbl rookBlockersC sq
def numBishopBlockers (sq : Nat) : Nat := tbl numBishopBlockersC sq
def numRookBlockers (sq : Nat) : Nat := tbl numRookBlockersC sq
def bishopMagics (sq : Nat) : Nat := tbl bishopMagicsC sq
def rookMagics (sq : Nat) : Nat := tbl rookMagicsC sq

/-- bishopAttacksSlow of src/ChessEngine/Attack.cpp: ray attacks limited
by the nearest blocker in each diagonal direction (`~x` on uint64 is
`x ^^^ U64`). -/
def bishopAttacksSlow (square : Nat) (allPieces : Nat) : Nat :=
  let bishopMoves := bishopAttacks square
  let blockersNorthEast := rayNorthEast square &&& allPieces
  let blockersNorthWest := rayNorthWest square &&& allPieces
  let blockersSouthEast := raySouthEast square &&& allPieces
  let blockersSouthWest := raySouthWest square &&& allPieces
  let bishopMoves := if blockersNorthEast != 0 then
    bishopMoves &&& (rayNorthEast (getLSB blockersNorthEast) ^^^ U64) else bishopMoves
  let bishopMoves := if blockersNorthWest != 0 then
    bishopMoves &&& (rayNorthWest (getLSB blockersNorthWest) ^^^ U64) else bishopMoves
  let bishopMoves := if blockersSouthEast != 0 then
    bishopMoves &&& (raySouthEast (getMSB blockersSouthEast) ^^^ U64) else bishopMoves
  let bishopMoves := if blockersSouthWest != 0 then
    bishopMoves &&& (raySouthWest (getMSB blockersSouthWest) ^^^ U64) else bishopMoves
  bishopMoves

/-- rookAttacksSlow of src/ChessEngine/Attack.cpp. -/
def rookAttacksSlow (square : Nat) (allPieces : Nat) : Nat :=
  let rookMoves := rookAttacks square
  let blockersNorth := rayNorth square &&& allPieces
  let blockersSouth := raySouth square &&& allPieces
  let blockersEast := rayEast square &&& allPieces
  let blockersWest := rayWest square &&& allPieces
  let rookMoves := if blockersNorth != 0 then
    rookMoves &&& (rayNorth (getLSB blockersNorth) ^^^ U64) else rookMoves
  let rookMoves := if blockersSouth != 0 then
    rookMoves &&& (raySouth (getMSB blockersSouth) ^^^ U64) else rookMoves
  let rookMoves := if blockersEast != 0 then
    rookMoves &&& (rayEast (getLSB blockersEast) ^^^ U64) else rookMoves
  let rookMoves := if blockersWest != 0 then
    rookMoves &&& (rayWest (getMSB blockersWest) ^^^ U64) else rookMoves
  rookMoves

/-- the blocker-subset construction of initializeBishopAttackTable /
initializeRookAttackTable: bit `i` of `blockerIdx` decides whether the
`i`-th lowest bit of the blocker mask is occupied.  Fuel-bounded mirror
of `for (int i = 0; innerAttacks; i++) { ... innerAttacks &= innerAttacks - 1; }`
(64 units of fuel cover any 64-bit mask). -/
def subsetOfAux : Nat → Nat → Nat → Nat → Nat → Nat
  | 0, _, _, _, blockers => blockers
  | fuel + 1, innerAttacks, blockerIdx, i, blockers =>
    if innerAttacks == 0 then blockers
    else
      let blockers := if blockerIdx &&& (1 <<< i) != 0 then
        blockers ||| (1 <<< getLSB innerAttacks) else blockers
      subsetOfAux fuel (innerAttacks &&& (innerAttacks - 1)) blockerIdx (i + 1) blockers

def subsetOf (mask blockerIdx : Nat) : Nat := subsetOfAux 64 mask blockerIdx 0 0

/-- the magic-multiplication index: `(blockers * magic) >> shift` in
64-bit arithmetic. -/
def magicIndex (magic shift blockers : Nat) : Nat :=
  ((blockers * magic) &&& U64) >>> shift

/-- the attack-table filling loop of initializeBishopAttackTable /
initializeRookAttackTable for one square: iterate `blockerIdx` from 0 to
`numBlockerBoards`, writing `valFn subset` at the magic index of the
subset (later iterations overwrite earlier ones, as in the C array). -/
def fillTable (valFn : Nat → Nat) (mask magic shift : Nat) :
    Nat → (Nat → Nat) → (Nat → Nat)
  | 0, t => t
  | k + 1, t =>
    Function.update (fillTable valFn mask magic shift k t)
      (magicIndex magic shift (subsetOf mask k)) (valFn (subsetOf mask k))

/-- bishopAttackTable[sq] after initializeBishopAttackTable (the C table
starts zero-initialized). -/
def bishopAttackTable (sq : Nat) : Nat → Nat :=
  fillTable (fun blockers => bishopAttacksSlow sq blockers) (bishopBlockers sq)
    (bishopMagics sq) (64 - numBishopBlockers sq) (1 <<< numBishopBlockers sq)
    (fun _ => 0)

/-- rookAttackTable[sq] after initializeRookAttackTable. -/
def rookAttackTable (sq : Nat) : Nat → Nat :=
  fillTable (fun blockers => rookAttacksSlow sq blockers) (rookBlockers sq)
    (rookMagics sq) (64 - numRookBlockers sq) (1 <<< numRookBlockers sq)
    (fun _ => 0)

/-- getBishopAttacks of src/ChessEngine/Attack.cpp. -/
def getBishopAttacks (sq : Nat) (allPieces : Nat) : Nat :=
  let blockers := allPieces &&& bishopBlockers sq
  bishopAttackTable sq (magicIndex (bishopMagics sq) (64 - numBishopBlockers sq) blockers)

/-- getRookAttacks of src/ChessEngine/Attack.cpp. -/
def getRookAttacks (sq : Nat) (allPieces : Nat) : Nat :=
  let blockers := allPieces &&& rookBlockers sq
  rookAttackTable sq (magicIndex (rookMagics sq) (64 - numRookBlockers sq) blockers)

/-- getQueenAttacks of src/ChessEngine/Attack.cpp. -/
def getQueenAttacks (sq : Nat) (allPieces : Nat) : Nat :=
  getBishopAttacks sq allPieces ||| getRookAttacks sq allPieces

/-! Leaper attacks.  The latest iteration of the engine (src/src) only
declares these in its attack interface (src/ChessEngine/src/Attack.h);
their implementation file is not in the repository snapshot, so they are
modelled from the specification (section 4.1). -/

def fileA : Nat := 0x0101010101010101
def fileH : Nat := 0x8080808080808080
def notFileA : Nat := fileA ^^^ U64
def notFileH : Nat := fileH ^^^ U64
def notFileAB : Nat := (fileA ||| (fileA <<< 1)) ^^^ U64
def notFileGH : Nat := (fileH ||| (fileH >>> 1)) ^^^ U64

/-- Modelled from the spec: getKingAttacks (declared in
src/ChessEngine/src/Attack.h, implementation missing).  Spec 4.1: king
attacks of a bitboard `k` are
`(k<<8)|(k>>8)|((k<<1|k>>7|k<<9)&~fileA)|((k>>1|k<<7|k>>9)&~fileH)`. -/
def getKingAttacks (king : Nat) : Nat :=
  ((king <<< 8) &&& U64) ||| (king >>> 8) |||
    (((king <<< 1) ||| (king >>> 7) ||| (king <<< 9)) &&& notFileA) |||
    (((king >>> 1) ||| (king <<< 7) ||| (king >>> 9)) &&& notFileH)

/-- Modelled from the spec: getKnightAttacks (declared in
src/ChessEngine/src/Attack.h, implementation missing).  Spec 4.1: eight
shifts of the knight's square bit, each masked to exclude file
wrap-around. -/
def getKnightAttacks (square : Nat) : Nat :=
  let n := 1 <<< square
  ((n <<< 17) &&& notFileA) ||| ((n <<< 15) &&& notFileH) |||
    ((n <<< 10) &&& notFileAB) ||| ((n <<< 6) &&& notFileGH) |||
    ((n >>> 17) &&& notFileH) ||| ((n >>> 15) &&& notFileA) |||
    ((n >>> 10) &&& notFileGH) ||| ((n >>> 6) &&& notFileAB)

/-- Modelled from the spec: getWhitePawnAttacksLeft (declared in
src/ChessEngine/src/Attack.h, implementation missing).  Spec 4.1: white
pawn captures `(pawns<<7)&~fileH` (left). -/
def getWhitePawnAttacksLeft (pawns : Nat) : Nat := (pawns <<< 7) &&& notFileH

/-- Modelled from the spec: getWhitePawnAttacksRight.  Spec 4.1:
`(pawns<<9)&~fileA` (right). -/
def getWhitePawnAttacksRight (pawns : Nat) : Nat := (pawns <<< 9) &&& notFileA

/-- Modelled from the spec: getBlackPawnAttacksLeft.  Spec 4.1: black
pawn captures shift right by 7 with the mask symmetric to the white
left capture (a black pawn capturing toward the h-file lands one file
higher, so the wrap-around to file a is masked off). -/
def getBlackPawnAttacksLeft (pawns : Nat) : Nat := (pawns >>> 7) &&& notFileA

/-- Modelled from the spec: getBlackPawnAttacksRight.  Spec 4.1: shift
right by 9, masking the wrap-around to file h. -/
def getBlackPawnAttacksRight (pawns : Nat) : Nat := (pawns >>> 9) &&& notFileH

end DB.attack

namespace DB

/-! Constants from src/src/defs.h. -/

def WHITE : Int := 0
def BLACK : Int := 1
def BOTH_COLORS : Int := 2

def WHITE_PAWN : Int := 0
def WHITE_KNIGHT : Int := 1
def WHITE_BISHOP : Int := 2
def WHITE_ROOK : Int := 3
def WHITE_QUEEN : Int := 4
def WHITE_KING : Int := 5
def BLACK_PAWN : Int := 6
def BLACK_KNIGHT : Int := 7
def BLACK_BISHOP : Int := 8
def BLACK_ROOK : Int := 9
def BLACK_QUEEN : Int := 10
def BLACK_KING : Int := 11
def PAWN : Int := 0
def KNIGHT : Int := 1
def BISHOP : Int := 2
def ROOK : Int := 3
def QUEEN : Int := 4
def KING : Int := 5

def INVALID : Int := -1
def NUM_PIECE_TYPES : Int := 12
def MAX_SEARCH_DEPTH : Nat := 128

def MOVE_FLAGS : Nat := 0x1F00000
def CAPTURE_FLAG : Nat := 0x0100000
def PROMOTION_FLAG : Nat := 0x0200000
def CAPTURE_AND_PROMOTION_FLAG : Nat := 0x0300000
def CASTLE_FLAG : Nat := 0x0400000
def EN_PASSANT_FLAG : Nat := 0x0800000
def PAWN_START_FLAG : Nat := 0x1000000

def CASTLE_WK : Nat := 0x1
def CASTLE_WQ : Nat := 0x2
def CASTLE_BK : Nat := 0x4
def CASTLE_BQ : Nat := 0x8

/-- squares (A1 = 0 .. H8 = 63); only the ones the sources name. -/
def A1 : Nat := 0
def B1 : Nat := 1
def C1 : Nat := 2
def D1 : Nat := 3
def E1 : Nat := 4
def F1 : Nat := 5
def G1 : Nat := 6
def H1 : Nat := 7
def A8 : Nat := 56
def C8 : Nat := 58
def D8 : Nat := 59
def E8 : Nat := 60
def F8 : Nat := 61
def G8 : Nat := 62
def H8 : Nat := 63

def defaultPiecesC : List Int := [
  3, 1, 2, 4, 5, 2, 1, 3,
  0, 0, 0, 0, 0, 0, 0, 0,
  -1, -1, -1, -1, -1, -1, -1, -1,
  -1, -1, -1, -1, -1, -1, -1, -1,
  -1, -1, -1, -1, -1, -1, -1, -1,
  -1, -1, -1, -1, -1, -1, -1, -1,
  6, 6, 6, 6, 6, 6, 6, 6,
  9, 7, 8, 10, 11, 8, 7, 9]

def pieceColorC : List Int := [0, 0, 0, 0, 0, 0, 1, 1, 1, 1, 1, 1]

/-- pieceColor array access; the value at the junk index `-1` (undefined
behavior in C++) is the list default. -/
def pieceColor (p : Int) : Int := pieceColorC.getD p.toNat 0

def pieceMaterialC : List Int := [100, 325, 330, 500, 900, 0, 100, 325, 330, 500, 900, 0]

def pieceMaterial (p : Int) : Int := pieceMaterialC.getD p.toNat 0

def startingMaterial : Int := 4010

def pieceTypeC : List (List Int) := [[0, 1, 2, 3, 4, 5], [6, 7, 8, 9, 10, 11]]

def pieceType (color t : Int) : Int := (pieceTypeC.getD color.toNat []).getD t.toNat 0

/-- C logical negation, `sideToMove = !sideToMove`. -/
def cNot (s : Int) : Int := if s == 0 then 1 else 0

/-- 4-bit AND between a C `int` and a mask below 16, in two's complement
(`a % 16` is the low nibble of `a`'s two's-complement representation,
e.g. `intAnd16 (-1) 0xD = 0xD`); used for `castlePerms &= ...` and the
castle-right tests, whose operands only ever involve the low 4 bits. -/
def intAnd16 (a : Int) (m : Nat) : Int := ((a % 16).toNat &&& m : Nat)

end DB

namespace DB

/-- the Zobrist hash-key material.  HashKey.cpp draws these from a PRNG
seeded by `std::random_device` at engine start-up; the embedding is
parameterized by an arbitrary assignment. -/
structure HashKeys where
  sideKey : Nat
  pieceKeys : Int → Nat → Nat
  castleKeys : Int → Nat
  enPassantKeys : Int → Nat

/-- all-zero key material, used to instantiate witnesses. -/
def hk0 : HashKeys := ⟨0, fun _ _ => 0, fun _ => 0, fun _ => 0⟩

/-- one entry of the Board history vector (struct PrevMove,
src/src/board.cpp). -/
structure PrevMove where
  move : Nat
  castlePerms : Int
  fiftyMoveCount : Int
  enPassantSquare : Int
  positionKey : Nat
deriving DecidableEq

/-- junk PrevMove returned when reading the back of an empty history
(undefined behavior in C++; never relied upon). -/
def noPrev : PrevMove := ⟨0, 0, 0, 0, 0⟩

/-- the Board class of src/src/board.cpp.  Arrays are total functions;
the mailbox `pieces` maps squares 0-63 to a piece id or `-1`. -/
structure Board where
  pieceBitboards : Int → Nat
  colorBitboards : Int → Nat
  pieces : Nat → Int
  sideToMove : Int
  castlePerms : Int
  enPassantSquare : Int
  fiftyMoveCount : Int
  ply : Int
  searchPly : Int
  material : Int → Int
  positionKey : Nat
  history : List PrevMove
  hasCastled : Int → Bool

namespace Board

/-- Board::addPiece (src/src/board.cpp). -/
def addPiece (hk : HashKeys) (b : Board) (square : Nat) (piece : Int) : Board :=
  let mask := 1 <<< square
  let cb1 := Function.update b.colorBitboards (pieceColor piece)
    (b.colorBitboards (pieceColor piece) ^^^ mask)
  { b with
    pieces := Function.update b.pieces square piece
    pieceBitboards := Function.update b.pieceBitboards piece
      (b.pieceBitboards piece ^^^ mask)
    colorBitboards := Function.update cb1 BOTH_COLORS (cb1 BOTH_COLORS ^^^ mask)
    material := Function.update b.material (pieceColor piece)
      (b.material (pieceColor piece) + pieceMaterial piece)
    positionKey := b.positionKey ^^^ hk.pieceKeys piece square }

/-- Board::clearPiece (src/src/board.cpp). -/
def clearPiece (hk : HashKeys) (b : Board) (square : Nat) : Board :=
  let piece := b.pieces square
  let mask := 1 <<< square
  let cb1 := Function.update b.colorBitboards (pieceColor piece)
    (b.colorBitboards (pieceColor piece) ^^^ mask)
  { b with
    pieces := Function.update b.pieces square (-1)
    pieceBitboards := Function.update b.pieceBitboards piece
      (b.pieceBitboards piece ^^^ mask)
    colorBitboards := Function.update cb1 BOTH_COLORS (cb1 BOTH_COLORS ^^^ mask)
    material := Function.update b.material (pieceColor piece)
      (b.material (pieceColor piece) - pieceMaterial piece)
    positionKey := b.positionKey ^^^ hk.pieceKeys piece square }

/-- Board::movePiece (src/src/board.cpp); `pieces[to] = piece` is written
before `pieces[from] = NO_PIECE`, as in the source. -/
def movePiece (hk : HashKeys) (b : Board) (fromSq toSq : Nat) : Board :=
  let piece := b.pieces fromSq
  let mask := (1 <<< toSq) ||| (1 <<< fromSq)
  let cb1 := Function.update b.colorBitboards (pieceColor piece)
    (b.colorBitboards (pieceColor piece) ^^^ mask)
  { b with
    pieces := Function.update (Function.update b.pieces toSq piece) fromSq (-1)
    pieceBitboards := Function.update b.pieceBitboards piece
      (b.pieceBitboards piece ^^^ mask)
    colorBitboards := Function.update cb1 BOTH_COLORS (cb1 BOTH_COLORS ^^^ mask)
    positionKey := b.positionKey ^^^ hk.pieceKeys piece fromSq ^^^ hk.pieceKeys piece toSq }

/-- the castlePermissions mask table of src/src/board.cpp. -/
def castlePermissionsC : List Nat := [
  0xD, 0xF, 0xF, 0xF, 0xC, 0xF, 0xF, 0xE,
  0xF, 0xF, 0xF, 0xF, 0xF, 0xF, 0xF, 0xF,
  0xF, 0xF, 0xF, 0xF, 0xF, 0xF, 0xF, 0xF,
  0xF, 0xF, 0xF, 0xF, 0xF, 0xF, 0xF, 0xF,
  0xF, 0xF, 0xF, 0xF, 0xF, 0xF, 0xF, 0xF,
  0xF, 0xF, 0xF, 0xF, 0xF, 0xF, 0xF, 0xF,
  0xF, 0xF, 0xF, 0xF, 0xF, 0xF, 0xF, 0xF,
  0x7, 0xF, 0xF, 0xF, 0x3, 0xF, 0xF, 0xB]

def castlePermissions (sq : Nat) : Nat := castlePermissionsC.getD sq 0xF

/-- generic OR-fold over the one bits of a bitboard, mirroring
`while (bb) { acc |= f(getLSB(bb)); bb &= bb - 1; }`; 64 units of fuel
cover any 64-bit bitboard. -/
def foldBits (f : Nat → Nat) : Nat → Nat → Nat
  | 0, _ => 0
  | fuel + 1, bb =>
    if bb == 0 then 0
    else f (getLSB bb) ||| foldBits f fuel (bb &&& (bb - 1))

/-- Board::squaresAttacked (src/src/board.cpp). -/
def squaresAttacked (b : Board) (squares : Nat) (side : Int) : Bool :=
  let leapers :=
    if side == WHITE then
      attack.getKingAttacks (b.pieceBitboards WHITE_KING) |||
        attack.getWhitePawnAttacksLeft (b.pieceBitboards WHITE_PAWN) |||
        attack.getWhitePawnAttacksRight (b.pieceBitboards WHITE_PAWN)
    else
      attack.getKingAttacks (b.pieceBitboards BLACK_KING) |||
        attack.getBlackPawnAttacksLeft (b.pieceBitboards BLACK_PAWN) |||
        attack.getBlackPawnAttacksRight (b.pieceBitboards BLACK_PAWN)
  let knights := b.pieceBitboards (if side == WHITE then WHITE_KNIGHT else BLACK_KNIGHT)
  let bishops := b.pieceBitboards (if side == WHITE then WHITE_BISHOP else BLACK_BISHOP)
  let rooks := b.pieceBitboards (if side == WHITE then WHITE_ROOK else BLACK_ROOK)
  let queens := b.pieceBitboards (if side == WHITE then WHITE_QUEEN else BLACK_QUEEN)
  let allPieces := b.colorBitboards BOTH_COLORS
  let attacks := leapers |||
    foldBits (fun s => attack.getKnightAttacks s) 64 knights |||
    foldBits (fun s => attack.getBishopAttacks s allPieces) 64 bishops |||
    foldBits (fun s => attack.getRookAttacks s allPieces) 64 rooks |||
    foldBits (fun s => attack.getQueenAttacks s allPieces) 64 queens
  (attacks &&& squares) != 0

/-- the key fold of Board::generatePositionKey over squares `0..n-1`. -/
def pieceKeysFold (hk : HashKeys) (pieces : Nat → Int) : Nat → Nat
  | 0 => 0
  | n + 1 =>
    pieceKeysFold hk pieces n ^^^
      (if pieces n != -1 then hk.pieceKeys (pieces n) n else 0)

/-- Board::generatePositionKey (src/src/board.cpp). -/
def generatePositionKey (hk : HashKeys) (b : Board) : Nat :=
  (if b.sideToMove == WHITE then hk.sideKey else 0) ^^^
    pieceKeysFold hk b.pieces 64 ^^^
    hk.castleKeys b.castlePerms ^^^
    (if b.enPassantSquare != -1 then hk.enPassantKeys b.enPassantSquare else 0)

/-- the Undo record pushed by Board::makeMove before mutating. -/
def mmRecord (b : Board) (move : Nat) : PrevMove :=
  ⟨move, b.castlePerms, b.fiftyMoveCount, b.enPassantSquare, b.positionKey⟩

/-- first phase of Board::makeMove (src/src/board.cpp lines 230-251):
push the history record, bump the plies, clear the en passant square,
update the fifty move counter and the castle permissions, maintaining
the position key. -/
def mmBookkeep (hk : HashKeys) (b : Board) (move : Nat) : Board :=
  let fromSq := move &&& 0x3F
  let toSq := (move >>> 6) &&& 0x3F
  let b := { b with history := b.history ++ [mmRecord b move],
                    ply := b.ply + 1, searchPly := b.searchPly + 1 }
  let b :=
    if b.enPassantSquare != -1 then
      { b with positionKey := b.positionKey ^^^ hk.enPassantKeys b.enPassantSquare,
               enPassantSquare := -1 }
    else b
  let b :=
    if (move &&& CAPTURE_FLAG) != 0 || b.pieces fromSq == WHITE_PAWN ||
        b.pieces fromSq == BLACK_PAWN then
      { b with fiftyMoveCount := 0 }
    else
      { b with fiftyMoveCount := b.fiftyMoveCount + 1 }
  let b := { b with positionKey := b.positionKey ^^^ hk.castleKeys b.castlePerms }
  let newPerms := intAnd16 b.castlePerms
    (castlePermissions fromSq &&& castlePermissions toSq)
  let b := { b with castlePerms := newPerms }
  { b with positionKey := b.positionKey ^^^ hk.castleKeys b.castlePerms }

/-- second phase of Board::makeMove: the `switch (move & MOVE_FLAGS)`
block (capture, promotion, castle, pawn start, en passant). -/
def mmSwitch (hk : HashKeys) (b : Board) (move : Nat) : Board :=
  let fromSq := move &&& 0x3F
  let toSq := (move >>> 6) &&& 0x3F
  let flags := move &&& MOVE_FLAGS
  if flags == CAPTURE_FLAG then clearPiece hk b toSq
  else if flags == CAPTURE_AND_PROMOTION_FLAG then
    let b := clearPiece hk (clearPiece hk b toSq) fromSq
    addPiece hk b fromSq ((move >>> 16) &&& 0xF : Nat)
  else if flags == PROMOTION_FLAG then
    addPiece hk (clearPiece hk b fromSq) fromSq ((move >>> 16) &&& 0xF : Nat)
  else if flags == CASTLE_FLAG then
    let b :=
      if toSq == G1 then movePiece hk b H1 F1
      else if toSq == C1 then movePiece hk b A1 D1
      else if toSq == G8 then movePiece hk b H8 F8
      else if toSq == C8 then movePiece hk b A8 D8
      else b
    { b with hasCastled := Function.update b.hasCastled b.sideToMove true }
  else if flags == PAWN_START_FLAG then
    let ep : Nat := (toSq + fromSq) / 2
    { b with enPassantSquare := (ep : Int),
             positionKey := b.positionKey ^^^ hk.enPassantKeys (ep : Int) }
  else if flags == EN_PASSANT_FLAG then
    clearPiece hk b ((toSq : Int) + b.sideToMove * 16 - 8).toNat
  else b

/-- third phase of Board::makeMove: move the piece and flip the side to
move, maintaining the position key. -/
def mmFinish (hk : HashKeys) (b : Board) (move : Nat) : Board :=
  let b := movePiece hk b (move &&& 0x3F) ((move >>> 6) &&& 0x3F)
  { b with sideToMove := cNot b.sideToMove,
           positionKey := b.positionKey ^^^ hk.sideKey }

/-- the state mutation of Board::makeMove, before the legality check. -/
def makeMoveState (hk : HashKeys) (b : Board) (move : Nat) : Board :=
  mmFinish hk (mmSwitch hk (mmBookkeep hk b move) move) move

/-- first phase of Board::undoMove (src/src/board.cpp lines 301-342):
drop the plies and flip the side to move back. -/
def umStart (b : Board) : Board :=
  { b with ply := b.ply - 1, searchPly := b.searchPly - 1,
           sideToMove := cNot b.sideToMove }

/-- second phase of Board::undoMove: move the piece back.  Reading the
back of an empty history is undefined behavior in C++ and yields the
junk record here. -/
def umMove (hk : HashKeys) (b : Board) : Board :=
  let move := (b.history.getLastD noPrev).move
  movePiece hk b ((move >>> 6) &&& 0x3F) (move &&& 0x3F)

/-- third phase of Board::undoMove: invert the `switch (move & MOVE_FLAGS)`
block. -/
def umSwitch (hk : HashKeys) (b : Board) : Board :=
  let move := (b.history.getLastD noPrev).move
  let fromSq := move &&& 0x3F
  let toSq := (move >>> 6) &&& 0x3F
  let flags := move &&& MOVE_FLAGS
  if flags == CAPTURE_FLAG then
    addPiece hk b toSq ((move >>> 12) &&& 0xF : Nat)
  else if flags == CAPTURE_AND_PROMOTION_FLAG then
    let b := addPiece hk b toSq ((move >>> 12) &&& 0xF : Nat)
    addPiece hk (clearPiece hk b fromSq) fromSq (pieceType b.sideToMove PAWN)
  else if flags == PROMOTION_FLAG then
    addPiece hk (clearPiece hk b fromSq) fromSq (pieceType b.sideToMove PAWN)
  else if flags == CASTLE_FLAG then
    let b :=
      if toSq == G1 then movePiece hk b F1 H1
      else if toSq == C1 then movePiece hk b D1 A1
      else if toSq == G8 then movePiece hk b F8 H8
      else if toSq == C8 then movePiece hk b D8 A8
      else b
    { b with hasCastled := Function.update b.hasCastled b.sideToMove false }
  else if flags == EN_PASSANT_FLAG then
    addPiece hk b ((toSq : Int) + b.sideToMove * 16 - 8).toNat
      (pieceType (cNot b.sideToMove) PAWN)
  else b

/-- fourth phase of Board::undoMove: restore castle permissions, fifty
move counter, en passant square and position key from the record, and
pop it. -/
def umRestore (b : Board) : Board :=
  let pm := b.history.getLastD noPrev
  { b with castlePerms := pm.castlePerms, fiftyMoveCount := pm.fiftyMoveCount,
           enPassantSquare := pm.enPassantSquare, positionKey := pm.positionKey,
           history := b.history.dropLast }

/-- Board::undoMove (src/src/board.cpp). -/
def undoMove (hk : HashKeys) (b : Board) : Board :=
  umRestore (umSwitch hk (umMove hk (umStart b)))

/-- Board::makeMove (src/src/board.cpp); returns the updated board and
the legality flag (`false` means the move left the king in check and was
undone internally). -/
def makeMove (hk : HashKeys) (b : Board) (move : Nat) : Board × Bool :=
  let b2 := makeMoveState hk b move
  let king := if b.sideToMove == WHITE then WHITE_KING else BLACK_KING
  if squaresAttacked b2 (b2.pieceBitboards king) b2.sideToMove then
    (undoMove hk b2, false)
  else (b2, true)

/-- Board::isRepetition scanning loop: compare the current position key
with `history[i]` for `i = start, start - 2, ...` while `i >= stop`. -/
def repAux (b : Board) (stop : Int) : Nat → Int → Bool
  | 0, _ => false
  | fuel + 1, i =>
    if i ≥ stop then
      if b.positionKey == (b.history.getD i.toNat noPrev).positionKey then true
      else repAux b stop fuel (i - 2)
    else false

/-- Board::isRepetition (src/src/board.cpp). -/
def isRepetition (b : Board) : Bool :=
  let size : Int := b.history.length
  let start := size - 2
  let stop := max 0 (size - b.fiftyMoveCount)
  repAux b stop (b.history.length + 1) start

/-- Board::getPreviousMove (src/src/board.cpp): the last move played, or
INVALID at ply 0. -/
def getPreviousMove (b : Board) : Int :=
  if b.ply == 0 then INVALID else ((b.history.getLastD noPrev).move : Int)

/-- Board::reset (src/src/board.cpp): the standard starting position. -/
def reset (hk : HashKeys) (b : Board) : Board :=
  let pbb : Int → Nat := fun p =>
    if p == WHITE_PAWN then 0x000000000000FF00
    else if p == WHITE_KNIGHT then 0x0000000000000042
    else if p == WHITE_BISHOP then 0x0000000000000024
    else if p == WHITE_ROOK then 0x0000000000000081
    else if p == WHITE_QUEEN then 0x0000000000000008
    else if p == WHITE_KING then 0x0000000000000010
    else if p == BLACK_PAWN then 0x00FF000000000000
    else if p == BLACK_KNIGHT then 0x4200000000000000
    else if p == BLACK_BISHOP then 0x2400000000000000
    else if p == BLACK_ROOK then 0x8100000000000000
    else if p == BLACK_QUEEN then 0x0800000000000000
    else if p == BLACK_KING then 0x1000000000000000
    else b.pieceBitboards p
  let cbb : Int → Nat := fun c =>
    if c == WHITE then 0x000000000000FFFF
    else if c == BLACK then 0xFFFF000000000000
    else if c == BOTH_COLORS then 0xFFFF00000000FFFF
    else b.colorBitboards c
  let b' : Board :=
    { pieceBitboards := pbb
      colorBitboards := cbb
      pieces := fun sq => defaultPiecesC.getD sq (-1)
      sideToMove := WHITE
      castlePerms := 0xF
      enPassantSquare := INVALID
      ply := 0, searchPly := 0, fiftyMoveCount := 0
      material := fun c =>
        if c == 0 || c == 1 then startingMaterial else b.material c
      positionKey := 0
      history := []
      hasCastled := fun c => if c == 0 || c == 1 then false else b.hasCastled c }
  { b' with positionKey := generatePositionKey hk b' }

end Board

/-- Modelled from the spec: START_POS, the standard initial-position FEN
string (declared in a header missing from src/; the sibling tree names
it INITIAL_POSITION with this exact value). -/
def START_POS : List Char :=
  "rnbqkbnr/pppppppp/8/8/8/8/PPPPPPPP/RNBQKBNR w KQkq - 0 1".toList

namespace Board

/-- the split helper of boardstring.cpp: cut at every delimiter, keeping
empty substrings (a trailing delimiter yields a trailing empty token). -/
def fenSplit (delim : Char) : List Char → List (List Char)
  | [] => [[]]
  | c :: cs =>
    if c == delim then [] :: fenSplit delim cs
    else
      match fenSplit delim cs with
      | [] => [[c]]
      | t :: ts => (c :: t) :: ts

/-- the containsOnly helper of boardstring.cpp. -/
def containsOnly (s chars : List Char) : Bool :=
  s.all (fun c => chars.contains c)

/-- the piece-character cases of the layout switch in Board::setToFEN. -/
def charPiece (c : Char) : Option Int :=
  if c == 'P' then some WHITE_PAWN
  else if c == 'N' then some WHITE_KNIGHT
  else if c == 'B' then some WHITE_BISHOP
  else if c == 'R' then some WHITE_ROOK
  else if c == 'Q' then some WHITE_QUEEN
  else if c == 'K' then some WHITE_KING
  else if c == 'p' then some BLACK_PAWN
  else if c == 'n' then some BLACK_KNIGHT
  else if c == 'b' then some BLACK_BISHOP
  else if c == 'r' then some BLACK_ROOK
  else if c == 'q' then some BLACK_QUEEN
  else if c == 'k' then some BLACK_KING
  else none

/-- the per-row square count of Board::setToFEN: a digit 1-8 counts that
many squares, any other character one (C computes c - '0' as a signed
int; the Nat subtraction truncates below '0', landing outside 1..8 just
as the negative value does). -/
def rowCnt (r : List Char) : Nat :=
  r.foldl (fun cnt c =>
    let num := c.toNat - 48
    cnt + (if 1 ≤ num ∧ num ≤ 8 then num else 1)) 0

/-- the NO_PIECE run of the layout switch's default case. -/
def fillEmpty : Board → Nat → Nat → Board
  | b, _, 0 => b
  | b, sq, n + 1 =>
    fillEmpty { b with pieces := Function.update b.pieces sq (-1) } (sq + 1) n

/-- one row of the layout loop: write pieces into the mailbox left to
right starting at `sq`. -/
def writeRow : Board → Nat → List Char → Board
  | b, _, [] => b
  | b, sq, c :: cs =>
    match charPiece c with
    | some p =>
      writeRow { b with pieces := Function.update b.pieces sq p } (sq + 1) cs
    | none => writeRow (fillEmpty b sq (c.toNat - 48)) (sq + c.toNat - 48) cs

/-- the row loop of Board::setToFEN: each row is checked to cover eight
squares immediately before it is written, so a failing row leaves the
earlier rows already written into the mailbox. -/
def applyRows : Board → Nat → List (List Char) → Bool × Board
  | b, _, [] => (true, b)
  | b, row, r :: rs =>
    if rowCnt r ≠ 8 then (false, b)
    else applyRows (writeRow b ((7 - row) * 8) r) (row + 1) rs

/-- the sixteen accepted castle-permission strings, indexed by the
castlePerms bit mask they encode. -/
def castlePermStrings : List (List Char) :=
  ["-", "K", "Q", "KQ", "k", "Kk", "Qk", "KQk", "q", "Kq", "Qq",
   "KQq", "kq", "Kkq", "Qkq", "KQkq"].map String.toList

/-- the castle-permissions token of Board::setToFEN.  The C++ loop only
assigns castlePerms on a match and then tests the member against
INVALID, so an unmatched token keeps the previous castlePerms and is
rejected only when that previous value was INVALID. -/
def fenStageCastle (b : Board) (t : List Char) : Bool × Board :=
  let b' : Board :=
    match castlePermStrings.findIdx? (fun s => s == t) with
    | some i => { b with castlePerms := (i : Int) }
    | none => b
  if b'.castlePerms == INVALID then (false, b') else (true, b')

/-- the en-passant token of Board::setToFEN. -/
def fenStageEp (b : Board) (t : List Char) : Bool × Board :=
  if t == "-".toList then (true, { b with enPassantSquare := INVALID })
  else
    match t with
    | [c0, c1] =>
      if c0.toNat < 97 ∨ 104 < c0.toNat ∨ (c1 ≠ '3' ∧ c1 ≠ '6') then (false, b)
      else (true, { b with enPassantSquare :=
        (((c0.toNat - 97) + (c1.toNat - 49) * 8 : Nat) : Int) })
    | _ => (false, b)

/-- decimal parse of an all-digit token (std::stoi; the C++ throws on an
empty or overlong token instead of returning, the model folds digits). -/
def stoiFold (t : List Char) : Int :=
  t.foldl (fun a c => a * 10 + ((c.toNat : Int) - 48)) 0

/-- the fifty-move-count token of Board::setToFEN: the member is
assigned before the range check, so an out-of-range count is rejected
with the new value already stored. -/
def fenStageFifty (b : Board) (t : List Char) : Bool × Board :=
  if !(containsOnly t "0123456789".toList) then (false, b)
  else
    let b' : Board := { b with fiftyMoveCount := stoiFold t }
    if b'.fiftyMoveCount < 0 ∨ 100 < b'.fiftyMoveCount then (false, b')
    else (true, b')

/-- the bitboard, material and key rebuild at the end of
Board::setToFEN: zero the twelve piece bitboards, the three color
bitboards and both materials, then accumulate square by square. -/
def rebuildSq (b : Board) (sq : Nat) : Board :=
  if b.pieces sq == -1 then b
  else
    let p := b.pieces sq
    { b with
      material := (fun c => if c == pieceColor p
        then b.material c + pieceMaterial p else b.material c)
      pieceBitboards := (fun q => if q == p
        then b.pieceBitboards q ||| (1 <<< sq) else b.pieceBitboards q)
      colorBitboards := (fun c =>
        if c == pieceColor p then b.colorBitboards c ||| (1 <<< sq)
        else if c == BOTH_COLORS then b.colorBitboards c ||| (1 <<< sq)
        else b.colorBitboards c) }

/-- the square loop of the rebuild, visiting squares `64 - n` to 63. -/
def rebuildLoop : Board → Nat → Board
  | b, 0 => b
  | b, n + 1 => rebuildLoop (rebuildSq b (64 - (n + 1))) n

/-- the full rebuild: zero the aggregates, accumulate all 64 squares,
then recompute the position key from scratch. -/
def fenRebuild (hk : HashKeys) (b : Board) : Board :=
  let b0 : Board := { b with
    pieceBitboards := (fun p =>
      if 0 ≤ p ∧ p < 12 then 0 else b.pieceBitboards p)
    colorBitboards := (fun c =>
      if c == WHITE || c == BLACK || c == BOTH_COLORS then 0
      else b.colorBitboards c)
    material := (fun c =>
      if c == WHITE || c == BLACK then 0 else b.material c) }
  let b1 := rebuildLoop b0 64
  { b1 with positionKey := generatePositionKey hk b1 }

/-- Board::setToFEN (src/src/boardstring.cpp): parse a FEN string,
mutating the board stage by stage and returning false as soon as a
check fails (the flag and the board state at that point). -/
def setToFEN (hk : HashKeys) (b : Board) (fen : List Char) : Bool × Board :=
  if fen == START_POS then (true, reset hk b)
  else
    let tokens := fenSplit ' ' fen
    if tokens.length ≠ 6 then (false, b)
    else if !(containsOnly (tokens.getD 0 [])
        "PNBRQKpnbrqk/12345678".toList) then (false, b)
    else
      let rows := fenSplit '/' (tokens.getD 0 [])
      if rows.length ≠ 8 then (false, b)
      else
        match applyRows b 0 rows with
        | (false, b1) => (false, b1)
        | (true, b1) =>
          let t1 := tokens.getD 1 []
          if t1 == "w".toList ∨ t1 == "b".toList then
            let b2 : Board :=
              { b1 with sideToMove := if t1 == "w".toList then WHITE else BLACK }
            match fenStageCastle b2 (tokens.getD 2 []) with
            | (false, b3) => (false, b3)
            | (true, b3) =>
              match fenStageEp b3 (tokens.getD 3 []) with
              | (false, b4) => (false, b4)
              | (true, b4) =>
                match fenStageFifty b4 (tokens.getD 4 []) with
                | (false, b5) => (false, b5)
                | (true, b5) =>
                  if !(containsOnly (tokens.getD 5 [])
                      "0123456789".toList) then (false, b5)
                  else (true, fenRebuild hk b5)
          else (false, b1)

end Board

end DB

namespace DB

/-! Proof machinery for make/undo inversion: the "core" of a board is
the part of the state that undoMove must undo operation by operation
(mailbox, bitboards, material, hasCastled) — the remaining fields are
either simple counters or restored wholesale from the Undo record. -/

structure Core where
  pieceBitboards : Int → Nat
  colorBitboards : Int → Nat
  pieces : Nat → Int
  material : Int → Int
  hasCastled : Int → Bool

def Board.core (b : Board) : Core :=
  ⟨b.pieceBitboards, b.colorBitboards, b.pieces, b.material, b.hasCastled⟩

namespace Core

/-- the colorBitboards update shared by add/clear/movePiece: xor `mask`
into the bitboard of color `c` and into the BOTH_COLORS bitboard. -/
def colorStep (cb : Int → Nat) (c : Int) (mask : Nat) : Int → Nat :=
  let cb1 := Function.update cb c (cb c ^^^ mask)
  Function.update cb1 BOTH_COLORS (cb1 BOTH_COLORS ^^^ mask)

def add (k : Core) (square : Nat) (piece : Int) : Core :=
  let mask := 1 <<< square
  { k with
    pieces := Function.update k.pieces square piece
    pieceBitboards := Function.update k.pieceBitboards piece
      (k.pieceBitboards piece ^^^ mask)
    colorBitboards := colorStep k.colorBitboards (pieceColor piece) mask
    material := Function.update k.material (pieceColor piece)
      (k.material (pieceColor piece) + pieceMaterial piece) }

def clear (k : Core) (square : Nat) : Core :=
  let piece := k.pieces square
  let mask := 1 <<< square
  { k with
    pieces := Function.update k.pieces square (-1)
    pieceBitboards := Function.update k.pieceBitboards piece
      (k.pieceBitboards piece ^^^ mask)
    colorBitboards := colorStep k.colorBitboards (pieceColor piece) mask
    material := Function.update k.material (pieceColor piece)
      (k.material (pieceColor piece) - pieceMaterial piece) }

def move (k : Core) (fromSq toSq : Nat) : Core :=
  let piece := k.pieces fromSq
  let mask := (1 <<< toSq) ||| (1 <<< fromSq)
  { k with
    pieces := Function.update (Function.update k.pieces toSq piece) fromSq (-1)
    pieceBitboards := Function.update k.pieceBitboards piece
      (k.pieceBitboards piece ^^^ mask)
    colorBitboards := colorStep k.colorBitboards (pieceColor piece) mask }

/-- the core action of the mmSwitch phase. -/
def switch (k : Core) (stm : Int) (move' : Nat) : Core :=
  let fromSq := move' &&& 0x3F
  let toSq := (move' >>> 6) &&& 0x3F
  let flags := move' &&& MOVE_FLAGS
  if flags == CAPTURE_FLAG then k.clear toSq
  else if flags == CAPTURE_AND_PROMOTION_FLAG then
    (((k.clear toSq).clear fromSq).add fromSq ((move' >>> 16) &&& 0xF : Nat))
  else if flags == PROMOTION_FLAG then
    ((k.clear fromSq).add fromSq ((move' >>> 16) &&& 0xF : Nat))
  else if flags == CASTLE_FLAG then
    let k :=
      if toSq == G1 then k.move H1 F1
      else if toSq == C1 then k.move A1 D1
      else if toSq == G8 then k.move H8 F8
      else if toSq == C8 then k.move A8 D8
      else k
    { k with hasCastled := Function.update k.hasCastled stm true }
  else if flags == PAWN_START_FLAG then k
  else if flags == EN_PASSANT_FLAG then
    k.clear ((toSq : Int) + stm * 16 - 8).toNat
  else k

/-- the core action of the umSwitch phase. -/
def unswitch (k : Core) (stm : Int) (move' : Nat) : Core :=
  let fromSq := move' &&& 0x3F
  let toSq := (move' >>> 6) &&& 0x3F
  let flags := move' &&& MOVE_FLAGS
  if flags == CAPTURE_FLAG then k.add toSq ((move' >>> 12) &&& 0xF : Nat)
  else if flags == CAPTURE_AND_PROMOTION_FLAG then
    (((k.add toSq ((move' >>> 12) &&& 0xF : Nat)).clear fromSq).add fromSq
      (pieceType stm PAWN))
  else if flags == PROMOTION_FLAG then
    ((k.clear fromSq).add fromSq (pieceType stm PAWN))
  else if flags == CASTLE_FLAG then
    let k :=
      if toSq == G1 then k.move F1 H1
      else if toSq == C1 then k.move D1 A1
      else if toSq == G8 then k.move F8 H8
      else if toSq == C8 then k.move D8 A8
      else k
    { k with hasCastled := Function.update k.hasCastled stm false }
  else if flags == EN_PASSANT_FLAG then
    k.add ((toSq : Int) + stm * 16 - 8).toNat (pieceType (cNot stm) PAWN)
  else k

end Core


namespace Core

/-- the well-formedness precondition of a move with respect to the piece
state, under which Board::makeMove performs no out-of-range array access
and Board::undoMove inverts it exactly.  Every pseudo-legal move emitted
by the move generator on a consistent board satisfies it (`stm` is the
side to move of the board the move is made on). -/
def pre (k : Core) (stm : Int) (m : Nat) : Prop :=
  (m &&& 0x3F) ≠ ((m >>> 6) &&& 0x3F) ∧
  (if m &&& MOVE_FLAGS = CAPTURE_FLAG then
    k.pieces (m &&& 0x3F) ≠ -1 ∧
      k.pieces ((m >>> 6) &&& 0x3F) = ((m >>> 12) &&& 0xF : Nat)
  else if m &&& MOVE_FLAGS = CAPTURE_AND_PROMOTION_FLAG then
    k.pieces (m &&& 0x3F) = pieceType stm PAWN ∧
      k.pieces ((m >>> 6) &&& 0x3F) = ((m >>> 12) &&& 0xF : Nat)
  else if m &&& MOVE_FLAGS = PROMOTION_FLAG then
    k.pieces (m &&& 0x3F) = pieceType stm PAWN ∧
      k.pieces ((m >>> 6) &&& 0x3F) = -1
  else if m &&& MOVE_FLAGS = CASTLE_FLAG then
    k.pieces (m &&& 0x3F) ≠ -1 ∧ k.pieces ((m >>> 6) &&& 0x3F) = -1 ∧
    k.hasCastled stm = false ∧
    ((m >>> 6) &&& 0x3F = G1 →
      k.pieces H1 ≠ -1 ∧ k.pieces F1 = -1 ∧ m &&& 0x3F ≠ H1 ∧ m &&& 0x3F ≠ F1) ∧
    ((m >>> 6) &&& 0x3F = C1 →
      k.pieces A1 ≠ -1 ∧ k.pieces D1 = -1 ∧ m &&& 0x3F ≠ A1 ∧ m &&& 0x3F ≠ D1) ∧
    ((m >>> 6) &&& 0x3F = G8 →
      k.pieces H8 ≠ -1 ∧ k.pieces F8 = -1 ∧ m &&& 0x3F ≠ H8 ∧ m &&& 0x3F ≠ F8) ∧
    ((m >>> 6) &&& 0x3F = C8 →
      k.pieces A8 ≠ -1 ∧ k.pieces D8 = -1 ∧ m &&& 0x3F ≠ A8 ∧ m &&& 0x3F ≠ C8)
  else if m &&& MOVE_FLAGS = EN_PASSANT_FLAG then
    k.pieces (m &&& 0x3F) ≠ -1 ∧ k.pieces ((m >>> 6) &&& 0x3F) = -1 ∧
    k.pieces ((((m >>> 6) &&& 0x3F : Nat) : Int) + stm * 16 - 8).toNat
      = pieceType (cNot stm) PAWN ∧
    ((((m >>> 6) &&& 0x3F : Nat) : Int) + stm * 16 - 8).toNat ≠ (m &&& 0x3F) ∧
    ((((m >>> 6) &&& 0x3F : Nat) : Int) + stm * 16 - 8).toNat ≠ ((m >>> 6) &&& 0x3F)
  else k.pieces (m &&& 0x3F) ≠ -1 ∧ k.pieces ((m >>> 6) &&& 0x3F) = -1)

/-- decidability of an if-then-else proposition with decidable branches. -/
instance decidableIteProp {c p q : Prop} [dc : Decidable c] [dp : Decidable p]
    [dq : Decidable q] : Decidable (if c then p else q) :=
  match dc with
  | Decidable.isTrue hc => (if_pos hc).symm ▸ dp
  | Decidable.isFalse hc => (if_neg hc).symm ▸ dq

set_option synthInstance.maxSize 1024 in
set_option synthInstance.maxHeartbeats 1000000 in
instance preDecidable (k : Core) (stm : Int) (m : Nat) :
    Decidable (Core.pre k stm m) := by
  unfold Core.pre
  infer_instance

end Core

/-! The move generator (src/src/movelist.cpp).  A MoveList is modelled
as the list of its packed 32-bit moves (each with its 6-bit move score
in bits 25-30), in generation order. -/

namespace MoveList

def MAX_MOVE_SCORE : Nat := 63

def captureScoreC : List (List Nat) := [
  [0, 0, 0, 0, 0, 0, 46, 55, 56, 59, 62, 0],
  [0, 0, 0, 0, 0, 0, 40, 49, 50, 54, 61, 0],
  [0, 0, 0, 0, 0, 0, 39, 47, 48, 53, 60, 0],
  [0, 0, 0, 0, 0, 0, 38, 44, 45, 51, 58, 0],
  [0, 0, 0, 0, 0, 0, 37, 41, 42, 43, 52, 0],
  [0, 0, 0, 0, 0, 0, 34, 35, 36, 36, 57, 0],
  [46, 55, 56, 59, 62, 0, 0, 0, 0, 0, 0, 0],
  [40, 49, 50, 54, 61, 0, 0, 0, 0, 0, 0, 0],
  [39, 47, 48, 53, 60, 0, 0, 0, 0, 0, 0, 0],
  [38, 44, 45, 51, 58, 0, 0, 0, 0, 0, 0, 0],
  [37, 41, 42, 43, 52, 0, 0, 0, 0, 0, 0, 0],
  [34, 35, 36, 36, 57, 0, 0, 0, 0, 0, 0, 0]]

def captureScore (a v : Int) : Nat :=
  (captureScoreC.getD a.toNat []).getD v.toNat 0

def moveScoreC : List Nat := [6, 5, 4, 3, 2, 1, 6, 5, 4, 3, 2, 1]

def moveScore (p : Int) : Nat := moveScoreC.getD p.toNat 0

def promotionScoreC : List Nat := [0, 55, 56, 59, 62, 0, 0, 55, 56, 59, 62, 0]

def promotionScore (p : Int) : Nat := promotionScoreC.getD p.toNat 0

def enPassantScore : Nat := 46
def castleScore : Nat := 8
def pawnStartScore : Nat := 7
def killerScore1 : Nat := 33
def killerScore2 : Nat := 32
def historyScore : Int := 9

/-- the low 25 bits of a C int, in two's complement (the part of a move
compared by sameMove). -/
def low25 (x : Int) : Nat := (x % 0x2000000).toNat

/-- MoveList::sameMove: compare two moves ignoring the score bits.  The
first argument is a stored list entry (nonnegative); the second may be
INVALID = -1. -/
def sameMove (m1 : Nat) (m2 : Int) : Bool := (m1 &&& 0x1FFFFFF) == low25 m2

/-- MoveList::getMove: pack a move.  `cap & 0xF` and `prom & 0xF` on the
C int arguments (INVALID = -1 becomes 0xF) are the low nibbles in two's
complement. -/
def getMove (fromSq toSq : Nat) (cap prom : Int) (flags : Nat) : Nat :=
  fromSq ||| (toSq <<< 6) ||| ((cap % 16).toNat <<< 12) |||
    ((prom % 16).toNat <<< 16) ||| flags

/-- MoveList::addMove: pack the score into bits 25-30. -/
def addMove (move score : Nat) : Nat := move ||| (score <<< 25)

/-- the set-bit indices of a bitboard in ascending order, mirroring
`while (bb) { ... getLSB(bb) ...; bb &= bb - 1; }` (64 units of fuel
cover any 64-bit bitboard). -/
def bits : Nat → Nat → List Nat
  | 0, _ => []
  | fuel + 1, bb =>
    if bb == 0 then [] else getLSB bb :: bits fuel (bb &&& (bb - 1))

/-- MoveList::addPawnMove: expand a pawn move to the last rank into the
four promotions. -/
def addPawnMove (stm : Int) (move : Nat) (score : Nat) : List Nat :=
  let toSq := (move >>> 6) &&& 0x3F
  if (1 <<< toSq) &&& 0xFF000000000000FF != 0 then
    let move := (move &&& 0xFFF0FFFF) ||| PROMOTION_FLAG
    let knight := pieceType stm KNIGHT
    let bishop := pieceType stm BISHOP
    let rook := pieceType stm ROOK
    let queen := pieceType stm QUEEN
    [addMove (move ||| (knight.toNat <<< 16)) (promotionScore KNIGHT),
     addMove (move ||| (bishop.toNat <<< 16)) (promotionScore BISHOP),
     addMove (move ||| (rook.toNat <<< 16)) (promotionScore ROOK),
     addMove (move ||| (queen.toNat <<< 16)) (promotionScore QUEEN)]
  else [addMove move score]

/-- MoveList::generatePieceMoves: quiet moves and captures of one piece
from its attack bitboard. -/
def generatePieceMoves (b : Board) (sq : Nat) (attacks : Nat) : List Nat :=
  (bits 64 attacks).map (fun toSq =>
    if b.pieces toSq == -1 then
      addMove (getMove sq toSq INVALID INVALID 0) (moveScore (b.pieces sq))
    else
      addMove (getMove sq toSq (b.pieces toSq) INVALID CAPTURE_FLAG)
        (captureScore (b.pieces sq) (b.pieces toSq)))

/-- MoveList::generateWhitePawnMoves. -/
def generateWhitePawnMoves (b : Board) : List Nat :=
  let allPieces := b.colorBitboards BOTH_COLORS
  let pawns := b.pieceBitboards WHITE_PAWN
  let pawnMoves := (pawns <<< 8) &&& (allPieces ^^^ U64)
  let pawnStarts := ((pawnMoves &&& 0x0000000000FF0000) <<< 8) &&& (allPieces ^^^ U64)
  let enemyPieces := b.colorBitboards BLACK
  let attacksLeft := attack.getWhitePawnAttacksLeft pawns &&& enemyPieces
  let attacksRight := attack.getWhitePawnAttacksRight pawns &&& enemyPieces
  ((bits 64 pawnMoves).flatMap (fun toSq =>
    addPawnMove b.sideToMove (getMove (toSq - 8) toSq INVALID INVALID 0)
      (moveScore WHITE_PAWN))) ++
  ((bits 64 attacksLeft).flatMap (fun toSq =>
    addPawnMove b.sideToMove
      (getMove (toSq - 7) toSq (b.pieces toSq) INVALID CAPTURE_FLAG)
      (captureScore WHITE_PAWN (b.pieces toSq)))) ++
  ((bits 64 attacksRight).flatMap (fun toSq =>
    addPawnMove b.sideToMove
      (getMove (toSq - 9) toSq (b.pieces toSq) INVALID CAPTURE_FLAG)
      (captureScore WHITE_PAWN (b.pieces toSq)))) ++
  ((bits 64 pawnStarts).map (fun toSq =>
    addMove (getMove (toSq - 16) toSq INVALID INVALID PAWN_START_FLAG)
      pawnStartScore)) ++
  (if b.enPassantSquare != -1 then
    (if b.enPassantSquare != 47 &&
        b.pieces (b.enPassantSquare - 7).toNat == WHITE_PAWN then
      [addMove (getMove (b.enPassantSquare - 7).toNat b.enPassantSquare.toNat
        INVALID INVALID EN_PASSANT_FLAG) enPassantScore]
    else []) ++
    (if b.enPassantSquare != 40 &&
        b.pieces (b.enPassantSquare - 9).toNat == WHITE_PAWN then
      [addMove (getMove (b.enPassantSquare - 9).toNat b.enPassantSquare.toNat
        INVALID INVALID EN_PASSANT_FLAG) enPassantScore]
    else [])
  else [])

/-- MoveList::generateBlackPawnMoves. -/
def generateBlackPawnMoves (b : Board) : List Nat :=
  let allPieces := b.colorBitboards BOTH_COLORS
  let pawns := b.pieceBitboards BLACK_PAWN
  let pawnMoves := (pawns >>> 8) &&& (allPieces ^^^ U64)
  let pawnStarts := ((pawnMoves &&& 0x0000FF0000000000) >>> 8) &&& (allPieces ^^^ U64)
  let enemyPieces := b.colorBitboards WHITE
  let attacksLeft := attack.getBlackPawnAttacksLeft pawns &&& enemyPieces
  let attacksRight := attack.getBlackPawnAttacksRight pawns &&& enemyPieces
  ((bits 64 pawnMoves).flatMap (fun toSq =>
    addPawnMove b.sideToMove (getMove (toSq + 8) toSq INVALID INVALID 0)
      (moveScore BLACK_PAWN))) ++
  ((bits 64 attacksLeft).flatMap (fun toSq =>
    addPawnMove b.sideToMove
      (getMove (toSq + 7) toSq (b.pieces toSq) INVALID CAPTURE_FLAG)
      (captureScore BLACK_PAWN (b.pieces toSq)))) ++
  ((bits 64 attacksRight).flatMap (fun toSq =>
    addPawnMove b.sideToMove
      (getMove (toSq + 9) toSq (b.pieces toSq) INVALID CAPTURE_FLAG)
      (captureScore BLACK_PAWN (b.pieces toSq)))) ++
  ((bits 64 pawnStarts).map (fun toSq =>
    addMove (getMove (toSq + 16) toSq INVALID INVALID PAWN_START_FLAG)
      pawnStartScore)) ++
  (if b.enPassantSquare != -1 then
    (if b.enPassantSquare != 16 &&
        b.pieces (b.enPassantSquare + 7).toNat == BLACK_PAWN then
      [addMove (getMove (b.enPassantSquare + 7).toNat b.enPassantSquare.toNat
        INVALID INVALID EN_PASSANT_FLAG) enPassantScore]
    else []) ++
    (if b.enPassantSquare != 23 &&
        b.pieces (b.enPassantSquare + 9).toNat == BLACK_PAWN then
      [addMove (getMove (b.enPassantSquare + 9).toNat b.enPassantSquare.toNat
        INVALID INVALID EN_PASSANT_FLAG) enPassantScore]
    else [])
  else [])

/-- MoveList::generateWhiteCastleMoves. -/
def generateWhiteCastleMoves (b : Board) : List Nat :=
  let allPieces := b.colorBitboards BOTH_COLORS
  (if intAnd16 b.castlePerms CASTLE_WK != 0 &&
      allPieces &&& 0x60 == 0 && !(b.squaresAttacked 0x70 BLACK) then
    [addMove (getMove E1 G1 INVALID INVALID CASTLE_FLAG) castleScore]
  else []) ++
  (if intAnd16 b.castlePerms CASTLE_WQ != 0 &&
      allPieces &&& 0xE == 0 && !(b.squaresAttacked 0x1C BLACK) then
    [addMove (getMove E1 C1 INVALID INVALID CASTLE_FLAG) castleScore]
  else [])

/-- MoveList::generateBlackCastleMoves. -/
def generateBlackCastleMoves (b : Board) : List Nat :=
  let allPieces := b.colorBitboards BOTH_COLORS
  (if intAnd16 b.castlePerms CASTLE_BK != 0 &&
      allPieces &&& 0x6000000000000000 == 0 &&
      !(b.squaresAttacked 0x7000000000000000 WHITE) then
    [addMove (getMove E8 G8 INVALID INVALID CASTLE_FLAG) castleScore]
  else []) ++
  (if intAnd16 b.castlePerms CASTLE_BQ != 0 &&
      allPieces &&& 0x0E00000000000000 == 0 &&
      !(b.squaresAttacked 0x1C00000000000000 WHITE) then
    [addMove (getMove E8 C8 INVALID INVALID CASTLE_FLAG) castleScore]
  else [])

/-- MoveList::generateMoves: the full pseudo-legal move list. -/
def generateMoves (b : Board) : List Nat :=
  let allPieces := b.colorBitboards BOTH_COLORS
  let samePieces := b.colorBitboards (if b.sideToMove == WHITE then WHITE else BLACK)
  let knights := b.pieceBitboards (if b.sideToMove == WHITE then WHITE_KNIGHT else BLACK_KNIGHT)
  let bishops := b.pieceBitboards (if b.sideToMove == WHITE then WHITE_BISHOP else BLACK_BISHOP)
  let rooks := b.pieceBitboards (if b.sideToMove == WHITE then WHITE_ROOK else BLACK_ROOK)
  let queens := b.pieceBitboards (if b.sideToMove == WHITE then WHITE_QUEEN else BLACK_QUEEN)
  let king := b.pieceBitboards (if b.sideToMove == WHITE then WHITE_KING else BLACK_KING)
  (if b.sideToMove == WHITE then
    generateWhitePawnMoves b ++ generateWhiteCastleMoves b
  else
    generateBlackPawnMoves b ++ generateBlackCastleMoves b) ++
  ((bits 64 knights).flatMap (fun sq =>
    generatePieceMoves b sq (attack.getKnightAttacks sq &&& (samePieces ^^^ U64)))) ++
  ((bits 64 bishops).flatMap (fun sq =>
    generatePieceMoves b sq (attack.getBishopAttacks sq allPieces &&& (samePieces ^^^ U64)))) ++
  ((bits 64 rooks).flatMap (fun sq =>
    generatePieceMoves b sq (attack.getRookAttacks sq allPieces &&& (samePieces ^^^ U64)))) ++
  ((bits 64 queens).flatMap (fun sq =>
    generatePieceMoves b sq (attack.getQueenAttacks sq allPieces &&& (samePieces ^^^ U64)))) ++
  generatePieceMoves b (getLSB king) (attack.getKingAttacks king &&& (samePieces ^^^ U64))

/-- MoveList::generateWhitePawnCaptureMoves. -/
def generateWhitePawnCaptureMoves (b : Board) : List Nat :=
  let pawns := b.pieceBitboards WHITE_PAWN
  let enemyPieces := b.colorBitboards BLACK
  let attacksLeft := attack.getWhitePawnAttacksLeft pawns &&& enemyPieces
  let attacksRight := attack.getWhitePawnAttacksRight pawns &&& enemyPieces
  ((bits 64 attacksLeft).flatMap (fun toSq =>
    addPawnMove b.sideToMove
      (getMove (toSq - 7) toSq (b.pieces toSq) INVALID CAPTURE_FLAG)
      (captureScore WHITE_PAWN (b.pieces toSq)))) ++
  ((bits 64 attacksRight).flatMap (fun toSq =>
    addPawnMove b.sideToMove
      (getMove (toSq - 9) toSq (b.pieces toSq) INVALID CAPTURE_FLAG)
      (captureScore WHITE_PAWN (b.pieces toSq)))) ++
  (if b.enPassantSquare != -1 then
    (if b.enPassantSquare != 47 &&
        b.pieces (b.enPassantSquare - 7).toNat == WHITE_PAWN then
      [addMove (getMove (b.enPassantSquare - 7).toNat b.enPassantSquare.toNat
        INVALID INVALID EN_PASSANT_FLAG) enPassantScore]
    else []) ++
    (if b.enPassantSquare != 40 &&
        b.pieces (b.enPassantSquare - 9).toNat == WHITE_PAWN then
      [addMove (getMove (b.enPassantSquare - 9).toNat b.enPassantSquare.toNat
        INVALID INVALID EN_PASSANT_FLAG) enPassantScore]
    else [])
  else [])

/-- MoveList::generateBlackPawnCaptureMoves. -/
def generateBlackPawnCaptureMoves (b : Board) : List Nat :=
  let pawns := b.pieceBitboards BLACK_PAWN
  let enemyPieces := b.colorBitboards WHITE
  let attacksLeft := attack.getBlackPawnAttacksLeft pawns &&& enemyPieces
  let attacksRight := attack.getBlackPawnAttacksRight pawns &&& enemyPieces
  ((bits 64 attacksLeft).flatMap (fun toSq =>
    addPawnMove b.sideToMove
      (getMove (toSq + 7) toSq (b.pieces toSq) INVALID CAPTURE_FLAG)
      (captureScore BLACK_PAWN (b.pieces toSq)))) ++
  ((bits 64 attacksRight).flatMap (fun toSq =>
    addPawnMove b.sideToMove
      (getMove (toSq + 9) toSq (b.pieces toSq) INVALID CAPTURE_FLAG)
      (captureScore BLACK_PAWN (b.pieces toSq)))) ++
  (if b.enPassantSquare != -1 then
    (if b.enPassantSquare != 16 &&
        b.pieces (b.enPassantSquare + 7).toNat == BLACK_PAWN then
      [addMove (getMove (b.enPassantSquare + 7).toNat b.enPassantSquare.toNat
        INVALID INVALID EN_PASSANT_FLAG) enPassantScore]
    else []) ++
    (if b.enPassantSquare != 23 &&
        b.pieces (b.enPassantSquare + 9).toNat == BLACK_PAWN then
      [addMove (getMove (b.enPassantSquare + 9).toNat b.enPassantSquare.toNat
        INVALID INVALID EN_PASSANT_FLAG) enPassantScore]
    else [])
  else [])

/-- MoveList::generateCaptureMoves: the capture-only move list used by
quiescence search. -/
def generateCaptureMoves (b : Board) : List Nat :=
  let allPieces := b.colorBitboards BOTH_COLORS
  let enemyPieces := b.colorBitboards (if b.sideToMove == WHITE then BLACK else WHITE)
  let knights := b.pieceBitboards (if b.sideToMove == WHITE then WHITE_KNIGHT else BLACK_KNIGHT)
  let bishops := b.pieceBitboards (if b.sideToMove == WHITE then WHITE_BISHOP else BLACK_BISHOP)
  let rooks := b.pieceBitboards (if b.sideToMove == WHITE then WHITE_ROOK else BLACK_ROOK)
  let queens := b.pieceBitboards (if b.sideToMove == WHITE then WHITE_QUEEN else BLACK_QUEEN)
  let king := b.pieceBitboards (if b.sideToMove == WHITE then WHITE_KING else BLACK_KING)
  (if b.sideToMove == WHITE then generateWhitePawnCaptureMoves b
   else generateBlackPawnCaptureMoves b) ++
  ((bits 64 knights).flatMap (fun sq =>
    generatePieceMoves b sq (attack.getKnightAttacks sq &&& enemyPieces))) ++
  ((bits 64 bishops).flatMap (fun sq =>
    generatePieceMoves b sq (attack.getBishopAttacks sq allPieces &&& enemyPieces))) ++
  ((bits 64 rooks).flatMap (fun sq =>
    generatePieceMoves b sq (attack.getRookAttacks sq allPieces &&& enemyPieces))) ++
  ((bits 64 queens).flatMap (fun sq =>
    generatePieceMoves b sq (attack.getQueenAttacks sq allPieces &&& enemyPieces))) ++
  generatePieceMoves b (getLSB king) (attack.getKingAttacks king &&& enemyPieces)

/-- the MoveList constructor: full generation, or capture-only when
`onlyCaptures` is set. -/
def ofBoard (b : Board) (onlyCaptures : Bool := false) : List Nat :=
  if onlyCaptures then generateCaptureMoves b else generateMoves b

/-- the per-move rescoring loop of MoveList::orderMoves. -/
def rescore (b : Board) (bestMove : Int) (killers : Int → Nat → Int)
    (searchHistory : Int → Nat → Int) (move : Nat) : Nat :=
  if sameMove move bestMove then move ||| 0x7E000000
  else if sameMove move (killers b.searchPly 0) then
    (move &&& 0x1FFFFFF) ||| (killerScore1 <<< 25)
  else if sameMove move (killers b.searchPly 1) then
    (move &&& 0x1FFFFFF) ||| (killerScore2 <<< 25)
  else if move &&& (CAPTURE_FLAG ||| EN_PASSANT_FLAG) == 0 then
    if searchHistory (b.pieces (move &&& 0x3F)) ((move >>> 6) &&& 0x3F) > 0 then
      (move &&& 0x1FFFFFF) |||
        ((historyScore + searchHistory (b.pieces (move &&& 0x3F))
          ((move >>> 6) &&& 0x3F)).toNat <<< 25)
    else move
  else move

/-- insert a move into a list sorted by descending score (bits 25-30),
after any move of equal score. -/
def insertByScore (m : Nat) : List Nat → List Nat
  | [] => [m]
  | x :: xs => if x >>> 25 < m >>> 25 then m :: x :: xs else x :: insertByScore m xs

/-- sort a move list by descending score (bits 25-30) by insertion. -/
def sortByScore : List Nat → List Nat
  | [] => []
  | x :: xs => insertByScore x (sortByScore xs)

/-- MoveList::orderMoves (3-parameter version of src/src/movelist.cpp):
rescore the principal move, killers and history moves, then sort in
descending score order by the comparator `(m1 >> 25) > (m2 >> 25)`
(`std::sort` leaves the order of equal-score moves unspecified; the
embedding uses a stable insertion sort, one of the permitted outcomes). -/
def orderMoves (b : Board) (moves : List Nat) (bestMove : Int)
    (killers : Int → Nat → Int) (searchHistory : Int → Nat → Int) : List Nat :=
  sortByScore (moves.map (rescore b bestMove killers searchHistory))

end MoveList

/-! The transposition table (src/src/table.h and src/src/table.cpp).
The table is modelled as its current size together with a total entry
function on indices; `store` writes at index `key % size` like the C++
code (whose index computation requires a nonempty table). -/

inductive NodeType where
  | EXACT
  | UPPER_BOUND
  | LOWER_BOUND
  | NONE
deriving DecidableEq

structure Entry where
  key : Nat
  move : Int
  eval : Int
  depth : Nat
  type : NodeType
deriving DecidableEq

/-- `static_cast<short>`: wrap a C int into the 16-bit two's-complement
range. -/
def toShort (x : Int) : Int := (x + 2 ^ 15) % 2 ^ 16 - 2 ^ 15

/-- `static_cast<unsigned char>`: the low byte. -/
def toUChar (x : Int) : Nat := (x % 256).toNat

structure TranspositionTable where
  size : Nat
  table : Nat → Entry

/-- TranspositionTable::store (src/src/table.cpp lines 51-57): overwrite
the entry at index `key % size`, truncating the evaluation to a short
and the depth to an unsigned char exactly as the C++ casts do. -/
def TranspositionTable.store (t : TranspositionTable) (key : Nat)
    (move eval depth : Int) (type : NodeType) : TranspositionTable :=
  { t with table := (Function.update t.table (key % t.size)
      ⟨key, move, toShort eval, toUChar depth, type⟩) }

/-- TranspositionTable::retrieve (src/src/table.cpp lines 73-96).  The
C++ function communicates through the out-parameters `bestMove` and
`eval`; the embedding takes their prior values and returns the triple
(return value, bestMove, eval). -/
def TranspositionTable.retrieve (t : TranspositionTable) (key : Nat)
    (depth alpha beta : Int) (bestMove0 eval0 : Int) : Bool × Int × Int :=
  let entry := t.table (key % t.size)
  if key == entry.key then
    if (entry.depth : Int) ≥ depth then
      if entry.type == NodeType.EXACT then (true, entry.move, entry.eval)
      else if entry.type == NodeType.LOWER_BOUND ∧ entry.eval ≥ beta then
        (true, entry.move, beta)
      else if entry.type == NodeType.UPPER_BOUND ∧ entry.eval ≤ alpha then
        (true, entry.move, alpha)
      else (false, entry.move, eval0)
    else (false, entry.move, eval0)
  else (false, bestMove0, eval0)

/-! The search driver (src/src/engine.cpp).  The static evaluation
(Board::evaluatePosition), the system clock (currentTime, sampled here
as a function of the node counter) and the Zobrist keys are parameters
of the embedding; theorems quantify over them.  The unbounded C++
recursion is given fuel.  Note: src/src/engine.cpp passes the counter
move table to MoveList::orderMoves, but the only orderMoves defined in
src/src/movelist.cpp (l. 704) takes three parameters and ignores counter
moves; the embedding follows the definition in movelist.cpp. -/

namespace Engine

def INF : Int := 1000000000
def MATE : Int := 30000

/-- the search state: the board plus the SearchInfo fields and Engine
tables touched by alphaBeta and quiescence. -/
structure SearchState where
  board : Board
  nodes : Nat
  stop : Bool
  timeSet : Bool
  stopTime : Int
  tt : TranspositionTable
  searchKillers : Int → Nat → Int
  searchHistory : Int → Nat → Int
  counterMoves : Int → Nat → Int
  pvMove : Int

/-- point update of a two-dimensional C array modelled as a curried
function. -/
def upd2 {α β γ : Type} [DecidableEq α] [DecidableEq β]
    (f : α → β → γ) (i : α) (j : β) (v : γ) : α → β → γ :=
  fun a b => if a = i ∧ b = j then v else f a b

/-- Engine::checkup (src/src/engine.cpp lines 293-297). -/
def checkup (clock : Nat → Int) (st : SearchState) : SearchState :=
  if st.timeSet ∧ clock st.nodes > st.stopTime then { st with stop := true }
  else st

/-- the time-control fragment of Engine::setupSearch (src/src/engine.cpp
lines 252-287): from the SearchInfo fields (movetime, the side to move
clock and increment, movestogo), the engine moveOverhead and the prior
stopTime, compute the final (timeSet, stopTime) pair. -/
def setupSearchTime (startTime movetime timeSide incSide movestogo
    moveOverhead stopTime0 : Int) : Bool × Int :=
  let p := if movetime != -1 then (movetime, (1 : Int)) else (timeSide, movestogo)
  if p.1 != -1 then (true, startTime + Int.tdiv p.1 p.2 + incSide - moveOverhead)
  else (false, stopTime0)

/-- the capture loop of Engine::quiescence (the recursive search call is
passed as the `recurse` parameter so that the search recursion below is
structural in its fuel). -/
def qloopF (hk : HashKeys)
    (recurse : Int → Int → SearchState → Int × SearchState)
    (beta : Int) : SearchState → List Nat → Int → Int × SearchState
  | st, [], alpha => (alpha, st)
  | st, m :: rest, alpha =>
    let r := st.board.makeMove hk m
    let st := { st with board := r.1 }
    if r.2 = false then qloopF hk recurse beta st rest alpha
    else
      let q := recurse (-beta) (-alpha) st
      let e := -q.1
      let st := { q.2 with board := q.2.board.undoMove hk }
      if st.stop then (0, st)
      else if e > alpha ∧ e ≥ beta then (beta, st)
      else qloopF hk recurse beta st rest (if e > alpha then e else alpha)

/-- Engine::quiescence (src/src/engine.cpp lines 315-352). -/
def quiescence (hk : HashKeys) (ev : Board → Int) (clock : Nat → Int) :
    Nat → Int → Int → SearchState → Int × SearchState
  | 0, _, _, st => (0, st)
  | fuel + 1, alpha, beta, st =>
    let st := { st with nodes := st.nodes + 1 }
    let st := if st.nodes &&& 0xFFF == 0 then checkup clock st else st
    if st.stop = true ∨ (st.board.searchPly > 0 ∧ st.board.isRepetition) ∨
        st.board.fiftyMoveCount ≥ 100 then
      (0, st)
    else
      let bestEval := ev st.board
      if bestEval > alpha ∧ bestEval ≥ beta then (beta, st)
      else
        let alpha := if bestEval > alpha then bestEval else alpha
        let moves := MoveList.orderMoves st.board
          (MoveList.ofBoard st.board true) INVALID st.searchKillers
          st.searchHistory
        qloopF hk (quiescence hk ev clock fuel) beta st moves alpha

/-- the move loop and terminal handling of Engine::alphaBeta (the
recursive search call is passed as the `recurse` parameter so that the
search recursion below is structural in its fuel). -/
def abLoopF (hk : HashKeys)
    (recurse : Int → Int → Int → SearchState → Int × SearchState)
    (beta depth : Int) : SearchState → List Nat → Int → Int → Int → Nat →
      Int → Int × SearchState
  | st, [], alpha, bestMove, bestEval, legalMoves, oldAlpha =>
    if legalMoves == 0 then
      let kingPiece := if st.board.sideToMove == WHITE then WHITE_KING
        else BLACK_KING
      if st.board.squaresAttacked (st.board.pieceBitboards kingPiece)
          (cNot st.board.sideToMove) then
        (-(MATE - st.board.searchPly), st)
      else (0, st)
    else if alpha != oldAlpha then
      let st := { st with tt := (TranspositionTable.store st.tt
        st.board.positionKey bestMove bestEval depth NodeType.EXACT) }
      (alpha, st)
    else
      let st := { st with tt := (TranspositionTable.store st.tt
        st.board.positionKey bestMove alpha depth NodeType.UPPER_BOUND) }
      (alpha, st)
  | st, m :: rest, alpha, bestMove, bestEval, legalMoves, oldAlpha =>
    let r := st.board.makeMove hk m
    if r.2 = false then
      let st := { st with board := r.1 }
      abLoopF hk recurse beta depth st rest alpha bestMove bestEval
        legalMoves oldAlpha
    else
      let st := { st with board := r.1 }
      let q := recurse (-beta) (-alpha) (depth - 1) st
      let e := -q.1
      let st := { q.2 with board := q.2.board.undoMove hk }
      if st.stop then (0, st)
      else
        let legalMoves := legalMoves + 1
        if e > bestEval then
          let bestEval := e
          let bestMove := (m : Int)
          let st := { st with
            pvMove := if st.board.searchPly == 0 then bestMove else st.pvMove }
          if e > alpha then
            if e ≥ beta then
              let st :=
                if m &&& (CAPTURE_FLAG ||| EN_PASSANT_FLAG) == 0 then
                  let sp := st.board.searchPly
                  let killers := upd2 st.searchKillers sp 1
                    (st.searchKillers sp 0)
                  let killers := upd2 killers sp 0 (m : Int)
                  let prevMove := st.board.getPreviousMove
                  let counters :=
                    if prevMove != -1 then
                      let prevTo := (prevMove.toNat >>> 6) &&& 0x3F
                      upd2 st.counterMoves (st.board.pieces prevTo) prevTo
                        (m : Int)
                    else st.counterMoves
                  { st with searchKillers := killers, counterMoves := counters }
                else st
              let st := { st with tt := (TranspositionTable.store st.tt
                st.board.positionKey bestMove beta depth
                NodeType.LOWER_BOUND) }
              (beta, st)
            else
              let alpha := e
              let st :=
                if m &&& (CAPTURE_FLAG ||| EN_PASSANT_FLAG) == 0 then
                  let toSq := (bestMove.toNat >>> 6) &&& 0x3F
                  let piece := st.board.pieces (bestMove.toNat &&& 0x3F)
                  { st with searchHistory := (upd2 st.searchHistory piece toSq
                    (st.searchHistory piece toSq + depth * depth)) }
                else st
              abLoopF hk recurse beta depth st rest alpha bestMove
                bestEval legalMoves oldAlpha
          else
            abLoopF hk recurse beta depth st rest alpha bestMove bestEval
              legalMoves oldAlpha
        else
          abLoopF hk recurse beta depth st rest alpha bestMove bestEval
            legalMoves oldAlpha

/-- Engine::alphaBeta (src/src/engine.cpp lines 377-460). -/
def alphaBeta (hk : HashKeys) (ev : Board → Int) (clock : Nat → Int) :
    Nat → Int → Int → Int → SearchState → Int × SearchState
  | 0, _, _, _, st => (0, st)
  | fuel + 1, alpha, beta, depth, st =>
    if depth ≤ 0 then quiescence hk ev clock (fuel + 1) alpha beta st
    else
      let st := { st with nodes := st.nodes + 1 }
      let st := if st.nodes &&& 0xFFF == 0 then checkup clock st else st
      if st.stop = true ∨ (st.board.searchPly > 0 ∧ st.board.isRepetition) ∨
          st.board.fiftyMoveCount ≥ 100 then
        (0, st)
      else
        let probe := TranspositionTable.retrieve st.tt st.board.positionKey
          depth alpha beta INVALID (-INF)
        if probe.1 then
          let st := { st with
            pvMove := if st.board.searchPly == 0 then probe.2.1 else st.pvMove }
          (probe.2.2, st)
        else
          let bestMove := probe.2.1
          let moves := MoveList.orderMoves st.board (MoveList.ofBoard st.board)
            bestMove st.searchKillers st.searchHistory
          abLoopF hk (alphaBeta hk ev clock fuel) beta depth st moves alpha
            bestMove (-INF) 0 alpha

end Engine

/-! Concrete objects used by the theorem instances below. -/

/-- a one-entry transposition table whose resident entry has key 1. -/
def wTT : TranspositionTable :=
  ⟨1, fun _ => ⟨1, -1, 0, 0, NodeType.NONE⟩⟩

/-- an empty board whose fifty move counter has reached 100. -/
def wBoardDraw : Board :=
  { pieceBitboards := fun _ => 0
    colorBitboards := fun _ => 0
    pieces := fun _ => -1
    sideToMove := 0
    castlePerms := 0
    enPassantSquare := -1
    fiftyMoveCount := 100
    ply := 0
    searchPly := 0
    material := fun _ => 0
    positionKey := 0
    history := []
    hasCastled := fun _ => false }

/-- a checkmate position without sliders: white king a1, black king c2,
black knights b3 and b4, white to move; the fifty move counter is the
parameter. -/
def wBoardMate (fifty : Int) : Board :=
  { pieceBitboards := fun p =>
      if p == WHITE_KING then 1
      else if p == BLACK_KING then 1 <<< 10
      else if p == BLACK_KNIGHT then (1 <<< 17) ||| (1 <<< 25)
      else 0
    colorBitboards := fun c =>
      if c == WHITE then 1
      else if c == BLACK then (1 <<< 10) ||| ((1 <<< 17) ||| (1 <<< 25))
      else 1 ||| ((1 <<< 10) ||| ((1 <<< 17) ||| (1 <<< 25)))
    pieces := fun sq =>
      if sq == 0 then WHITE_KING
      else if sq == 10 then BLACK_KING
      else if sq == 17 then BLACK_KNIGHT
      else if sq == 25 then BLACK_KNIGHT
      else -1
    sideToMove := WHITE
    castlePerms := 0
    enPassantSquare := -1
    fiftyMoveCount := fifty
    ply := 0
    searchPly := 0
    material := fun c => if c == WHITE then 0 else 6
    positionKey := 0
    history := []
    hasCastled := fun _ => false }

/-- a board with white king d2, black king a8, black pawn e5, black to
move (no castling rights, no en passant, empty history). -/
def wBoardC1 : Board :=
  { pieceBitboards := fun p =>
      if p == WHITE_KING then 1 <<< 11
      else if p == BLACK_KING then 1 <<< 56
      else if p == BLACK_PAWN then 1 <<< 36
      else 0
    colorBitboards := fun c =>
      if c == WHITE then 1 <<< 11
      else if c == BLACK then (1 <<< 56) ||| (1 <<< 36)
      else (1 <<< 11) ||| ((1 <<< 56) ||| (1 <<< 36))
    pieces := fun sq =>
      if sq == 11 then WHITE_KING
      else if sq == 56 then BLACK_KING
      else if sq == 36 then BLACK_PAWN
      else -1
    sideToMove := BLACK
    castlePerms := 0
    enPassantSquare := -1
    fiftyMoveCount := 0
    ply := 0
    searchPly := 0
    material := fun c => if c == WHITE then 0 else 1
    positionKey := 0
    history := []
    hasCastled := fun _ => false }

/-- the quiet pawn move e5-e4 on `wBoardC1`. -/
def wMoveC1 : Nat := 36 ||| (28 <<< 6) ||| (0xF <<< 12) ||| (0xF <<< 16)

/-- the board after the legal move `wMoveC1` on `wBoardC1` (white to
move, history of length one). -/
def wBoardC1b : Board := (Board.makeMove hk0 wBoardC1 wMoveC1).1

/-- the king move d2-d3 on `wBoardC1b`, rejected as illegal because the
black pawn on e4 attacks d3. -/
def wMoveC2 : Nat := 11 ||| (19 <<< 6) ||| (0xF <<< 12) ||| (0xF <<< 16)

/-- a quiet king move a1-b1, installed as first killer in `wKillers`. -/
def wMoveKiller : Nat := 0 ||| (1 <<< 6) ||| (0xF <<< 12) ||| (0xF <<< 16)

/-- a quiet king move a1-a2, carrying a history counter of 30 in
`wHistory`. -/
def wMoveQuiet : Nat := 0 ||| (8 <<< 6) ||| (0xF <<< 12) ||| (0xF <<< 16)

/-- a killer table whose slot [0][0] holds `wMoveKiller`. -/
def wKillers : Int → Nat → Int :=
  fun i j => if i = 0 ∧ j = 0 then (wMoveKiller : Int) else 0

/-- a history table giving the destination of `wMoveQuiet` a counter of
30. -/
def wHistory : Int → Nat → Int :=
  fun p t => if p = WHITE_KING ∧ t = 8 then 30 else 0

/-- a fresh search state over a given board: zero node counter, stop and
timeSet clear, table `wTT`, empty killer/history/counter tables. -/
def wState (b : Board) : Engine.SearchState :=
  ⟨b, 0, false, false, 0, wTT, fun _ _ => 0, fun _ _ => 0, fun _ _ => 0, -1⟩

/-- a board with a white pawn on a7 about to promote by a quiet push:
white king e1, black king e8, white to move, nothing to capture. -/
def wBoardProm : Board :=
  { pieceBitboards := fun p =>
      if p == WHITE_PAWN then 1 <<< 48
      else if p == WHITE_KING then 1 <<< 4
      else if p == BLACK_KING then 1 <<< 60
      else 0
    colorBitboards := fun c =>
      if c == WHITE then (1 <<< 48) ||| (1 <<< 4)
      else if c == BLACK then 1 <<< 60
      else ((1 <<< 48) ||| (1 <<< 4)) ||| (1 <<< 60)
    pieces := fun sq =>
      if sq == 48 then WHITE_PAWN
      else if sq == 4 then WHITE_KING
      else if sq == 60 then BLACK_KING
      else -1
    sideToMove := WHITE
    castlePerms := 0
    enPassantSquare := -1
    fiftyMoveCount := 0
    ply := 0
    searchPly := 0
    material := fun c => if c == WHITE then 100 else 0
    positionKey := 0
    history := []
    hasCastled := fun _ => false }

/-- written from the claim's words, for comparison with the rebuilt
board: the OR of `1 <<< sq` over the squares `start..start+n-1` whose
mailbox entry is the (present) piece `p`. -/
def orRange (pc : Nat → Int) (p : Int) (start : Nat) : Nat → Nat
  | 0 => 0
  | n + 1 =>
    (if pc start ≠ -1 ∧ pc start = p then 1 <<< start else 0) |||
      orRange pc p (start + 1) n

/-- written from the claim's words: the OR of `1 <<< sq` over the
occupied squares of color `c` (BOTH_COLORS counts every occupied
square). -/
def orRangeColor (pc : Nat → Int) (c : Int) (start : Nat) : Nat → Nat
  | 0 => 0
  | n + 1 =>
    (if pc start ≠ -1 ∧ (pieceColor (pc start) = c ∨ c = BOTH_COLORS)
      then 1 <<< start else 0) ||| orRangeColor pc c (start + 1) n

/-- written from the claim's words: the sum of pieceMaterial over the
squares `start..start+n-1` holding a piece of color `c`. -/
def sumRange (pc : Nat → Int) (c : Int) (start : Nat) : Nat → Int
  | 0 => 0
  | n + 1 =>
    (if pc start ≠ -1 ∧ pieceColor (pc start) = c
      then pieceMaterial (pc start) else 0) + sumRange pc c (start + 1) n

/-- the FEN of the C2 counterexample: e6 is given as en passant square
although a black knight stands on e6 (setToFEN never checks this). -/
def wFenEp : List Char := "4k3/8/4n3/4pP2/8/8/8/4K3 w - e6 0 1".toList

/-- the board parsed from `wFenEp`. -/
def wBoardEp : Board := (Board.setToFEN hk0 wBoardC1 wFenEp).2

/-- the en passant capture f5xe6 that the generator emits on
`wBoardEp`. -/
def wMoveEp : Nat :=
  MoveList.addMove (MoveList.getMove 37 44 INVALID INVALID EN_PASSANT_FLAG)
    MoveList.enPassantScore

/-- a syntactically plausible FEN whose castle-permissions token XX is
not among the sixteen canonical strings. -/
def wFenBadCastle : List Char := "4k3/8/8/8/8/8/8/4K3 w XX - 0 1".toList

/-- a FEN with an invalid side-to-move token x; the piece layout has
already been written into the mailbox when the check fails. -/
def wFenBadSide : List Char := "4k3/8/8/8/8/8/8/4K3 x KQkq - 0 1".toList

/-- enumeration helper: distribute the low bits of `k` over the set bits
of `m`, lowest mask bit first (the loop of subsetOf, restated with the
index consumed by shifting). -/
def spreadAux : Nat → Nat → Nat → Nat
  | 0, _, _ => 0
  | fuel + 1, m, k =>
    if m == 0 then 0
    else
      (if k &&& 1 != 0 then m ^^^ (m &&& (m - 1)) else 0) |||
        spreadAux fuel (m &&& (m - 1)) (k >>> 1)

/-- the blocker subset obtained by distributing the bits of `k` over
the set bits of `mask`. -/
def spread (mask k : Nat) : Nat := spreadAux 64 mask k

namespace attack

/-- the OR of `1 <<< magicIndex magic shift (sub ||| e)` over every
subset `e` of `m`: equal to `2 ^ 2 ^ countBits m - 1` exactly when the
magic indices of the subsets cover the whole table. -/
def orFoldSub (magic shift : Nat) : Nat → Nat → Nat → Nat
  | 0, _, sub => 1 <<< magicIndex magic shift sub
  | fuel + 1, m, sub =>
    if m == 0 then 1 <<< magicIndex magic shift sub
    else
      orFoldSub magic shift fuel (m &&& (m - 1)) sub |||
        orFoldSub magic shift fuel (m &&& (m - 1))
          (sub ||| (m ^^^ (m &&& (m - 1))))

/-- the ray-truncation factor applied by the slow attack computation
when the lowest blocker stops the ray. -/
def lsbFactor (ray : Nat → Nat) (t : Nat) : Nat :=
  if t != 0 then ray (getLSB t) ^^^ U64 else U64

/-- the ray-truncation factor when the highest blocker stops the ray. -/
def msbFactor (ray : Nat → Nat) (t : Nat) : Nat :=
  if t != 0 then ray (getMSB t) ^^^ U64 else U64

end attack

/-- written from the claim's words: walk a ray given as its list of
squares in walking order, taking every square up to and including the
first occupied one. -/
def walkRay (occ : Nat) : List Nat → Nat
  | [] => 0
  | s :: rest =>
    if occ.testBit s then 1 <<< s else (1 <<< s) ||| walkRay occ rest

/-- written from the claim's words: the squares reached from file `f`,
rank `r` by repeatedly stepping `df` files and `dr` ranks, until the
board edge. -/
def rayListAux (df dr : Int) : Nat → Int → Int → List Nat
  | 0, _, _ => []
  | fuel + 1, f, r =>
    if 0 ≤ f + df ∧ f + df ≤ 7 ∧ 0 ≤ r + dr ∧ r + dr ≤ 7 then
      ((f + df) + (r + dr) * 8).toNat ::
        rayListAux df dr fuel (f + df) (r + dr)
    else []

/-- the ray from square `sq` in direction `(df, dr)`. -/
def rayList (df dr : Int) (sq : Nat) : List Nat :=
  rayListAux df dr 8 ((sq : Int) % 8) ((sq : Int) / 8)

/-- written from the claim's words: the set of squares reachable from
`sq` along the four diagonal rays, stopping at and including the first
occupied square in each direction and excluding `sq` itself. -/
def bishopSpec (sq occ : Nat) : Nat :=
  walkRay occ (rayList 1 1 sq) ||| walkRay occ (rayList (-1) 1 sq) |||
  walkRay occ (rayList 1 (-1) sq) ||| walkRay occ (rayList (-1) (-1) sq)

/-- written from the claim's words: the four orthogonal rays. -/
def rookSpec (sq occ : Nat) : Nat :=
  walkRay occ (rayList 0 1 sq) ||| walkRay occ (rayList 0 (-1) sq) |||
  walkRay occ (rayList 1 0 sq) ||| walkRay occ (rayList (-1) 0 sq)

/-! Theorems. -/

theorem Core.ext' (a b : Core)
    (h1 : a.pieceBitboards = b.pieceBitboards)
    (h2 : a.colorBitboards = b.colorBitboards)
    (h3 : a.pieces = b.pieces) (h4 : a.material = b.material)
    (h5 : a.hasCastled = b.hasCastled) : a = b := by
  cases a; cases b; simp_all

theorem Board.ext_fields (a b : Board)
    (h1 : a.pieceBitboards = b.pieceBitboards)
    (h2 : a.colorBitboards = b.colorBitboards)
    (h3 : a.pieces = b.pieces)
    (h4 : a.sideToMove = b.sideToMove)
    (h5 : a.castlePerms = b.castlePerms)
    (h6 : a.enPassantSquare = b.enPassantSquare)
    (h7 : a.fiftyMoveCount = b.fiftyMoveCount)
    (h8 : a.ply = b.ply) (h9 : a.searchPly = b.searchPly)
    (h10 : a.material = b.material)
    (h11 : a.positionKey = b.positionKey)
    (h12 : a.history = b.history)
    (h13 : a.hasCastled = b.hasCastled) : a = b := by
  cases a; cases b; simp_all

/-- a board is determined by its core and its non-core fields. -/
theorem Board.eq_of_core (a b : Board) (hc : a.core = b.core)
    (h4 : a.sideToMove = b.sideToMove)
    (h5 : a.castlePerms = b.castlePerms)
    (h6 : a.enPassantSquare = b.enPassantSquare)
    (h7 : a.fiftyMoveCount = b.fiftyMoveCount)
    (h8 : a.ply = b.ply) (h9 : a.searchPly = b.searchPly)
    (h11 : a.positionKey = b.positionKey)
    (h12 : a.history = b.history) : a = b := by
  cases a; cases b
  simp only [Board.core, Core.mk.injEq] at hc
  simp_all

namespace Core

theorem colorStep_colorStep (cb : Int → Nat) (c : Int) (m : Nat) :
    colorStep (colorStep cb c m) c m = cb := by
  funext x
  simp only [colorStep, Function.update_apply]
  by_cases hx2 : x = BOTH_COLORS <;> by_cases hxc : x = c <;>
    by_cases hc2 : c = BOTH_COLORS <;>
    simp_all [Nat.xor_cancel_right]

theorem move_move (k : Core) (f t : Nat) (hne : f ≠ t) (ht : k.pieces t = -1) :
    (k.move f t).move t f = k := by
  obtain ⟨pb, cb, ps, mat, hc⟩ := k
  simp only [move] at ht ⊢
  have hp : Function.update (Function.update ps t (ps f)) f (-1) t = ps f := by
    rw [Function.update_noteq (Ne.symm hne), Function.update_same]
  rw [hp]
  have hm : (1 <<< f) ||| (1 <<< t) = (1 <<< t) ||| (1 <<< f) := Nat.lor_comm ..
  rw [hm]
  refine Core.ext' _ _ ?_ ?_ ?_ ?_ ?_
  · simp only
    rw [Function.update_idem, Function.update_same, Nat.xor_cancel_right,
        Function.update_eq_self]
  · simp only
    exact colorStep_colorStep ..
  · simp only
    funext x
    by_cases hxt : x = t
    · subst hxt
      rw [Function.update_same, ht]
    · by_cases hxf : x = f
      · subst hxf
        rw [Function.update_noteq hxt, Function.update_same]
      · rw [Function.update_noteq hxt, Function.update_noteq hxf,
            Function.update_noteq hxf, Function.update_noteq hxt]
  · simp only
  · simp only

theorem add_clear (k : Core) (sq : Nat) (p : Int) (h : k.pieces sq = p) :
    (k.clear sq).add sq p = k := by
  obtain ⟨pb, cb, ps, mat, hc⟩ := k
  simp only [clear, add] at h ⊢
  refine Core.ext' _ _ ?_ ?_ ?_ ?_ ?_ <;> simp only
  · rw [h, Function.update_same, Function.update_idem, Nat.xor_cancel_right,
        Function.update_eq_self]
  · rw [h]
    exact colorStep_colorStep ..
  · rw [Function.update_idem, ← h, Function.update_eq_self]
  · rw [h, Function.update_same, Function.update_idem]
    have hmat : mat (pieceColor p) - pieceMaterial p + pieceMaterial p
        = mat (pieceColor p) := by ring
    rw [hmat, Function.update_eq_self]

theorem clear_add (k : Core) (sq : Nat) (p : Int) (h : k.pieces sq = -1) :
    (k.add sq p).clear sq = k := by
  obtain ⟨pb, cb, ps, mat, hc⟩ := k
  simp only [add, clear] at h ⊢
  rw [Function.update_same]
  refine Core.ext' _ _ ?_ ?_ ?_ ?_ ?_ <;> simp only
  · rw [Function.update_same, Function.update_idem, Nat.xor_cancel_right,
        Function.update_eq_self]
  · exact colorStep_colorStep ..
  · rw [Function.update_idem, ← h, Function.update_eq_self]
  · rw [Function.update_same, Function.update_idem]
    have hmat : mat (pieceColor p) + pieceMaterial p - pieceMaterial p
        = mat (pieceColor p) := by ring
    rw [hmat, Function.update_eq_self]

end Core

namespace Board

theorem clearPiece_core (hk : HashKeys) (b : Board) (sq : Nat) :
    (clearPiece hk b sq).core = b.core.clear sq := rfl

theorem addPiece_core (hk : HashKeys) (b : Board) (sq : Nat) (p : Int) :
    (addPiece hk b sq p).core = b.core.add sq p := rfl

theorem movePiece_core (hk : HashKeys) (b : Board) (f t : Nat) :
    (movePiece hk b f t).core = b.core.move f t := rfl

theorem mmBookkeep_core (hk : HashKeys) (b : Board) (m : Nat) :
    (mmBookkeep hk b m).core = b.core := by
  simp only [mmBookkeep, apply_ite Board.core]
  repeat' split
  all_goals rfl

theorem mmBookkeep_sideToMove (hk : HashKeys) (b : Board) (m : Nat) :
    (mmBookkeep hk b m).sideToMove = b.sideToMove := by
  simp only [mmBookkeep, apply_ite Board.sideToMove]
  repeat' split
  all_goals rfl

theorem mmBookkeep_ply (hk : HashKeys) (b : Board) (m : Nat) :
    (mmBookkeep hk b m).ply = b.ply + 1 := by
  simp only [mmBookkeep, apply_ite Board.ply]
  repeat' split
  all_goals rfl

theorem mmBookkeep_searchPly (hk : HashKeys) (b : Board) (m : Nat) :
    (mmBookkeep hk b m).searchPly = b.searchPly + 1 := by
  simp only [mmBookkeep, apply_ite Board.searchPly]
  repeat' split
  all_goals rfl

theorem mmBookkeep_history (hk : HashKeys) (b : Board) (m : Nat) :
    (mmBookkeep hk b m).history = b.history ++ [mmRecord b m] := by
  simp only [mmBookkeep, apply_ite Board.history]
  repeat' split
  all_goals rfl

theorem mmSwitch_core (hk : HashKeys) (b : Board) (m : Nat) :
    (mmSwitch hk b m).core = Core.switch b.core b.sideToMove m := by
  simp only [mmSwitch, Core.switch, apply_ite Board.core]
  repeat' split
  all_goals rfl

theorem mmSwitch_sideToMove (hk : HashKeys) (b : Board) (m : Nat) :
    (mmSwitch hk b m).sideToMove = b.sideToMove := by
  simp only [mmSwitch, apply_ite Board.sideToMove]
  repeat' split
  all_goals rfl

theorem mmSwitch_ply (hk : HashKeys) (b : Board) (m : Nat) :
    (mmSwitch hk b m).ply = b.ply := by
  simp only [mmSwitch, apply_ite Board.ply]
  repeat' split
  all_goals rfl

theorem mmSwitch_searchPly (hk : HashKeys) (b : Board) (m : Nat) :
    (mmSwitch hk b m).searchPly = b.searchPly := by
  simp only [mmSwitch, apply_ite Board.searchPly]
  repeat' split
  all_goals rfl

theorem mmSwitch_history (hk : HashKeys) (b : Board) (m : Nat) :
    (mmSwitch hk b m).history = b.history := by
  simp only [mmSwitch, apply_ite Board.history]
  repeat' split
  all_goals rfl

theorem mmFinish_core (hk : HashKeys) (b : Board) (m : Nat) :
    (mmFinish hk b m).core = b.core.move (m &&& 0x3F) ((m >>> 6) &&& 0x3F) := rfl

theorem mmFinish_sideToMove (hk : HashKeys) (b : Board) (m : Nat) :
    (mmFinish hk b m).sideToMove = cNot b.sideToMove := rfl

theorem mmFinish_ply (hk : HashKeys) (b : Board) (m : Nat) :
    (mmFinish hk b m).ply = b.ply := rfl

theorem mmFinish_searchPly (hk : HashKeys) (b : Board) (m : Nat) :
    (mmFinish hk b m).searchPly = b.searchPly := rfl

theorem mmFinish_history (hk : HashKeys) (b : Board) (m : Nat) :
    (mmFinish hk b m).history = b.history := rfl

theorem umStart_core (b : Board) : (umStart b).core = b.core := rfl

theorem umStart_history (b : Board) : (umStart b).history = b.history := rfl

theorem umMove_core (hk : HashKeys) (b : Board) :
    (umMove hk b).core =
      b.core.move (((b.history.getLastD noPrev).move >>> 6) &&& 0x3F)
        ((b.history.getLastD noPrev).move &&& 0x3F) := rfl

theorem umMove_sideToMove (hk : HashKeys) (b : Board) :
    (umMove hk b).sideToMove = b.sideToMove := rfl

theorem umMove_history (hk : HashKeys) (b : Board) :
    (umMove hk b).history = b.history := rfl

theorem umSwitch_core (hk : HashKeys) (b : Board) :
    (umSwitch hk b).core =
      Core.unswitch b.core b.sideToMove ((b.history.getLastD noPrev).move) := by
  simp only [umSwitch, Core.unswitch, apply_ite Board.core]
  repeat' split
  all_goals rfl

theorem umSwitch_sideToMove (hk : HashKeys) (b : Board) :
    (umSwitch hk b).sideToMove = b.sideToMove := by
  simp only [umSwitch, apply_ite Board.sideToMove]
  repeat' split
  all_goals rfl

theorem umSwitch_ply (hk : HashKeys) (b : Board) :
    (umSwitch hk b).ply = b.ply := by
  simp only [umSwitch, apply_ite Board.ply]
  repeat' split
  all_goals rfl

theorem umSwitch_searchPly (hk : HashKeys) (b : Board) :
    (umSwitch hk b).searchPly = b.searchPly := by
  simp only [umSwitch, apply_ite Board.searchPly]
  repeat' split
  all_goals rfl

theorem umSwitch_history (hk : HashKeys) (b : Board) :
    (umSwitch hk b).history = b.history := by
  simp only [umSwitch, apply_ite Board.history]
  repeat' split
  all_goals rfl

theorem umRestore_core (b : Board) : (umRestore b).core = b.core := rfl

end Board

namespace Core

theorem colorStep_apply (cb : Int → Nat) (c : Int) (m : Nat) (x : Int) :
    colorStep cb c m x =
      if x = BOTH_COLORS then
        (if BOTH_COLORS = c then cb c ^^^ m else cb BOTH_COLORS) ^^^ m
      else if x = c then cb c ^^^ m else cb x := by
  simp only [colorStep, Function.update_apply]

theorem colorStep_comm (cb : Int → Nat) (c1 c2 : Int) (m1 m2 : Nat) :
    colorStep (colorStep cb c1 m1) c2 m2 = colorStep (colorStep cb c2 m2) c1 m1 := by
  funext x
  simp only [colorStep_apply]
  by_cases hx : x = BOTH_COLORS <;> by_cases h1 : c1 = BOTH_COLORS <;>
    by_cases h2 : c2 = BOTH_COLORS <;> by_cases h12 : c1 = c2 <;>
    by_cases hx1 : x = c1 <;> by_cases hx2 : x = c2 <;>
    simp_all [Nat.xor_assoc, Nat.xor_cancel_left, Nat.xor_cancel_right,
              Nat.xor_comm m1 m2, eq_comm]

/-- two adds at different squares commute. -/
theorem add_add_comm (k : Core) (a b : Nat) (p q : Int) (hab : a ≠ b) :
    (k.add a p).add b q = (k.add b q).add a p := by
  obtain ⟨pb, cb, ps, mat, hc⟩ := k
  simp only [add]
  refine Core.ext' _ _ ?_ ?_ ?_ ?_ ?_ <;> simp only
  · by_cases hpq : p = q
    · subst hpq
      rw [Function.update_idem, Function.update_idem, Function.update_same,
          Function.update_same, Nat.xor_assoc, Nat.xor_assoc,
          Nat.xor_comm (1 <<< a) (1 <<< b)]
    · rw [Function.update_noteq (Ne.symm hpq), Function.update_noteq hpq,
          Function.update_comm hpq]
  · exact colorStep_comm ..
  · exact Function.update_comm hab ..
  · by_cases hcq : pieceColor p = pieceColor q
    · rw [hcq, Function.update_idem, Function.update_idem, Function.update_same,
          Function.update_same]
      have hv : mat (pieceColor q) + pieceMaterial p + pieceMaterial q
          = mat (pieceColor q) + pieceMaterial q + pieceMaterial p := by ring
      rw [add_assoc, add_assoc] at hv ⊢
      rw [hv]
    · rw [Function.update_noteq (Ne.symm hcq), Function.update_noteq hcq,
          Function.update_comm hcq]

/-- clearing square `b` commutes with adding at a different square `a`. -/
theorem clear_add_comm (k : Core) (a b : Nat) (p : Int) (hab : a ≠ b) :
    (k.add a p).clear b = (k.clear b).add a p := by
  obtain ⟨pb, cb, ps, mat, hc⟩ := k
  have hval : Function.update ps a p b = ps b :=
    Function.update_noteq (Ne.symm hab) ..
  simp only [add, clear, hval]
  refine Core.ext' _ _ ?_ ?_ ?_ ?_ ?_ <;> simp only
  · by_cases hpq : p = ps b
    · rw [hpq, Function.update_idem, Function.update_idem, Function.update_same,
          Function.update_same, Nat.xor_assoc, Nat.xor_assoc,
          Nat.xor_comm (1 <<< a) (1 <<< b)]
    · rw [Function.update_noteq (Ne.symm hpq), Function.update_noteq hpq,
          Function.update_comm hpq]
  · exact colorStep_comm ..
  · exact Function.update_comm hab ..
  · by_cases hcq : pieceColor p = pieceColor (ps b)
    · rw [hcq, Function.update_idem, Function.update_idem, Function.update_same,
          Function.update_same]
      have hv : mat (pieceColor (ps b)) + pieceMaterial p - pieceMaterial (ps b)
          = mat (pieceColor (ps b)) - pieceMaterial (ps b) + pieceMaterial p := by
        ring
      rw [hv]
    · rw [Function.update_noteq (Ne.symm hcq), Function.update_noteq hcq,
          Function.update_comm hcq]

/-- a move ignores the hasCastled field. -/
theorem move_hasCastled_set (k : Core) (a b : Nat) (h : Int → Bool) :
    Core.move { k with hasCastled := h } a b = { k.move a b with hasCastled := h } := rfl

end Core

namespace Core

theorem clear_pieces (k : Core) (sq : Nat) (x : Nat) :
    (k.clear sq).pieces x = if x = sq then -1 else k.pieces x := by
  simp [clear, Function.update_apply]

theorem add_pieces (k : Core) (sq : Nat) (p : Int) (x : Nat) :
    (k.add sq p).pieces x = if x = sq then p else k.pieces x := by
  simp [add, Function.update_apply]

theorem move_pieces (k : Core) (f t : Nat) (x : Nat) :
    (k.move f t).pieces x =
      if x = f then -1 else if x = t then k.pieces f else k.pieces x := by
  simp only [move, Function.update_apply]

/-- after the switch phase, the destination square of the move is
empty. -/
theorem switch_to_empty (k : Core) (stm : Int) (m : Nat) (hpre : pre k stm m) :
    (Core.switch k stm m).pieces ((m >>> 6) &&& 0x3F) = -1 := by
  obtain ⟨hne, hcase⟩ := hpre
  simp only [Core.switch]
  by_cases h1 : m &&& MOVE_FLAGS = CAPTURE_FLAG
  · rw [if_pos (by simp [h1])]
    simp [clear_pieces]
  rw [if_neg (by simp [h1])]
  rw [if_neg (by simp [h1])] at hcase
  by_cases h2 : m &&& MOVE_FLAGS = CAPTURE_AND_PROMOTION_FLAG
  · rw [if_pos (by simp [h2])]
    simp [add_pieces, clear_pieces, Ne.symm hne]
  rw [if_neg (by simp [h2])]
  rw [if_neg (by simp [h2])] at hcase
  by_cases h3 : m &&& MOVE_FLAGS = PROMOTION_FLAG
  · rw [if_pos (by simp [h3])]
    rw [if_pos h3] at hcase
    simp [add_pieces, clear_pieces, Ne.symm hne, hcase.2]
  rw [if_neg (by simp [h3])]
  rw [if_neg (by simp [h3])] at hcase
  by_cases h4 : m &&& MOVE_FLAGS = CASTLE_FLAG
  · rw [if_pos (by simp [h4])]
    rw [if_pos (by simp [h4])] at hcase
    obtain ⟨hf, ht, hca, hG1, hC1, hG8, hC8⟩ := hcase
    simp only
    by_cases hg1 : ((m >>> 6) &&& 0x3F) = G1
    · rw [if_pos (by simp [hg1])]
      simp only [move_pieces]
      rw [if_neg (by rw [hg1]; decide), if_neg (by rw [hg1]; decide)]
      exact ht
    rw [if_neg (by simp [hg1])]
    by_cases hc1 : ((m >>> 6) &&& 0x3F) = C1
    · rw [if_pos (by simp [hc1])]
      simp only [move_pieces]
      rw [if_neg (by rw [hc1]; decide), if_neg (by rw [hc1]; decide)]
      exact ht
    rw [if_neg (by simp [hc1])]
    by_cases hg8 : ((m >>> 6) &&& 0x3F) = G8
    · rw [if_pos (by simp [hg8])]
      simp only [move_pieces]
      rw [if_neg (by rw [hg8]; decide), if_neg (by rw [hg8]; decide)]
      exact ht
    rw [if_neg (by simp [hg8])]
    by_cases hc8 : ((m >>> 6) &&& 0x3F) = C8
    · rw [if_pos (by simp [hc8])]
      simp only [move_pieces]
      rw [if_neg (by rw [hc8]; decide), if_neg (by rw [hc8]; decide)]
      exact ht
    rw [if_neg (by simp [hc8])]
    exact ht
  rw [if_neg (by simp [h4])]
  rw [if_neg (by simp [h4])] at hcase
  by_cases h5 : m &&& MOVE_FLAGS = PAWN_START_FLAG
  · rw [if_pos (by simp [h5])]
    rw [if_neg (by rw [h5]; decide)] at hcase
    exact hcase.2
  rw [if_neg (by simp [h5])]
  by_cases h6 : m &&& MOVE_FLAGS = EN_PASSANT_FLAG
  · rw [if_pos (by simp [h6])]
    rw [if_pos (by simp [h6])] at hcase
    rw [clear_pieces, if_neg (Ne.symm hcase.2.2.2.2)]
    exact hcase.2.1
  · rw [if_neg (by simp [h6])]
    rw [if_neg (by simp [h6])] at hcase
    exact hcase.2

end Core

namespace Core

theorem move_hasCastled (k : Core) (f t : Nat) :
    (k.move f t).hasCastled = k.hasCastled := rfl

/-- the umSwitch phase inverts the mmSwitch phase. -/
theorem unswitch_switch (k : Core) (stm : Int) (m : Nat) (hpre : pre k stm m) :
    Core.unswitch (Core.switch k stm m) stm m = k := by
  obtain ⟨hne, hcase⟩ := hpre
  simp only [Core.switch, Core.unswitch, beq_iff_eq]
  by_cases h1 : m &&& MOVE_FLAGS = CAPTURE_FLAG
  · rw [if_pos h1] at hcase
    rw [if_pos h1, if_pos h1]
    exact add_clear _ _ _ hcase.2
  rw [if_neg h1] at hcase
  rw [if_neg h1, if_neg h1]
  by_cases h2 : m &&& MOVE_FLAGS = CAPTURE_AND_PROMOTION_FLAG
  · rw [if_pos h2] at hcase
    rw [if_pos h2, if_pos h2]
    rw [clear_add_comm _ _ _ _ (Ne.symm hne)]
    rw [clear_add _ _ _ (by rw [clear_pieces]; simp)]
    rw [add_add_comm _ _ _ _ _ (Ne.symm hne)]
    rw [add_clear _ _ _ (by rw [clear_pieces, if_neg hne]; exact hcase.1)]
    exact add_clear _ _ _ hcase.2
  rw [if_neg h2] at hcase
  rw [if_neg h2, if_neg h2]
  by_cases h3 : m &&& MOVE_FLAGS = PROMOTION_FLAG
  · rw [if_pos h3] at hcase
    rw [if_pos h3, if_pos h3]
    rw [clear_add _ _ _ (by rw [clear_pieces]; simp)]
    exact add_clear _ _ _ hcase.1
  rw [if_neg h3] at hcase
  rw [if_neg h3, if_neg h3]
  by_cases h4 : m &&& MOVE_FLAGS = CASTLE_FLAG
  · rw [if_pos h4] at hcase
    rw [if_pos h4, if_pos h4]
    obtain ⟨hf, ht, hca, hG1, hC1, hG8, hC8⟩ := hcase
    have hcc : Function.update (Function.update k.hasCastled stm true) stm false
        = k.hasCastled := by
      rw [Function.update_idem, ← hca, Function.update_eq_self]
    by_cases hg1 : (m >>> 6) &&& 0x3F = G1
    · rw [if_pos hg1, if_pos hg1]
      rw [move_hasCastled_set, move_move _ _ _ (by decide) (hG1 hg1).2.1,
          move_hasCastled, hcc]
    rw [if_neg hg1, if_neg hg1]
    by_cases hc1 : (m >>> 6) &&& 0x3F = C1
    · rw [if_pos hc1, if_pos hc1]
      rw [move_hasCastled_set, move_move _ _ _ (by decide) (hC1 hc1).2.1,
          move_hasCastled, hcc]
    rw [if_neg hc1, if_neg hc1]
    by_cases hg8 : (m >>> 6) &&& 0x3F = G8
    · rw [if_pos hg8, if_pos hg8]
      rw [move_hasCastled_set, move_move _ _ _ (by decide) (hG8 hg8).2.1,
          move_hasCastled, hcc]
    rw [if_neg hg8, if_neg hg8]
    by_cases hc8 : (m >>> 6) &&& 0x3F = C8
    · rw [if_pos hc8, if_pos hc8]
      rw [move_hasCastled_set, move_move _ _ _ (by decide) (hC8 hc8).2.1,
          move_hasCastled, hcc]
    rw [if_neg hc8, if_neg hc8]
    rw [hcc]
  rw [if_neg h4] at hcase
  rw [if_neg h4, if_neg h4]
  by_cases h5 : m &&& MOVE_FLAGS = PAWN_START_FLAG
  · rw [if_pos h5]
    rw [if_neg (show ¬m &&& MOVE_FLAGS = EN_PASSANT_FLAG by rw [h5]; decide)]
  rw [if_neg h5]
  by_cases h6 : m &&& MOVE_FLAGS = EN_PASSANT_FLAG
  · rw [if_pos h6] at hcase
    rw [if_pos h6, if_pos h6]
    exact add_clear _ _ _ hcase.2.2.1
  · rw [if_neg h6, if_neg h6]

end Core

namespace Board

theorem umStart_sideToMove (b : Board) :
    (umStart b).sideToMove = cNot b.sideToMove := rfl

theorem umStart_ply (b : Board) : (umStart b).ply = b.ply - 1 := rfl

theorem umStart_searchPly (b : Board) :
    (umStart b).searchPly = b.searchPly - 1 := rfl

theorem umMove_ply (hk : HashKeys) (b : Board) : (umMove hk b).ply = b.ply := rfl

theorem umMove_searchPly (hk : HashKeys) (b : Board) :
    (umMove hk b).searchPly = b.searchPly := rfl

theorem umRestore_sideToMove (b : Board) :
    (umRestore b).sideToMove = b.sideToMove := rfl

theorem umRestore_ply (b : Board) : (umRestore b).ply = b.ply := rfl

theorem umRestore_searchPly (b : Board) :
    (umRestore b).searchPly = b.searchPly := rfl

theorem umRestore_history (b : Board) :
    (umRestore b).history = b.history.dropLast := rfl

theorem umRestore_castlePerms (b : Board) :
    (umRestore b).castlePerms = (b.history.getLastD noPrev).castlePerms := rfl

theorem umRestore_fiftyMoveCount (b : Board) :
    (umRestore b).fiftyMoveCount = (b.history.getLastD noPrev).fiftyMoveCount := rfl

theorem umRestore_enPassantSquare (b : Board) :
    (umRestore b).enPassantSquare = (b.history.getLastD noPrev).enPassantSquare := rfl

theorem umRestore_positionKey (b : Board) :
    (umRestore b).positionKey = (b.history.getLastD noPrev).positionKey := rfl

theorem getLastD_concat' {α : Type} (l : List α) (x d : α) :
    (l ++ [x]).getLastD d = x := by
  induction l with
  | nil => rfl
  | cons a l ih =>
    cases l with
    | nil => rfl
    | cons c l2 => simpa using ih

theorem dropLast_concat' {α : Type} (l : List α) (x : α) :
    (l ++ [x]).dropLast = l := by
  simp

/-- the central inversion theorem: undoMove exactly inverts the state
mutation of makeMove, for any move satisfying the precondition `Core.pre`
on a board whose side to move is WHITE or BLACK. -/
theorem undoMove_makeMoveState (hk : HashKeys) (b : Board) (m : Nat)
    (hside : b.sideToMove = 0 ∨ b.sideToMove = 1)
    (hpre : Core.pre b.core b.sideToMove m) :
    undoMove hk (makeMoveState hk b m) = b := by
  have hstm : cNot (cNot b.sideToMove) = b.sideToMove := by
    rcases hside with h | h <;> rw [h] <;> rfl
  have hist3 : (makeMoveState hk b m).history = b.history ++ [mmRecord b m] := by
    rw [makeMoveState, mmFinish_history, mmSwitch_history, mmBookkeep_history]
  have hstm3 : (makeMoveState hk b m).sideToMove = cNot b.sideToMove := by
    rw [makeMoveState, mmFinish_sideToMove, mmSwitch_sideToMove,
        mmBookkeep_sideToMove]
  have hply3 : (makeMoveState hk b m).ply = b.ply + 1 := by
    rw [makeMoveState, mmFinish_ply, mmSwitch_ply, mmBookkeep_ply]
  have hsp3 : (makeMoveState hk b m).searchPly = b.searchPly + 1 := by
    rw [makeMoveState, mmFinish_searchPly, mmSwitch_searchPly,
        mmBookkeep_searchPly]
  have hcore3 : (makeMoveState hk b m).core =
      (Core.switch b.core b.sideToMove m).move (m &&& 0x3F) ((m >>> 6) &&& 0x3F) := by
    rw [makeMoveState, mmFinish_core, mmSwitch_core, mmBookkeep_core,
        mmBookkeep_sideToMove]
  -- the undo chain
  have hc1hist : (umStart (makeMoveState hk b m)).history
      = b.history ++ [mmRecord b m] := by rw [umStart_history, hist3]
  have hc2 := umMove hk (umStart (makeMoveState hk b m))
  have hc2core : (umMove hk (umStart (makeMoveState hk b m))).core
      = Core.switch b.core b.sideToMove m := by
    rw [umMove_core, hc1hist, getLastD_concat']
    show ((umStart (makeMoveState hk b m)).core.move ((m >>> 6) &&& 0x3F)
      (m &&& 0x3F)) = _
    rw [umStart_core, hcore3]
    exact Core.move_move _ _ _ hpre.1 (Core.switch_to_empty _ _ _ hpre)
  have hc2stm : (umMove hk (umStart (makeMoveState hk b m))).sideToMove
      = b.sideToMove := by
    rw [umMove_sideToMove, umStart_sideToMove, hstm3, hstm]
  have hc2hist : (umMove hk (umStart (makeMoveState hk b m))).history
      = b.history ++ [mmRecord b m] := by rw [umMove_history, hc1hist]
  have hc3core : (umSwitch hk (umMove hk (umStart (makeMoveState hk b m)))).core
      = b.core := by
    rw [umSwitch_core, hc2core, hc2stm, hc2hist, getLastD_concat']
    exact Core.unswitch_switch _ _ _ hpre
  have hc3hist : (umSwitch hk (umMove hk (umStart (makeMoveState hk b m)))).history
      = b.history ++ [mmRecord b m] := by rw [umSwitch_history, hc2hist]
  rw [undoMove]
  apply Board.eq_of_core
  · rw [umRestore_core, hc3core]
  · rw [umRestore_sideToMove, umSwitch_sideToMove, hc2stm]
  · rw [umRestore_castlePerms, hc3hist, getLastD_concat']
    rfl
  · rw [umRestore_enPassantSquare, hc3hist, getLastD_concat']
    rfl
  · rw [umRestore_fiftyMoveCount, hc3hist, getLastD_concat']
    rfl
  · rw [umRestore_ply, umSwitch_ply, umMove_ply, umStart_ply, hply3]
    ring
  · rw [umRestore_searchPly, umSwitch_searchPly, umMove_searchPly,
        umStart_searchPly, hsp3]
    ring
  · rw [umRestore_positionKey, hc3hist, getLastD_concat']
    rfl
  · rw [umRestore_history, hc3hist, dropLast_concat']

end Board

namespace Board

/-- when makeMove reports a legal move, undoMove restores the previous
board exactly. -/
theorem makeMove_legal_undo (hk : HashKeys) (b : Board) (m : Nat)
    (hside : b.sideToMove = 0 ∨ b.sideToMove = 1)
    (hpre : Core.pre b.core b.sideToMove m)
    (hleg : (makeMove hk b m).2 = true) :
    undoMove hk (makeMove hk b m).1 = b := by
  rw [makeMove] at hleg ⊢
  by_cases hatt : squaresAttacked (makeMoveState hk b m)
      ((makeMoveState hk b m).pieceBitboards
        (if b.sideToMove == WHITE then WHITE_KING else BLACK_KING))
      (makeMoveState hk b m).sideToMove = true
  · rw [if_pos hatt] at hleg
    simp at hleg
  · rw [if_neg hatt]
    exact undoMove_makeMoveState hk b m hside hpre

/-- when makeMove reports an illegal move, it has already restored the
previous board itself (it calls undoMove internally). -/
theorem makeMove_illegal_restores (hk : HashKeys) (b : Board) (m : Nat)
    (hside : b.sideToMove = 0 ∨ b.sideToMove = 1)
    (hpre : Core.pre b.core b.sideToMove m)
    (hleg : (makeMove hk b m).2 = false) :
    (makeMove hk b m).1 = b := by
  rw [makeMove] at hleg ⊢
  by_cases hatt : squaresAttacked (makeMoveState hk b m)
      ((makeMoveState hk b m).pieceBitboards
        (if b.sideToMove == WHITE then WHITE_KING else BLACK_KING))
      (makeMoveState hk b m).sideToMove = true
  · rw [if_pos hatt]
    exact undoMove_makeMoveState hk b m hside hpre
  · rw [if_neg hatt] at hleg
    simp at hleg

end Board


/-- `static_cast<short>` is the identity on the 16-bit signed range. -/
theorem toShort_eq_of_bounds (e : Int) (h1 : -(2 ^ 15) ≤ e) (h2 : e < 2 ^ 15) :
    toShort e = e := by
  unfold toShort
  norm_num at h1 h2 ⊢
  omega

/-- `static_cast<unsigned char>` round-trips on [0, 255]. -/
theorem toUChar_castInt (d : Int) (h1 : 0 ≤ d) (h2 : d < 256) :
    (toUChar d : Int) = d := by
  unfold toUChar
  omega

/-- C9 (amended): when `movetime` is unset and the side to move clock is
known, Engine::setupSearch sets `timeSet` and computes
`stopTime = startTime + time[side] / movestogo + inc[side] - moveOverhead`
with C truncating division and no clamping of the budget at zero, so
`stopTime` can precede `startTime` (the spec claims a `max(0, budget)`
clamp that the code does not perform). -/
theorem spec_C9_setupSearch_stopTime (startTime timeSide incSide movestogo
    moveOverhead stopTime0 : Int) (h : timeSide ≠ -1) :
    Engine.setupSearchTime startTime (-1) timeSide incSide movestogo
      moveOverhead stopTime0 =
      (true, startTime + Int.tdiv timeSide movestogo + incSide -
        moveOverhead) := by
  simp [Engine.setupSearchTime, bne_iff_ne, h]

/-- concrete instance of the C9 theorem. -/
theorem spec_C9_setupSearch_stopTime_witness :
    (100 : Int) ≠ -1 ∧
      Engine.setupSearchTime 1000000 (-1) 100 0 30 5000 0 =
        (true, 1000000 + Int.tdiv 100 30 + 0 - 5000) :=
  ⟨by decide, spec_C9_setupSearch_stopTime 1000000 100 0 30 5000 0 (by decide)⟩

/-- C9 counterexample: with 100 ms on the clock, movestogo 30, no
increment and moveOverhead 5000 (the largest value setMoveOverhead
accepts), Engine::setupSearch computes stopTime 995003, which is earlier
than startTime 1000000: the `max(0, budget)` clamp claimed by the spec
does not exist in src/src/engine.cpp lines 268-272. -/
theorem spec_C9_counterexample :
    Engine.setupSearchTime 1000000 (-1) 100 0 30 5000 0 = (true, 995003) ∧
      995003 < (1000000 : Int) :=
  ⟨by decide, by decide⟩

/-- C4 (amended): after store(k, m, e, d, bound) on a nonempty table with
e in the 16-bit signed range and d in [0, 255], retrieve(k, d, α, β) at
the same key reports the stored bound and returns true with bestMove = m
whenever the bound permits the cutoff; the evaluation it yields is the
stored e for an EXACT entry, but β for a LOWER_BOUND entry and α for an
UPPER_BOUND entry rather than the stored evaluation. -/
theorem spec_C4_store_retrieve (t : TranspositionTable) (k : Nat)
    (m e d alpha beta bm0 e0 : Int) (hsz : 0 < t.size)
    (he1 : -(2 ^ 15) ≤ e) (he2 : e < 2 ^ 15) (hd1 : 0 ≤ d) (hd2 : d < 256) :
    (t.store k m e d NodeType.EXACT).retrieve k d alpha beta bm0 e0 =
        (true, m, e) ∧
      (beta ≤ e →
        (t.store k m e d NodeType.LOWER_BOUND).retrieve k d alpha beta bm0
          e0 = (true, m, beta)) ∧
      (e ≤ alpha →
        (t.store k m e d NodeType.UPPER_BOUND).retrieve k d alpha beta bm0
          e0 = (true, m, alpha)) := by
  have hts : toShort e = e := toShort_eq_of_bounds e he1 he2
  have htd : (toUChar d : Int) = d := toUChar_castInt d hd1 hd2
  refine ⟨?_, fun hb => ?_, fun ha => ?_⟩
  · simp [TranspositionTable.store, TranspositionTable.retrieve,
      Function.update_same, hts, htd]
  · simp [TranspositionTable.store, TranspositionTable.retrieve,
      Function.update_same, hts, htd, hb]
  · simp [TranspositionTable.store, TranspositionTable.retrieve,
      Function.update_same, hts, htd, ha]

/-- concrete instance of the C4 theorem. -/
theorem spec_C4_store_retrieve_witness :
    0 < wTT.size ∧ -(2 ^ 15) ≤ (5 : Int) ∧ (5 : Int) < 2 ^ 15 ∧
      (0 : Int) ≤ 2 ∧ (2 : Int) < 256 ∧
      ((wTT.store 3 4 5 2 NodeType.EXACT).retrieve 3 2 (-9) 9 (-1) 0 =
          (true, 4, 5) ∧
        (9 ≤ (5 : Int) →
          (wTT.store 3 4 5 2 NodeType.LOWER_BOUND).retrieve 3 2 (-9) 9 (-1)
            0 = (true, 4, 9)) ∧
        ((5 : Int) ≤ -9 →
          (wTT.store 3 4 5 2 NodeType.UPPER_BOUND).retrieve 3 2 (-9) 9 (-1)
            0 = (true, 4, -9))) :=
  ⟨by decide, by decide, by decide, by decide, by decide,
    spec_C4_store_retrieve wTT 3 4 5 2 (-9) 9 (-1) 0 (by decide) (by decide)
      (by decide) (by decide) (by decide)⟩

/-- C4 counterexample: after store(0, 7, 50, 3, LOWER_BOUND), a retrieve
with beta = 10 succeeds (stored eval 50 ≥ beta) but yields eval = beta =
10, not the stored evaluation 50: src/src/table.cpp line 86 assigns
`eval = beta` (and line 90 `eval = alpha`), so "eval = e, the stored
evaluation" holds only for EXACT entries. -/
theorem spec_C4_counterexample :
    (wTT.store 0 7 50 3 NodeType.LOWER_BOUND).retrieve 0 3 0 10 (-1) 0 =
      (true, 7, 10) ∧ (10 : Int) ≠ 50 :=
  ⟨by decide, by decide⟩

namespace Engine

/-- Engine::checkup never touches the board. -/
theorem checkup_board (clock : Nat → Int) (s : SearchState) :
    (checkup clock s).board = s.board := by
  unfold checkup
  split <;> rfl

/-- on a repeated position or one with fiftyMoveCount ≥ 100, quiescence
returns 0 from the draw check before evaluating or generating moves. -/
theorem quiescence_draw_eq (hk : HashKeys) (ev : Board → Int)
    (clock : Nat → Int) (fuel : Nat) (alpha beta : Int) (st : SearchState)
    (h : (st.board.searchPly > 0 ∧ st.board.isRepetition) ∨
      st.board.fiftyMoveCount ≥ 100) :
    quiescence hk ev clock (fuel + 1) alpha beta st =
      (0, if (st.nodes + 1) &&& 0xFFF == 0 then
          checkup clock { st with nodes := st.nodes + 1 }
        else { st with nodes := st.nodes + 1 }) := by
  have hSb : (if (st.nodes + 1) &&& 0xFFF == 0 then
      checkup clock { st with nodes := st.nodes + 1 }
    else { st with nodes := st.nodes + 1 }).board = st.board := by
    split
    · rw [checkup_board]
    · rfl
  simp only [quiescence]
  rw [if_pos (Or.inr (hSb.symm ▸ h))]

end Engine

/-- C10: in Engine::quiescence a repeated position (with searchPly > 0)
or one whose fifty move counter has reached 100 returns 0 from the draw
check at the top of the function (src/src/engine.cpp lines 326-329): the
result is 0, the board is untouched (no capture generation, no
makeMove), and the entire result is independent of the evaluation
function, i.e. the stand-pat evaluation is never computed. -/
theorem spec_C10_quiescence_draw (hk : HashKeys) (ev ev2 : Board → Int)
    (clock : Nat → Int) (fuel : Nat) (alpha beta : Int)
    (st : Engine.SearchState)
    (h : (st.board.searchPly > 0 ∧ st.board.isRepetition) ∨
      st.board.fiftyMoveCount ≥ 100) :
    (Engine.quiescence hk ev clock (fuel + 1) alpha beta st).1 = 0 ∧
      (Engine.quiescence hk ev clock (fuel + 1) alpha beta st).2.board =
        st.board ∧
      Engine.quiescence hk ev clock (fuel + 1) alpha beta st =
        Engine.quiescence hk ev2 clock (fuel + 1) alpha beta st := by
  refine ⟨?_, ?_, ?_⟩
  · rw [Engine.quiescence_draw_eq hk ev clock fuel alpha beta st h]
  · rw [Engine.quiescence_draw_eq hk ev clock fuel alpha beta st h]
    show (if (st.nodes + 1) &&& 0xFFF == 0 then
        Engine.checkup clock { st with nodes := st.nodes + 1 }
      else { st with nodes := st.nodes + 1 }).board = st.board
    split
    · rw [Engine.checkup_board]
    · rfl
  · rw [Engine.quiescence_draw_eq hk ev clock fuel alpha beta st h,
      Engine.quiescence_draw_eq hk ev2 clock fuel alpha beta st h]

/-- concrete instance of the C10 theorem. -/
theorem spec_C10_quiescence_draw_witness :
    (((wState wBoardDraw).board.searchPly > 0 ∧
        (wState wBoardDraw).board.isRepetition) ∨
      (wState wBoardDraw).board.fiftyMoveCount ≥ 100) ∧
      ((Engine.quiescence hk0 (fun _ => 0) (fun _ => 0) 1 0 0
          (wState wBoardDraw)).1 = 0 ∧
        (Engine.quiescence hk0 (fun _ => 0) (fun _ => 0) 1 0 0
          (wState wBoardDraw)).2.board = (wState wBoardDraw).board ∧
        Engine.quiescence hk0 (fun _ => 0) (fun _ => 0) 1 0 0
            (wState wBoardDraw) =
          Engine.quiescence hk0 (fun _ => 1) (fun _ => 0) 1 0 0
            (wState wBoardDraw)) :=
  ⟨by decide, spec_C10_quiescence_draw hk0 (fun _ => 0) (fun _ => 1)
    (fun _ => 0) 0 0 0 (wState wBoardDraw) (by decide)⟩


namespace Engine

/-- Engine::checkup is the identity when no time control is set. -/
theorem checkup_of_timeSet_false (clock : Nat → Int) (s : SearchState)
    (h : s.timeSet = false) : checkup clock s = s := by
  unfold checkup
  rw [if_neg]
  rintro ⟨h1, _⟩
  rw [h] at h1
  exact Bool.false_ne_true h1

/-- when every move of the list is rejected as illegal by makeMove (each
restoring the board), the alphaBeta move loop falls through to the
checkmate / stalemate block with legalMoves = 0. -/
theorem abLoopF_all_illegal (hk : HashKeys)
    (recurse : Int → Int → Int → SearchState → Int × SearchState)
    (beta depth : Int) (st : SearchState) (moves : List Nat)
    (alpha bestMove bestEval oldAlpha : Int)
    (hmoves : ∀ m ∈ moves, (st.board.makeMove hk m).2 = false ∧
      (st.board.makeMove hk m).1 = st.board) :
    abLoopF hk recurse beta depth st moves alpha bestMove bestEval 0
        oldAlpha =
      (if st.board.squaresAttacked
          (st.board.pieceBitboards
            (if st.board.sideToMove == WHITE then WHITE_KING else BLACK_KING))
          (cNot st.board.sideToMove) then
        (-(MATE - st.board.searchPly), st)
      else (0, st)) := by
  induction moves with
  | nil => rfl
  | cons m rest ih =>
    obtain ⟨h1, h2⟩ := hmoves m (List.mem_cons_self m rest)
    simp only [abLoopF]
    rw [h1, if_pos rfl, h2]
    exact ih fun x hx => hmoves x (List.mem_cons_of_mem m hx)

end Engine

/-- C6 (amended): when alphaBeta is called at depth ≥ 1 with the stop
flag unset and no time control, on a position that is not counted drawn
(the draw check of lines 392-395 precedes the checkmate logic), and the
transposition-table probe does not cut off, if every generated move is
rejected as illegal by makeMove then alphaBeta returns
-(MATE - searchPly) if the side to move's king is attacked and 0
otherwise. -/
theorem spec_C6_alphaBeta_mate (hk : HashKeys) (ev : Board → Int)
    (clock : Nat → Int) (fuel : Nat) (alpha beta depth : Int)
    (st : Engine.SearchState) (hstop : st.stop = false)
    (hts : st.timeSet = false) (hdepth : 1 ≤ depth)
    (hside : st.board.sideToMove = 0 ∨ st.board.sideToMove = 1)
    (hdraw : ¬((st.board.searchPly > 0 ∧ st.board.isRepetition) ∨
      st.board.fiftyMoveCount ≥ 100))
    (hprobe : (TranspositionTable.retrieve st.tt st.board.positionKey depth
      alpha beta INVALID (-Engine.INF)).1 = false)
    (hillegal : ∀ m ∈ MoveList.orderMoves st.board
        (MoveList.ofBoard st.board)
        ((TranspositionTable.retrieve st.tt st.board.positionKey depth alpha
          beta INVALID (-Engine.INF)).2.1) st.searchKillers st.searchHistory,
      (st.board.makeMove hk m).2 = false ∧
        Core.pre st.board.core st.board.sideToMove m) :
    (Engine.alphaBeta hk ev clock (fuel + 1) alpha beta depth st).1 =
      if st.board.squaresAttacked
          (st.board.pieceBitboards
            (if st.board.sideToMove == WHITE then WHITE_KING else BLACK_KING))
          (cNot st.board.sideToMove) then
        -(Engine.MATE - st.board.searchPly)
      else 0 := by
  have hS : (if (st.nodes + 1) &&& 0xFFF == 0 then
      Engine.checkup clock { st with nodes := st.nodes + 1 }
    else ({ st with nodes := st.nodes + 1 } : Engine.SearchState)) =
      { st with nodes := st.nodes + 1 } := by
    split
    · exact Engine.checkup_of_timeSet_false clock _ hts
    · rfl
  simp only [Engine.alphaBeta]
  rw [if_neg (show ¬depth ≤ 0 by omega), hS]
  have hnd : ¬(({ st with nodes := st.nodes + 1 } :
      Engine.SearchState).stop = true ∨
      (({ st with nodes := st.nodes + 1 } :
          Engine.SearchState).board.searchPly > 0 ∧
        ({ st with nodes := st.nodes + 1 } :
          Engine.SearchState).board.isRepetition) ∨
      ({ st with nodes := st.nodes + 1 } :
        Engine.SearchState).board.fiftyMoveCount ≥ 100) := by
    show ¬(st.stop = true ∨ (st.board.searchPly > 0 ∧
      st.board.isRepetition) ∨ st.board.fiftyMoveCount ≥ 100)
    rintro (h1 | h2)
    · rw [hstop] at h1
      exact Bool.false_ne_true h1
    · exact hdraw h2
  rw [if_neg hnd]
  have hnp : ¬((TranspositionTable.retrieve ({ st with
      nodes := st.nodes + 1 } : Engine.SearchState).tt
      ({ st with nodes := st.nodes + 1 } :
        Engine.SearchState).board.positionKey depth alpha beta INVALID
      (-Engine.INF)).1 = true) := by
    intro hc
    have hc' : (TranspositionTable.retrieve st.tt st.board.positionKey depth
        alpha beta INVALID (-Engine.INF)).1 = true := hc
    rw [hprobe] at hc'
    exact Bool.false_ne_true hc'
  rw [if_neg hnp]
  have hall : ∀ m ∈ MoveList.orderMoves ({ st with
        nodes := st.nodes + 1 } : Engine.SearchState).board
      (MoveList.ofBoard ({ st with nodes := st.nodes + 1 } :
        Engine.SearchState).board)
      ((TranspositionTable.retrieve ({ st with nodes := st.nodes + 1 } :
          Engine.SearchState).tt
        ({ st with nodes := st.nodes + 1 } :
          Engine.SearchState).board.positionKey depth alpha beta INVALID
        (-Engine.INF)).2.1)
      ({ st with nodes := st.nodes + 1 } :
        Engine.SearchState).searchKillers
      ({ st with nodes := st.nodes + 1 } :
        Engine.SearchState).searchHistory,
      ((({ st with nodes := st.nodes + 1 } :
          Engine.SearchState).board.makeMove hk m).2 = false ∧
        ((({ st with nodes := st.nodes + 1 } :
          Engine.SearchState).board.makeMove hk m)).1 =
          ({ st with nodes := st.nodes + 1 } :
            Engine.SearchState).board) := by
    intro m hm
    exact ⟨(hillegal m hm).1,
      Board.makeMove_illegal_restores hk st.board m hside
        (hillegal m hm).2 (hillegal m hm).1⟩
  rw [Engine.abLoopF_all_illegal hk (Engine.alphaBeta hk ev clock fuel) beta
    depth _ _ alpha _ (-Engine.INF) alpha hall, apply_ite Prod.fst]

/-- concrete instance of the C6 theorem: the mate position with a fresh
fifty move counter. -/
theorem spec_C6_alphaBeta_mate_witness :
    (wState (wBoardMate 0)).stop = false ∧
      (wState (wBoardMate 0)).timeSet = false ∧ (1 : Int) ≤ 1 ∧
      ((wState (wBoardMate 0)).board.sideToMove = 0 ∨
        (wState (wBoardMate 0)).board.sideToMove = 1) ∧
      ¬(((wState (wBoardMate 0)).board.searchPly > 0 ∧
          (wState (wBoardMate 0)).board.isRepetition) ∨
        (wState (wBoardMate 0)).board.fiftyMoveCount ≥ 100) ∧
      (TranspositionTable.retrieve (wState (wBoardMate 0)).tt
        (wState (wBoardMate 0)).board.positionKey 1 (-Engine.INF) Engine.INF
        INVALID (-Engine.INF)).1 = false ∧
      (∀ m ∈ MoveList.orderMoves (wState (wBoardMate 0)).board
          (MoveList.ofBoard (wState (wBoardMate 0)).board)
          ((TranspositionTable.retrieve (wState (wBoardMate 0)).tt
            (wState (wBoardMate 0)).board.positionKey 1 (-Engine.INF)
            Engine.INF INVALID (-Engine.INF)).2.1)
          (wState (wBoardMate 0)).searchKillers
          (wState (wBoardMate 0)).searchHistory,
        ((wState (wBoardMate 0)).board.makeMove hk0 m).2 = false ∧
          Core.pre (wState (wBoardMate 0)).board.core
            (wState (wBoardMate 0)).board.sideToMove m) ∧
      (Engine.alphaBeta hk0 (fun _ => 0) (fun _ => 0) (0 + 1) (-Engine.INF)
          Engine.INF 1 (wState (wBoardMate 0))).1 =
        (if (wState (wBoardMate 0)).board.squaresAttacked
            ((wState (wBoardMate 0)).board.pieceBitboards
              (if (wState (wBoardMate 0)).board.sideToMove == WHITE then
                WHITE_KING else BLACK_KING))
            (cNot (wState (wBoardMate 0)).board.sideToMove) then
          -(Engine.MATE - (wState (wBoardMate 0)).board.searchPly)
        else 0) :=
  ⟨by decide, by decide, by decide, by decide, by decide, by decide,
    by decide,
    spec_C6_alphaBeta_mate hk0 (fun _ => 0) (fun _ => 0) 0 (-Engine.INF)
      Engine.INF 1 (wState (wBoardMate 0)) (by decide) (by decide)
      (by decide) (by decide) (by decide) (by decide) (by decide)⟩

/-- C6 counterexample: the same checkmate position with the fifty move
counter at 100: every hypothesis of the claim holds (stop unset, no
transposition cutoff, every generated move illegal, king attacked), but
alphaBeta returns 0 from the draw check of src/src/engine.cpp lines
392-395 instead of the claimed -(MATE - searchPly) = -30000. -/
theorem spec_C6_counterexample :
    (Engine.alphaBeta hk0 (fun _ => 0) (fun _ => 0) 2 (-Engine.INF)
        Engine.INF 1 (wState (wBoardMate 100))).1 = 0 ∧
      (wBoardMate 100).squaresAttacked
        ((wBoardMate 100).pieceBitboards WHITE_KING)
        (cNot (wBoardMate 100).sideToMove) = true ∧
      (MoveList.ofBoard (wBoardMate 100)).all
        (fun m => !((wBoardMate 100).makeMove hk0 m).2) = true ∧
      (0 : Int) ≠ -(Engine.MATE - (wBoardMate 100).searchPly) :=
  ⟨by decide, by decide, by decide, by decide⟩


/-- C1 (amended): on a board whose side to move is WHITE or BLACK, for a
structurally well-formed move (`Core.pre`, satisfied by every move the
generator emits on a consistent board) that makeMove accepts as legal,
the call sequence makeMove(m); undoMove() restores every Board field,
the history, and the Zobrist key exactly.  For rejected (illegal) moves
the restoration is performed inside makeMove itself, and the claimed
external undoMove pops one history entry too many (see the
counterexample). -/
theorem spec_C1_makeMove_undoMove (hk : HashKeys) (b : Board) (m : Nat)
    (hside : b.sideToMove = 0 ∨ b.sideToMove = 1)
    (hpre : Core.pre b.core b.sideToMove m)
    (hlegal : (Board.makeMove hk b m).2 = true) :
    Board.undoMove hk (Board.makeMove hk b m).1 = b :=
  Board.makeMove_legal_undo hk b m hside hpre hlegal

/-- concrete instance of the C1 theorem: the legal pawn move e5-e4. -/
theorem spec_C1_makeMove_undoMove_witness :
    ((wBoardC1.sideToMove = 0 ∨ wBoardC1.sideToMove = 1) ∧
      Core.pre wBoardC1.core wBoardC1.sideToMove wMoveC1 ∧
      (Board.makeMove hk0 wBoardC1 wMoveC1).2 = true) ∧
      Board.undoMove hk0 (Board.makeMove hk0 wBoardC1 wMoveC1).1 =
        wBoardC1 :=
  ⟨⟨by decide, by decide, by decide⟩,
    spec_C1_makeMove_undoMove hk0 wBoardC1 wMoveC1 (by decide) (by decide)
      (by decide)⟩

/-- C1 counterexample: on `wBoardC1b` (reached by one legal move) the
king move d2-d3 is rejected as illegal by makeMove — which restores the
board internally (src/src/board.cpp lines 283-287) and returns false.
The claim nevertheless asks for an external undoMove after makeMove
returns; that second undo pops the previous move's history record and
yields a board with ply 0 instead of the prior ply 1, so the state after
makeMove(m); undoMove() is not the state before makeMove. -/
theorem spec_C1_counterexample :
    (Board.makeMove hk0 wBoardC1b wMoveC2).2 = false ∧
      Core.pre wBoardC1b.core wBoardC1b.sideToMove wMoveC2 ∧
      (Board.undoMove hk0 (Board.makeMove hk0 wBoardC1b wMoveC2).1).ply =
        0 ∧
      wBoardC1b.ply = 1 :=
  ⟨by decide, by decide, by decide, by decide⟩


/-- shifting out the low 25 bits of a score packed above them. -/
theorem or_shiftLeft_shiftRight (a s : Nat) (ha : a < 2 ^ 25) :
    (a ||| (s <<< 25)) >>> 25 = s := by
  apply Nat.eq_of_testBit_eq
  intro i
  rw [Nat.testBit_shiftRight, Nat.testBit_or, Nat.testBit_shiftLeft]
  rw [Nat.testBit_lt_two_pow
    (lt_of_lt_of_le ha (Nat.pow_le_pow_right (by norm_num) (by omega)))]
  simp [show 25 ≤ 25 + i by omega, Nat.add_sub_cancel_left]

/-- `move |= 0x7E000000` drives the score bits of a 31-bit move to the
maximum 63. -/
theorem or_maxscore_shiftRight (m : Nat) (hm : m < 1 <<< 31) :
    (m ||| 0x7E000000) >>> 25 = 63 := by
  rw [Nat.one_shiftLeft] at hm
  apply Nat.eq_of_testBit_eq
  intro i
  rw [Nat.testBit_shiftRight, Nat.testBit_or]
  match i with
  | 0 => rw [show Nat.testBit 0x7E000000 25 = true by decide,
      show Nat.testBit 63 0 = true by decide]; simp
  | 1 => rw [show Nat.testBit 0x7E000000 26 = true by decide,
      show Nat.testBit 63 1 = true by decide]; simp
  | 2 => rw [show Nat.testBit 0x7E000000 27 = true by decide,
      show Nat.testBit 63 2 = true by decide]; simp
  | 3 => rw [show Nat.testBit 0x7E000000 28 = true by decide,
      show Nat.testBit 63 3 = true by decide]; simp
  | 4 => rw [show Nat.testBit 0x7E000000 29 = true by decide,
      show Nat.testBit 63 4 = true by decide]; simp
  | 5 => rw [show Nat.testBit 0x7E000000 30 = true by decide,
      show Nat.testBit 63 5 = true by decide]; simp
  | i + 6 =>
    have e1 : Nat.testBit m (25 + (i + 6)) = false :=
      Nat.testBit_lt_two_pow (lt_of_lt_of_le hm
        (Nat.pow_le_pow_right (by norm_num) (by omega)))
    have e2 : Nat.testBit 0x7E000000 (25 + (i + 6)) = false :=
      Nat.testBit_lt_two_pow (lt_of_lt_of_le
        (show (0x7E000000 : Nat) < 2 ^ 31 by norm_num)
        (Nat.pow_le_pow_right (by norm_num) (by omega)))
    have e3 : Nat.testBit 63 (i + 6) = false :=
      Nat.testBit_lt_two_pow (lt_of_lt_of_le
        (show (63 : Nat) < 2 ^ 6 by norm_num)
        (Nat.pow_le_pow_right (by norm_num) (by omega)))
    rw [e1, e2, e3]
    rfl

namespace MoveList

theorem insertByScore_perm (m : Nat) (l : List Nat) :
    (insertByScore m l).Perm (m :: l) := by
  induction l with
  | nil => exact List.Perm.refl _
  | cons x xs ih =>
    rw [insertByScore]
    split
    · exact List.Perm.refl _
    · exact (ih.cons x).trans (List.Perm.swap m x xs)

theorem sortByScore_perm (l : List Nat) : (sortByScore l).Perm l := by
  induction l with
  | nil => exact List.Perm.refl _
  | cons x xs ih =>
    rw [sortByScore]
    exact (insertByScore_perm x _).trans (ih.cons x)

theorem insertByScore_sorted (m : Nat) (l : List Nat)
    (hl : l.Pairwise (fun a c => c >>> 25 ≤ a >>> 25)) :
    (insertByScore m l).Pairwise (fun a c => c >>> 25 ≤ a >>> 25) := by
  induction l with
  | nil => simp [insertByScore]
  | cons x xs ih =>
    rw [List.pairwise_cons] at hl
    rw [insertByScore]
    split
    · rename_i hx
      refine List.Pairwise.cons ?_ (List.pairwise_cons.mpr hl)
      intro c hc
      rcases List.mem_cons.mp hc with rfl | hcxs
      · exact Nat.le_of_lt hx
      · exact le_trans (hl.1 c hcxs) (Nat.le_of_lt hx)
    · rename_i hx
      refine List.Pairwise.cons ?_ (ih hl.2)
      intro c hc
      rcases List.mem_cons.mp ((insertByScore_perm m xs).mem_iff.mp hc)
        with rfl | hcxs
      · exact Nat.le_of_not_lt hx
      · exact hl.1 c hcxs

theorem sortByScore_sorted (l : List Nat) :
    (sortByScore l).Pairwise (fun a c => c >>> 25 ≤ a >>> 25) := by
  induction l with
  | nil => simp [sortByScore]
  | cons x xs ih =>
    rw [sortByScore]
    exact insertByScore_sorted x _ ih

end MoveList

/-- C8 (amended): MoveList::orderMoves is tier-monotone only while the
accumulated history counters stay at most 22 (so that 9 + counter < 32):
the principal move is rescored to the unique maximum 63, killer moves to
33 and 32, history-scored quiet moves stay at most 31, captures keep
their generation scores (34-62) untouched, and the result is sorted in
descending score order as a permutation of the rescored input.  With
larger counters (the claim allows them to be arbitrarily large) a quiet
move outranks the killers and captures, see the counterexample. -/
theorem spec_C8_orderMoves_tiers (b : Board) (bestMove : Int)
    (kil his : Int → Nat → Int) (moves : List Nat) (m : Nat)
    (hh : ∀ p t, his p t ≤ 22) (hm : m < 1 <<< 31) :
    (MoveList.sameMove m bestMove = true →
      MoveList.rescore b bestMove kil his m >>> 25 = 63) ∧
    (MoveList.sameMove m bestMove = false →
      MoveList.sameMove m (kil b.searchPly 0) = true →
      MoveList.rescore b bestMove kil his m >>> 25 = MoveList.killerScore1) ∧
    (MoveList.sameMove m bestMove = false →
      MoveList.sameMove m (kil b.searchPly 0) = false →
      MoveList.sameMove m (kil b.searchPly 1) = true →
      MoveList.rescore b bestMove kil his m >>> 25 = MoveList.killerScore2) ∧
    (MoveList.sameMove m bestMove = false →
      MoveList.sameMove m (kil b.searchPly 0) = false →
      MoveList.sameMove m (kil b.searchPly 1) = false →
      m &&& (CAPTURE_FLAG ||| EN_PASSANT_FLAG) = 0 →
      m >>> 25 ≤ 31 →
      MoveList.rescore b bestMove kil his m >>> 25 ≤ 31) ∧
    (MoveList.sameMove m bestMove = false →
      MoveList.sameMove m (kil b.searchPly 0) = false →
      MoveList.sameMove m (kil b.searchPly 1) = false →
      m &&& (CAPTURE_FLAG ||| EN_PASSANT_FLAG) ≠ 0 →
      MoveList.rescore b bestMove kil his m = m) ∧
    (MoveList.orderMoves b moves bestMove kil his).Pairwise
      (fun a c => c >>> 25 ≤ a >>> 25) ∧
    (MoveList.orderMoves b moves bestMove kil his).Perm
      (moves.map (MoveList.rescore b bestMove kil his)) := by
  have hand : m &&& 0x1FFFFFF < 2 ^ 25 :=
    Nat.lt_of_le_of_lt Nat.and_le_right (by norm_num)
  refine ⟨fun h1 => ?_, fun h1 h2 => ?_, fun h1 h2 h3 => ?_,
    fun h1 h2 h3 hcap hq => ?_, fun h1 h2 h3 hcap => ?_, ?_, ?_⟩
  · simp only [MoveList.rescore, h1, if_true]
    exact or_maxscore_shiftRight m hm
  · simp only [MoveList.rescore, h1, h2, Bool.false_eq_true, if_false,
      if_true]
    exact or_shiftLeft_shiftRight _ _ hand
  · simp only [MoveList.rescore, h1, h2, h3, Bool.false_eq_true, if_false,
      if_true]
    exact or_shiftLeft_shiftRight _ _ hand
  · by_cases hp : his (b.pieces (m &&& 0x3F)) ((m >>> 6) &&& 0x3F) > 0
    · simp only [MoveList.rescore, h1, h2, h3, Bool.false_eq_true, if_false,
        hcap, beq_self_eq_true, if_true, hp]
      rw [or_shiftLeft_shiftRight _ _ hand]
      have := hh (b.pieces (m &&& 0x3F)) ((m >>> 6) &&& 0x3F)
      simp only [MoveList.historyScore]
      omega
    · simp only [MoveList.rescore, h1, h2, h3, Bool.false_eq_true, if_false,
        hcap, beq_self_eq_true, if_true, hp]
      exact hq
  · simp only [MoveList.rescore, h1, h2, h3, Bool.false_eq_true, if_false]
    rw [if_neg]
    simp [hcap]
  · exact MoveList.sortByScore_sorted _
  · exact MoveList.sortByScore_perm _

/-- concrete instance of the C8 theorem: empty history table, principal
move wMoveKiller. -/
theorem spec_C8_orderMoves_tiers_witness :
    (∀ (p : Int) (t : Nat), (fun (_ : Int) (_ : Nat) => (0 : Int)) p t ≤ 22) ∧
      wMoveQuiet < 1 <<< 31 ∧
      ((MoveList.sameMove wMoveQuiet (wMoveKiller : Int) = true →
        MoveList.rescore (wBoardMate 0) (wMoveKiller : Int) wKillers
          (fun _ _ => 0) wMoveQuiet >>> 25 = 63) ∧
      (MoveList.sameMove wMoveQuiet (wMoveKiller : Int) = false →
        MoveList.sameMove wMoveQuiet (wKillers (wBoardMate 0).searchPly 0) =
          true →
        MoveList.rescore (wBoardMate 0) (wMoveKiller : Int) wKillers
          (fun _ _ => 0) wMoveQuiet >>> 25 = MoveList.killerScore1) ∧
      (MoveList.sameMove wMoveQuiet (wMoveKiller : Int) = false →
        MoveList.sameMove wMoveQuiet (wKillers (wBoardMate 0).searchPly 0) =
          false →
        MoveList.sameMove wMoveQuiet (wKillers (wBoardMate 0).searchPly 1) =
          true →
        MoveList.rescore (wBoardMate 0) (wMoveKiller : Int) wKillers
          (fun _ _ => 0) wMoveQuiet >>> 25 = MoveList.killerScore2) ∧
      (MoveList.sameMove wMoveQuiet (wMoveKiller : Int) = false →
        MoveList.sameMove wMoveQuiet (wKillers (wBoardMate 0).searchPly 0) =
          false →
        MoveList.sameMove wMoveQuiet (wKillers (wBoardMate 0).searchPly 1) =
          false →
        wMoveQuiet &&& (CAPTURE_FLAG ||| EN_PASSANT_FLAG) = 0 →
        wMoveQuiet >>> 25 ≤ 31 →
        MoveList.rescore (wBoardMate 0) (wMoveKiller : Int) wKillers
          (fun _ _ => 0) wMoveQuiet >>> 25 ≤ 31) ∧
      (MoveList.sameMove wMoveQuiet (wMoveKiller : Int) = false →
        MoveList.sameMove wMoveQuiet (wKillers (wBoardMate 0).searchPly 0) =
          false →
        MoveList.sameMove wMoveQuiet (wKillers (wBoardMate 0).searchPly 1) =
          false →
        wMoveQuiet &&& (CAPTURE_FLAG ||| EN_PASSANT_FLAG) ≠ 0 →
        MoveList.rescore (wBoardMate 0) (wMoveKiller : Int) wKillers
          (fun _ _ => 0) wMoveQuiet = wMoveQuiet) ∧
      (MoveList.orderMoves (wBoardMate 0) [wMoveKiller, wMoveQuiet]
        (wMoveKiller : Int) wKillers (fun _ _ => 0)).Pairwise
        (fun a c => c >>> 25 ≤ a >>> 25) ∧
      (MoveList.orderMoves (wBoardMate 0) [wMoveKiller, wMoveQuiet]
        (wMoveKiller : Int) wKillers (fun _ _ => 0)).Perm
        ([wMoveKiller, wMoveQuiet].map (MoveList.rescore (wBoardMate 0)
          (wMoveKiller : Int) wKillers (fun _ _ => 0)))) :=
  ⟨fun _ _ => by norm_num, by decide,
    spec_C8_orderMoves_tiers (wBoardMate 0) (wMoveKiller : Int) wKillers
      (fun _ _ => 0) [wMoveKiller, wMoveQuiet] wMoveQuiet
      (fun _ _ => by norm_num) (by decide)⟩

/-- C8 counterexample: a quiet move whose history counter has grown to 30
is rescored to 9 + 30 = 39 and sorts ahead of the first killer move
(score 33): the history tier is not below the killer tier once counters
exceed 22, because src/src/movelist.cpp line 721 packs the unclamped sum
into the score bits. -/
theorem spec_C8_counterexample :
    MoveList.orderMoves (wBoardMate 0) [wMoveKiller, wMoveQuiet] INVALID
        wKillers wHistory =
      [MoveList.addMove wMoveQuiet 39, MoveList.addMove wMoveKiller 33] ∧
      wMoveQuiet &&& (CAPTURE_FLAG ||| EN_PASSANT_FLAG) = 0 ∧
      MoveList.sameMove wMoveKiller
        (wKillers (wBoardMate 0).searchPly 0) = true ∧
      MoveList.killerScore1 < MoveList.addMove wMoveQuiet 39 >>> 25 :=
  ⟨by decide, by decide, by decide, by decide⟩


/-! Bit-level lemmas: getLSB and the bitboard iteration MoveList.bits. -/

theorem and_mask_eq_mod (x n : Nat) : x &&& (2 ^ n - 1) = x % 2 ^ n := by
  apply Nat.eq_of_testBit_eq
  intro i
  rw [Nat.testBit_and, Nat.testBit_mod_two_pow, Nat.testBit_two_pow_sub_one]
  exact Bool.and_comm _ _

theorem and32_eq (x : Nat) : x &&& 0xFFFFFFFF = x % 4294967296 := by
  rw [show (0xFFFFFFFF : Nat) = 2 ^ 32 - 1 by norm_num, and_mask_eq_mod]; try norm_num
theorem and16_eq (x : Nat) : x &&& 0xFFFF = x % 65536 := by
  rw [show (0xFFFF : Nat) = 2 ^ 16 - 1 by norm_num, and_mask_eq_mod]; try norm_num
theorem and8_eq (x : Nat) : x &&& 0xFF = x % 256 := by
  rw [show (0xFF : Nat) = 2 ^ 8 - 1 by norm_num, and_mask_eq_mod]; try norm_num
theorem and4_eq (x : Nat) : x &&& 0xF = x % 16 := by
  rw [show (0xF : Nat) = 2 ^ 4 - 1 by norm_num, and_mask_eq_mod]; try norm_num
theorem and2_eq (x : Nat) : x &&& 0x3 = x % 4 := by
  rw [show (0x3 : Nat) = 2 ^ 2 - 1 by norm_num, and_mask_eq_mod]; try norm_num
theorem and1_eq (x : Nat) : x &&& 0x1 = x % 2 := by
  rw [show (0x1 : Nat) = 2 ^ 1 - 1 by norm_num, and_mask_eq_mod]; try norm_num
theorem shr32_eq (x : Nat) : x >>> 32 = x / 4294967296 := by
  rw [Nat.shiftRight_eq_div_pow]; try norm_num
theorem shr16_eq (x : Nat) : x >>> 16 = x / 65536 := by
  rw [Nat.shiftRight_eq_div_pow]; try norm_num
theorem shr8_eq (x : Nat) : x >>> 8 = x / 256 := by
  rw [Nat.shiftRight_eq_div_pow]; try norm_num
theorem shr4_eq (x : Nat) : x >>> 4 = x / 16 := by
  rw [Nat.shiftRight_eq_div_pow]; try norm_num
theorem shr2_eq (x : Nat) : x >>> 2 = x / 4 := by
  rw [Nat.shiftRight_eq_div_pow]; try norm_num

theorem getLSB_le (b : Nat) : getLSB b ≤ 63 := by
  simp only [getLSB]
  repeat' split
  all_goals omega

set_option maxHeartbeats 1000000 in
theorem getLSB_div_mod (b : Nat) (h0 : b ≠ 0) (hlt : b < 2 ^ 64) :
    b % 2 ^ getLSB b = 0 ∧ b / 2 ^ getLSB b % 2 = 1 := by
  rw [show (2:Nat) ^ 64 = 18446744073709551616 by norm_num] at hlt
  simp only [getLSB, and32_eq, and16_eq, and8_eq, and4_eq, and2_eq, and1_eq,
    shr32_eq, shr16_eq, shr8_eq, shr4_eq, shr2_eq, beq_iff_eq]
  repeat' split
  all_goals norm_num at *
  all_goals omega

theorem getLSB_testBit (b : Nat) (h0 : b ≠ 0) (hlt : b < 2 ^ 64) :
    b.testBit (getLSB b) = true := by
  rw [Nat.testBit_to_div_mod]
  simp [(getLSB_div_mod b h0 hlt).2]

theorem getLSB_testBit_lt (b : Nat) (h0 : b ≠ 0) (hlt : b < 2 ^ 64) :
    ∀ i, i < getLSB b → b.testBit i = false := by
  intro i hi
  have h := (getLSB_div_mod b h0 hlt).1
  have h2 : (b % 2 ^ getLSB b).testBit i = false := by
    rw [h]; exact Nat.zero_testBit i
  rw [Nat.testBit_mod_two_pow] at h2
  simpa [hi] using h2

theorem testBit_and_sub_one (b : Nat) (h0 : b ≠ 0) (hlt : b < 2 ^ 64)
    (i : Nat) :
    (b &&& (b - 1)).testBit i = (b.testBit i && !(i == getLSB b)) := by
  obtain ⟨hmod, hodd⟩ := getLSB_div_mod b h0 hlt
  set l := getLSB b with hldef
  rw [Nat.testBit_and]
  rcases lt_trichotomy i l with hil | hieq | hil
  · rw [getLSB_testBit_lt b h0 hlt i hil]
    simp
  · subst hieq
    have ht : 0 < 2 ^ l := Nat.two_pow_pos l
    have hqb : 2 ^ l * (b / 2 ^ l) = b := by
      have := Nat.div_add_mod b (2 ^ l)
      omega
    set q := b / 2 ^ l with hq
    have hq1 : 1 ≤ q :=
      Nat.pos_of_ne_zero fun hq0 =>
        h0 (by rw [hq0, Nat.mul_zero] at hqb; exact hqb.symm)
    have e : b - 1 = 2 ^ l * (q - 1) + (2 ^ l - 1) := by
      have h1 : 2 ^ l * q = 2 ^ l * (q - 1) + 2 ^ l := by
        conv_lhs => rw [show q = (q - 1) + 1 by omega]
        ring
      omega
    have hdiv : (b - 1) / 2 ^ l = q - 1 := by
      rw [e, Nat.mul_add_div ht, Nat.div_eq_of_lt (by omega)]
      rfl
    have hbit : (b - 1).testBit l = false := by
      rw [Nat.testBit_to_div_mod, hdiv]
      simp only [decide_eq_false_iff_not]
      omega
    rw [hbit]
    simp
  · have hne : (i == l) = false := by
      simp
      omega
    rw [hne]
    have hpos : 0 < 2 ^ i := Nat.two_pow_pos i
    have hmodne : b % 2 ^ i ≠ 0 := by
      intro hc
      have hib : 2 ^ i * (b / 2 ^ i) = b := by
        have := Nat.div_add_mod b (2 ^ i)
        omega
      have h2 : (2 : Nat) ^ i * (b / 2 ^ i) =
          2 ^ l * (2 ^ (i - l) * (b / 2 ^ i)) := by
        rw [← Nat.mul_assoc, ← pow_add, show l + (i - l) = i by omega]
      have hq2 : b / 2 ^ l = 2 ^ (i - l) * (b / 2 ^ i) := by
        conv_lhs => rw [← hib, h2]
        rw [Nat.mul_div_cancel_left _ (Nat.two_pow_pos l)]
      have hev : (2 : Nat) ^ (i - l) = 2 * 2 ^ (i - l - 1) := by
        set m := i - l - 1 with hm
        rw [show i - l = m + 1 by omega, pow_succ']
      rw [hq2, hev, Nat.mul_assoc] at hodd
      omega
    have hk : 2 ^ i * (b / 2 ^ i) + b % 2 ^ i = b := by
      have := Nat.div_add_mod b (2 ^ i)
      omega
    have hbm : b - 1 = 2 ^ i * (b / 2 ^ i) + (b % 2 ^ i - 1) := by omega
    have hrlt : b % 2 ^ i - 1 < 2 ^ i := by
      have := Nat.mod_lt b hpos
      omega
    have hdiv : (b - 1) / 2 ^ i = b / 2 ^ i := by
      rw [hbm, Nat.mul_add_div hpos, Nat.div_eq_of_lt hrlt]
      rfl
    rw [Nat.testBit_to_div_mod, Nat.testBit_to_div_mod, hdiv]
    simp

theorem bits_eq_aux :
    ∀ (fuel bb j : Nat), bb < 2 ^ 64 →
      (∀ i, i < j → bb.testBit i = false) → 64 - j ≤ fuel →
      MoveList.bits fuel bb = (List.range' j (64 - j)).filter (fun s => bb.testBit s) := by
  intro fuel
  induction fuel with
  | zero =>
    intro bb j hlt hlow hfuel
    have hbb : bb = 0 := by
      apply Nat.eq_of_testBit_eq
      intro i
      rw [Nat.zero_testBit]
      rcases lt_or_ge i 64 with h | h
      · exact hlow i (by omega)
      · exact Nat.testBit_lt_two_pow
          (lt_of_lt_of_le hlt (Nat.pow_le_pow_right (by norm_num) h))
    subst hbb
    rw [show 64 - j = 0 by omega]
    rfl
  | succ fuel ih =>
    intro bb j hlt hlow hfuel
    by_cases h0 : bb = 0
    · subst h0
      rw [MoveList.bits]
      simp only [beq_self_eq_true, if_true]
      symm
      rw [List.filter_eq_nil_iff]
      intro s _
      simp [Nat.zero_testBit]
    · have hl63 : getLSB bb ≤ 63 := getLSB_le bb
      have hbit := getLSB_testBit bb h0 hlt
      have hbelow := getLSB_testBit_lt bb h0 hlt
      have hjl : j ≤ getLSB bb := by
        by_contra hc
        push_neg at hc
        have h2 := hlow (getLSB bb) hc
        rw [hbit] at h2
        cases h2
      -- unfold one step of bits
      rw [MoveList.bits]
      rw [if_neg (by simpa using h0)]
      -- split the range at the lsb
      have hsplit : List.range' j (64 - j) =
          List.range' j (getLSB bb - j) ++ List.range' (getLSB bb)
            (64 - getLSB bb) := by
        rw [show (64 : Nat) - j = (64 - getLSB bb) + (getLSB bb - j) by omega]
        rw [← List.range'_append j (getLSB bb - j) (64 - getLSB bb) 1]
        congr 1
        congr 1
        omega
      rw [hsplit, List.filter_append]
      have hfirst : (List.range' j (getLSB bb - j)).filter
          (fun s => bb.testBit s) = [] := by
        rw [List.filter_eq_nil_iff]
        intro s hs
        rw [List.mem_range'] at hs
        obtain ⟨k, hk, rfl⟩ := hs
        have hb2 := hbelow (j + 1 * k) (by omega)
        simpa using hb2
      rw [hfirst]
      have hsecond : List.range' (getLSB bb) (64 - getLSB bb) =
          getLSB bb :: List.range' (getLSB bb + 1) (64 - (getLSB bb + 1)) := by
        rw [show (64 : Nat) - getLSB bb = (64 - (getLSB bb + 1)) + 1 by omega]
        rw [List.range'_succ]
      rw [hsecond]
      rw [List.filter_cons]
      rw [hbit]
      simp only [if_true, List.nil_append]
      congr 1
      · rw [ih (bb &&& (bb - 1)) (getLSB bb + 1)
          (lt_of_le_of_lt Nat.and_le_left hlt)
          (by
            intro i hi
            rw [testBit_and_sub_one bb h0 hlt i]
            rcases lt_or_eq_of_le (Nat.lt_succ_iff.mp hi) with h | h
            · rw [hbelow i h]
              rfl
            · subst h
              simp)
          (by omega)]
        apply List.filter_congr
        intro s hs
        rw [List.mem_range'] at hs
        obtain ⟨k, hk, rfl⟩ := hs
        rw [testBit_and_sub_one bb h0 hlt]
        have : ((getLSB bb + 1 + 1 * k == getLSB bb) : Bool) = false := by
          simp
          omega
        rw [this]
        simp

theorem bits_eq (bb : Nat) (hlt : bb < 2 ^ 64) :
    MoveList.bits 64 bb = (List.range' 0 64).filter (fun s => bb.testBit s) :=
  bits_eq_aux 64 bb 0 hlt (fun i hi => absurd hi (Nat.not_lt_zero i)) (by omega)

theorem mem_bits {s bb : Nat} (hlt : bb < 2 ^ 64) :
    s ∈ MoveList.bits 64 bb ↔ s < 64 ∧ bb.testBit s = true := by
  rw [bits_eq bb hlt, List.mem_filter, List.mem_range']
  constructor
  · rintro ⟨⟨k, hk, rfl⟩, h2⟩
    exact ⟨by omega, h2⟩
  · rintro ⟨h1, h2⟩
    exact ⟨⟨s, by omega, by omega⟩, h2⟩

theorem bits_and_filter (x y : Nat) (hx : x < 2 ^ 64) :
    MoveList.bits 64 (x &&& y) = (MoveList.bits 64 x).filter (fun s => y.testBit s) := by
  rw [bits_eq _ (lt_of_le_of_lt Nat.and_le_left hx), bits_eq _ hx,
    List.filter_filter]
  apply List.filter_congr
  intro s _
  rw [Nat.testBit_and]
  exact Bool.and_comm _ _


/-! Flag algebra: the capture and en passant bits (mask 0x900000) of a
packed move are exactly those of its `flags` argument. -/

theorem testBit_small_false {x n i : Nat} (hx : x < 2 ^ n) (hni : n ≤ i) :
    x.testBit i = false :=
  Nat.testBit_lt_two_pow
    (lt_of_lt_of_le hx (Nat.pow_le_pow_right (by norm_num) hni))

theorem testBit_0x900000 (i : Nat) :
    Nat.testBit 0x900000 i = (decide (i = 20) || decide (i = 23)) := by
  rw [show (0x900000 : Nat) = 2 ^ 20 ||| 2 ^ 23 by decide]
  rw [Nat.testBit_or, Nat.testBit_two_pow, Nat.testBit_two_pow]
  by_cases h1 : i = 20 <;> by_cases h2 : i = 23 <;> simp [h1, h2] <;> omega

theorem and_0x900000_congr {x y : Nat} (h20 : x.testBit 20 = y.testBit 20)
    (h23 : x.testBit 23 = y.testBit 23) :
    x &&& 0x900000 = y &&& 0x900000 := by
  apply Nat.eq_of_testBit_eq
  intro i
  rw [Nat.testBit_and, Nat.testBit_and, testBit_0x900000]
  by_cases h1 : i = 20
  · subst h1
    simp [h20]
  · by_cases h2 : i = 23
    · subst h2
      simp [h23]
    · simp [h1, h2]

theorem int_nibble_lt (x : Int) : (x % 16).toNat < 16 := by omega

theorem addMove_testBit_lo (m s i : Nat) (hi : i < 25) :
    (MoveList.addMove m s).testBit i = m.testBit i := by
  unfold MoveList.addMove
  rw [Nat.testBit_or, Nat.testBit_shiftLeft]
  rw [show (decide (i ≥ 25)) = false by simp; omega]
  simp

theorem getMove_testBit_hi (f t : Nat) (cap prom : Int) (flags : Nat)
    (hf : f < 64) (ht : t < 64) (i : Nat) (hi : 20 ≤ i) :
    (MoveList.getMove f t cap prom flags).testBit i = flags.testBit i := by
  unfold MoveList.getMove
  rw [Nat.testBit_or, Nat.testBit_or, Nat.testBit_or, Nat.testBit_or,
    Nat.testBit_shiftLeft, Nat.testBit_shiftLeft, Nat.testBit_shiftLeft]
  rw [testBit_small_false (lt_of_lt_of_le hf (by norm_num : (64:Nat) ≤ 2 ^ 6))
    (show 6 ≤ i by omega)]
  rw [testBit_small_false (x := t)
    (lt_of_lt_of_le ht (by norm_num : (64:Nat) ≤ 2 ^ 6))
    (show 6 ≤ i - 6 by omega)]
  rw [testBit_small_false (x := (cap % 16).toNat)
    (lt_of_lt_of_le (int_nibble_lt cap) (by norm_num : (16:Nat) ≤ 2 ^ 4))
    (show 4 ≤ i - 12 by omega)]
  rw [testBit_small_false (x := (prom % 16).toNat)
    (lt_of_lt_of_le (int_nibble_lt prom) (by norm_num : (16:Nat) ≤ 2 ^ 4))
    (show 4 ≤ i - 16 by omega)]
  simp

theorem getMove_cap (f t : Nat) (cap prom : Int) (flags : Nat)
    (hf : f < 64) (ht : t < 64) :
    MoveList.getMove f t cap prom flags &&& 0x900000 = flags &&& 0x900000 :=
  and_0x900000_congr
    (getMove_testBit_hi f t cap prom flags hf ht 20 (by omega))
    (getMove_testBit_hi f t cap prom flags hf ht 23 (by omega))

theorem getMove_addMove_cap (f t : Nat) (cap prom : Int) (flags s : Nat)
    (hf : f < 64) (ht : t < 64) :
    MoveList.addMove (MoveList.getMove f t cap prom flags) s &&& 0x900000 =
      flags &&& 0x900000 := by
  rw [and_0x900000_congr (addMove_testBit_lo _ s 20 (by omega))
    (addMove_testBit_lo _ s 23 (by omega))]
  exact getMove_cap f t cap prom flags hf ht

theorem promMove_testBit (mv p : Nat) (hp : p < 16) (i : Nat) (hi : 20 ≤ i)
    (hi25 : i < 25) (hne : i ≠ 21) :
    (((mv &&& 0xFFF0FFFF) ||| PROMOTION_FLAG) ||| (p <<< 16)).testBit i =
      mv.testBit i := by
  rw [Nat.testBit_or, Nat.testBit_or, Nat.testBit_and, Nat.testBit_shiftLeft]
  rw [show Nat.testBit 0xFFF0FFFF i = true by interval_cases i <;> simp_all <;> decide]
  rw [show Nat.testBit PROMOTION_FLAG i = false by
    rw [show (PROMOTION_FLAG : Nat) = 2 ^ 21 by decide, Nat.testBit_two_pow]
    simp
    omega]
  rw [testBit_small_false (x := p)
    (lt_of_lt_of_le hp (by norm_num : (16:Nat) ≤ 2 ^ 4))
    (show 4 ≤ i - 16 by omega)]
  simp

theorem addMove_cap (m s : Nat) :
    MoveList.addMove m s &&& 0x900000 = m &&& 0x900000 :=
  and_0x900000_congr (addMove_testBit_lo m s 20 (by omega))
    (addMove_testBit_lo m s 23 (by omega))

theorem promAdd_cap (mv p s : Nat) (hp : p < 16) :
    MoveList.addMove (((mv &&& 0xFFF0FFFF) ||| PROMOTION_FLAG) ||| (p <<< 16))
        s &&& 0x900000 = mv &&& 0x900000 := by
  rw [addMove_cap]
  exact and_0x900000_congr
    (promMove_testBit mv p hp 20 (by omega) (by omega) (by omega))
    (promMove_testBit mv p hp 23 (by omega) (by omega) (by omega))

/-- every move that addPawnMove emits carries exactly the capture and en
passant flag bits of the packed move it was given. -/
theorem addPawnMove_cap (stm : Int) (hstm : stm = 0 ∨ stm = 1) (mv s : Nat) :
    ∀ m ∈ MoveList.addPawnMove stm mv s, m &&& 0x900000 = mv &&& 0x900000 := by
  intro m hm
  have h1 : (pieceType stm KNIGHT).toNat < 16 := by
    rcases hstm with rfl | rfl <;> decide
  have h2 : (pieceType stm BISHOP).toNat < 16 := by
    rcases hstm with rfl | rfl <;> decide
  have h3 : (pieceType stm ROOK).toNat < 16 := by
    rcases hstm with rfl | rfl <;> decide
  have h4 : (pieceType stm QUEEN).toNat < 16 := by
    rcases hstm with rfl | rfl <;> decide
  simp only [MoveList.addPawnMove] at hm
  split at hm
  · simp only [List.mem_cons, List.not_mem_nil, or_false] at hm
    rcases hm with rfl | rfl | rfl | rfl
    · exact promAdd_cap mv _ _ h1
    · exact promAdd_cap mv _ _ h2
    · exact promAdd_cap mv _ _ h3
    · exact promAdd_cap mv _ _ h4
  · simp only [List.mem_cons, List.not_mem_nil, or_false] at hm
    subst hm
    exact addMove_cap mv s


/-! Bounds: every attack bitboard the generator consults fits in 64
bits. -/

theorem getD_lt {l : List Nat} {d c : Nat} (hl : ∀ v ∈ l, v < c)
    (hd : d < c) (n : Nat) : l.getD n d < c := by
  rw [List.getD_eq_getElem?_getD]
  cases h : l[n]? with
  | none => simpa using hd
  | some v =>
    simp only [Option.getD_some]
    exact hl v (List.getElem?_mem h)

theorem U64_lt : U64 < 2 ^ 64 := by decide

theorem and_lt_of_left {x c : Nat} (hx : x < c) (y : Nat) : x &&& y < c :=
  lt_of_le_of_lt Nat.and_le_left hx

theorem and_lt_of_right {y c : Nat} (hy : y < c) (x : Nat) : x &&& y < c :=
  lt_of_le_of_lt Nat.and_le_right hy

theorem notFileA_lt : attack.notFileA < 2 ^ 64 := by decide
theorem notFileH_lt : attack.notFileH < 2 ^ 64 := by decide
theorem notFileAB_lt : attack.notFileAB < 2 ^ 64 := by decide
theorem notFileGH_lt : attack.notFileGH < 2 ^ 64 := by decide

theorem getKingAttacks_lt (king : Nat) (hk : king < 2 ^ 64) :
    attack.getKingAttacks king < 2 ^ 64 := by
  unfold attack.getKingAttacks
  exact Nat.or_lt_two_pow
    (Nat.or_lt_two_pow
      (Nat.or_lt_two_pow (and_lt_of_right U64_lt _)
        (lt_of_le_of_lt
          (by rw [Nat.shiftRight_eq_div_pow]; exact Nat.div_le_self _ _) hk))
      (and_lt_of_right notFileA_lt _))
    (and_lt_of_right notFileH_lt _)

theorem getKnightAttacks_lt (sq : Nat) :
    attack.getKnightAttacks sq < 2 ^ 64 := by
  unfold attack.getKnightAttacks
  exact Nat.or_lt_two_pow (Nat.or_lt_two_pow (Nat.or_lt_two_pow
    (Nat.or_lt_two_pow (Nat.or_lt_two_pow (Nat.or_lt_two_pow
      (Nat.or_lt_two_pow (and_lt_of_right notFileA_lt _)
        (and_lt_of_right notFileH_lt _)) (and_lt_of_right notFileAB_lt _))
      (and_lt_of_right notFileGH_lt _)) (and_lt_of_right notFileH_lt _))
    (and_lt_of_right notFileA_lt _)) (and_lt_of_right notFileGH_lt _))
    (and_lt_of_right notFileAB_lt _)

theorem getWhitePawnAttacksLeft_lt (p : Nat) :
    attack.getWhitePawnAttacksLeft p < 2 ^ 64 :=
  and_lt_of_right notFileH_lt _

theorem getWhitePawnAttacksRight_lt (p : Nat) :
    attack.getWhitePawnAttacksRight p < 2 ^ 64 :=
  and_lt_of_right notFileA_lt _

theorem getBlackPawnAttacksLeft_lt (p : Nat) :
    attack.getBlackPawnAttacksLeft p < 2 ^ 64 :=
  and_lt_of_right notFileA_lt _

theorem getBlackPawnAttacksRight_lt (p : Nat) :
    attack.getBlackPawnAttacksRight p < 2 ^ 64 :=
  and_lt_of_right notFileH_lt _

theorem bishopAttacks_lt (sq : Nat) : attack.bishopAttacks sq < 2 ^ 64 :=
  getD_lt (by decide) (by norm_num) sq

theorem rookAttacks_lt (sq : Nat) : attack.rookAttacks sq < 2 ^ 64 :=
  getD_lt (by decide) (by norm_num) sq

theorem bishopAttacksSlow_lt (sq allPieces : Nat) :
    attack.bishopAttacksSlow sq allPieces < 2 ^ 64 := by
  have h := bishopAttacks_lt sq
  simp only [attack.bishopAttacksSlow]
  repeat' split
  all_goals (repeat' apply and_lt_of_left)
  all_goals exact h

theorem rookAttacksSlow_lt (sq allPieces : Nat) :
    attack.rookAttacksSlow sq allPieces < 2 ^ 64 := by
  have h := rookAttacks_lt sq
  simp only [attack.rookAttacksSlow]
  repeat' split
  all_goals (repeat' apply and_lt_of_left)
  all_goals exact h

theorem fillTable_lt {valFn : Nat → Nat} {mask magic shift c : Nat}
    (hval : ∀ s, valFn s < c) :
    ∀ (k : Nat) (t : Nat → Nat), (∀ i, t i < c) →
      ∀ i, attack.fillTable valFn mask magic shift k t i < c := by
  intro k
  induction k with
  | zero => intro t ht i; exact ht i
  | succ k ih =>
    intro t ht i
    rw [attack.fillTable]
    rw [Function.update_apply]
    split
    · exact hval _
    · exact ih t ht i

theorem getBishopAttacks_lt (sq allPieces : Nat) :
    attack.getBishopAttacks sq allPieces < 2 ^ 64 :=
  fillTable_lt (fun s => bishopAttacksSlow_lt sq s) _ _
    (fun _ => Nat.two_pow_pos 64) _

theorem getRookAttacks_lt (sq allPieces : Nat) :
    attack.getRookAttacks sq allPieces < 2 ^ 64 :=
  fillTable_lt (fun s => rookAttacksSlow_lt sq s) _ _
    (fun _ => Nat.two_pow_pos 64) _

theorem getQueenAttacks_lt (sq allPieces : Nat) :
    attack.getQueenAttacks sq allPieces < 2 ^ 64 :=
  Nat.or_lt_two_pow (getBishopAttacks_lt sq allPieces)
    (getRookAttacks_lt sq allPieces)


theorem testBit_U64 {s : Nat} (hs : s < 64) : U64.testBit s = true := by
  rw [show (U64 : Nat) = 2 ^ 64 - 1 by norm_num [U64],
    Nat.testBit_two_pow_sub_one]
  simpa using hs

/-- the capture filter of a quiet-and-capture piece move list equals the
capture-only generation over the enemy-masked attack set, provided the
enemy bitboard holds exactly the occupied squares outside the moving
side's pieces. -/
theorem filter_generatePieceMoves (b : Board) (sq : Nat) (hsq : sq < 64)
    (A S E : Nat) (hA : A < 2 ^ 64)
    (hocc : ∀ s, s < 64 → (E.testBit s = true ↔
      S.testBit s = false ∧ b.pieces s ≠ -1)) :
    (MoveList.generatePieceMoves b sq (A &&& (S ^^^ U64))).filter
        (fun m => m &&& (CAPTURE_FLAG ||| EN_PASSANT_FLAG) != 0) =
      MoveList.generatePieceMoves b sq (A &&& E) := by
  have hCE : (CAPTURE_FLAG ||| EN_PASSANT_FLAG : Nat) = 0x900000 := by decide
  unfold MoveList.generatePieceMoves
  rw [List.filter_map]
  congr 1
  rw [bits_and_filter A (S ^^^ U64) hA, bits_and_filter A E hA,
    List.filter_filter]
  apply List.filter_congr
  intro s hs
  have hs64 : s < 64 := ((mem_bits hA).mp hs).1
  simp only [Function.comp_apply]
  have hxor : (S ^^^ U64).testBit s = !S.testBit s := by
    rw [Nat.testBit_xor, testBit_U64 hs64, Bool.xor_true]
  rw [hxor, hCE]
  by_cases hp : b.pieces s = -1
  · rw [if_pos (by simpa using hp)]
    rw [getMove_addMove_cap sq s INVALID INVALID 0 _ hsq hs64]
    have hE : E.testBit s = false := by
      cases hE : E.testBit s
      · rfl
      · exact absurd (((hocc s hs64).mp hE).2 hp) (fun h => h)
    rw [hE]
    simp
  · rw [if_neg (by simpa using hp)]
    rw [getMove_addMove_cap sq s (b.pieces s) INVALID CAPTURE_FLAG _ hsq hs64]
    have hcap : ((CAPTURE_FLAG &&& 0x900000 : Nat) != 0) = true := by decide
    rw [hcap]
    cases hS : S.testBit s
    · rw [(hocc s hs64).mpr ⟨hS, hp⟩]
      rfl
    · have hE : E.testBit s = false := by
        cases hE : E.testBit s
        · rfl
        · rw [((hocc s hs64).mp hE).1] at hS
          cases hS
      rw [hE]
      rfl


theorem filter_singleton_true {p : Nat → Bool} {m : Nat} (h : p m = true) :
    [m].filter p = [m] := by
  simp [List.filter, h]

theorem filter_singleton_false {p : Nat → Bool} {m : Nat} (h : p m = false) :
    [m].filter p = [] := by
  simp [List.filter, h]

/-- the capture filter of the white pawn move list is the white pawn
capture list: pushes, double pushes and quiet promotions drop out, the
capture, capture-promotion and en passant segments survive unchanged. -/
theorem filter_generateWhitePawnMoves (b : Board)
    (hstm : b.sideToMove = 0 ∨ b.sideToMove = 1)
    (hpb : b.pieceBitboards WHITE_PAWN < 2 ^ 64)
    (hall : b.colorBitboards BOTH_COLORS < 2 ^ 64)
    (henemy : b.colorBitboards BLACK < 2 ^ 64)
    (hep : b.enPassantSquare = -1 ∨
      (0 ≤ b.enPassantSquare ∧ b.enPassantSquare < 48)) :
    (MoveList.generateWhitePawnMoves b).filter
        (fun m => m &&& (CAPTURE_FLAG ||| EN_PASSANT_FLAG) != 0) =
      MoveList.generateWhitePawnCaptureMoves b := by
  have hCE : (CAPTURE_FLAG ||| EN_PASSANT_FLAG : Nat) = 0x900000 := by decide
  have hxlt : (b.colorBitboards BOTH_COLORS ^^^ U64) < 2 ^ 64 :=
    Nat.xor_lt_two_pow hall U64_lt
  have hpm : (b.pieceBitboards WHITE_PAWN <<< 8) &&&
      (b.colorBitboards BOTH_COLORS ^^^ U64) < 2 ^ 64 := and_lt_of_right hxlt _
  have hps : ((((b.pieceBitboards WHITE_PAWN <<< 8) &&&
      (b.colorBitboards BOTH_COLORS ^^^ U64)) &&& 0x0000000000FF0000) <<< 8) &&&
      (b.colorBitboards BOTH_COLORS ^^^ U64) < 2 ^ 64 := and_lt_of_right hxlt _
  have hal : attack.getWhitePawnAttacksLeft (b.pieceBitboards WHITE_PAWN) &&&
      b.colorBitboards BLACK < 2 ^ 64 := and_lt_of_right henemy _
  have har : attack.getWhitePawnAttacksRight (b.pieceBitboards WHITE_PAWN) &&&
      b.colorBitboards BLACK < 2 ^ 64 := and_lt_of_right henemy _
  unfold MoveList.generateWhitePawnMoves MoveList.generateWhitePawnCaptureMoves
  simp only [List.filter_append]
  have hpushes : ((MoveList.bits 64 ((b.pieceBitboards WHITE_PAWN <<< 8) &&&
      (b.colorBitboards BOTH_COLORS ^^^ U64))).flatMap (fun toSq =>
        MoveList.addPawnMove b.sideToMove
          (MoveList.getMove (toSq - 8) toSq INVALID INVALID 0)
          (MoveList.moveScore WHITE_PAWN))).filter
      (fun m => m &&& (CAPTURE_FLAG ||| EN_PASSANT_FLAG) != 0) = [] := by
    rw [List.filter_flatMap]
    rw [List.flatMap_congr (g := fun _ => ([] : List Nat)) ?_]
    · simp
    · intro toSq hts
      have ht64 : toSq < 64 := ((mem_bits hpm).mp hts).1
      rw [List.filter_eq_nil_iff]
      intro m hm
      have := addPawnMove_cap b.sideToMove hstm _ _ m hm
      rw [getMove_cap _ _ _ _ _ (by omega) ht64] at this
      simp only [hCE, this]
      decide
  have hkeepL : ∀ m ∈ (MoveList.bits 64
      (attack.getWhitePawnAttacksLeft (b.pieceBitboards WHITE_PAWN) &&&
        b.colorBitboards BLACK)).flatMap (fun toSq =>
      MoveList.addPawnMove b.sideToMove
        (MoveList.getMove (toSq - 7) toSq (b.pieces toSq) INVALID
          CAPTURE_FLAG)
        (MoveList.captureScore WHITE_PAWN (b.pieces toSq))),
      (m &&& (CAPTURE_FLAG ||| EN_PASSANT_FLAG) != 0) = true := by
    intro m hm
    rw [List.mem_flatMap] at hm
    obtain ⟨toSq, hts, hmm⟩ := hm
    have ht64 : toSq < 64 := ((mem_bits hal).mp hts).1
    have := addPawnMove_cap b.sideToMove hstm _ _ m hmm
    rw [getMove_cap _ _ _ _ _ (by omega) ht64] at this
    simp only [hCE, this]
    decide
  have hkeepR : ∀ m ∈ (MoveList.bits 64
      (attack.getWhitePawnAttacksRight (b.pieceBitboards WHITE_PAWN) &&&
        b.colorBitboards BLACK)).flatMap (fun toSq =>
      MoveList.addPawnMove b.sideToMove
        (MoveList.getMove (toSq - 9) toSq (b.pieces toSq) INVALID
          CAPTURE_FLAG)
        (MoveList.captureScore WHITE_PAWN (b.pieces toSq))),
      (m &&& (CAPTURE_FLAG ||| EN_PASSANT_FLAG) != 0) = true := by
    intro m hm
    rw [List.mem_flatMap] at hm
    obtain ⟨toSq, hts, hmm⟩ := hm
    have ht64 : toSq < 64 := ((mem_bits har).mp hts).1
    have := addPawnMove_cap b.sideToMove hstm _ _ m hmm
    rw [getMove_cap _ _ _ _ _ (by omega) ht64] at this
    simp only [hCE, this]
    decide
  have hstarts : ((MoveList.bits 64 (((((b.pieceBitboards WHITE_PAWN <<< 8) &&&
      (b.colorBitboards BOTH_COLORS ^^^ U64)) &&& 0x0000000000FF0000) <<< 8) &&&
      (b.colorBitboards BOTH_COLORS ^^^ U64))).map (fun toSq =>
        MoveList.addMove
          (MoveList.getMove (toSq - 16) toSq INVALID INVALID PAWN_START_FLAG)
          MoveList.pawnStartScore)).filter
      (fun m => m &&& (CAPTURE_FLAG ||| EN_PASSANT_FLAG) != 0) = [] := by
    rw [List.filter_map]
    rw [show List.filter ((fun m => m &&& (CAPTURE_FLAG ||| EN_PASSANT_FLAG)
        != 0) ∘ (fun toSq => MoveList.addMove (MoveList.getMove (toSq - 16)
        toSq INVALID INVALID PAWN_START_FLAG) MoveList.pawnStartScore))
        (MoveList.bits 64 (((((b.pieceBitboards WHITE_PAWN <<< 8) &&&
        (b.colorBitboards BOTH_COLORS ^^^ U64)) &&& 0x0000000000FF0000) <<< 8)
        &&& (b.colorBitboards BOTH_COLORS ^^^ U64))) = [] from ?_]
    · simp
    · rw [List.filter_eq_nil_iff]
      intro toSq hts
      have ht64 : toSq < 64 := ((mem_bits hps).mp hts).1
      simp only [Function.comp_apply]
      rw [hCE, getMove_addMove_cap _ _ _ _ _ _ (by omega) ht64]
      decide
  rw [hpushes, List.filter_eq_self.mpr hkeepL, List.filter_eq_self.mpr hkeepR,
    hstarts]
  simp only [List.nil_append, List.append_nil, List.append_assoc]
  congr 1
  congr 1
  have h7 : (b.enPassantSquare - 7).toNat < 64 := by
    rcases hep with h | ⟨h1, h2⟩ <;> omega
  have h9 : (b.enPassantSquare - 9).toNat < 64 := by
    rcases hep with h | ⟨h1, h2⟩ <;> omega
  have hT : b.enPassantSquare.toNat < 64 := by
    rcases hep with h | ⟨h1, h2⟩ <;> omega
  rw [apply_ite (List.filter (fun m =>
    m &&& (CAPTURE_FLAG ||| EN_PASSANT_FLAG) != 0))]
  congr 1
  · rw [List.filter_append]
    congr 1
    · rw [apply_ite (List.filter (fun m =>
        m &&& (CAPTURE_FLAG ||| EN_PASSANT_FLAG) != 0))]
      rw [filter_singleton_true (by
        rw [hCE, getMove_addMove_cap _ _ _ _ _ _ h7 hT]
        decide)]
      rw [List.filter_nil]
    · rw [apply_ite (List.filter (fun m =>
        m &&& (CAPTURE_FLAG ||| EN_PASSANT_FLAG) != 0))]
      rw [filter_singleton_true (by
        rw [hCE, getMove_addMove_cap _ _ _ _ _ _ h9 hT]
        decide)]
      rw [List.filter_nil]

theorem and_testBit_left {a b i : Nat} (h : (a &&& b).testBit i = true) :
    a.testBit i = true := by
  rw [Nat.testBit_and, Bool.and_eq_true] at h
  exact h.1

/-- a set bit of `x >>> n` lies below `64 - n` when `x < 2 ^ 64`. -/
theorem shr_testBit_lt {x n i : Nat} (hx : x < 2 ^ 64)
    (h : (x >>> n).testBit i = true) : n + i < 64 := by
  by_contra hge
  rw [Nat.testBit_shiftRight,
    testBit_small_false hx (by omega : 64 ≤ n + i)] at h
  cases h

/-- the capture filter of the black pawn move list is the black pawn
capture list. -/
theorem filter_generateBlackPawnMoves (b : Board)
    (hstm : b.sideToMove = 0 ∨ b.sideToMove = 1)
    (hpb : b.pieceBitboards BLACK_PAWN < 2 ^ 64)
    (hall : b.colorBitboards BOTH_COLORS < 2 ^ 64)
    (henemy : b.colorBitboards WHITE < 2 ^ 64)
    (hep : b.enPassantSquare = -1 ∨
      (0 ≤ b.enPassantSquare ∧ b.enPassantSquare < 48)) :
    (MoveList.generateBlackPawnMoves b).filter
        (fun m => m &&& (CAPTURE_FLAG ||| EN_PASSANT_FLAG) != 0) =
      MoveList.generateBlackPawnCaptureMoves b := by
  have hCE : (CAPTURE_FLAG ||| EN_PASSANT_FLAG : Nat) = 0x900000 := by decide
  have hxlt : (b.colorBitboards BOTH_COLORS ^^^ U64) < 2 ^ 64 :=
    Nat.xor_lt_two_pow hall U64_lt
  have hpm : (b.pieceBitboards BLACK_PAWN >>> 8) &&&
      (b.colorBitboards BOTH_COLORS ^^^ U64) < 2 ^ 64 := and_lt_of_right hxlt _
  have hps : ((((b.pieceBitboards BLACK_PAWN >>> 8) &&&
      (b.colorBitboards BOTH_COLORS ^^^ U64)) &&& 0x0000FF0000000000) >>> 8) &&&
      (b.colorBitboards BOTH_COLORS ^^^ U64) < 2 ^ 64 := and_lt_of_right hxlt _
  have hal : attack.getBlackPawnAttacksLeft (b.pieceBitboards BLACK_PAWN) &&&
      b.colorBitboards WHITE < 2 ^ 64 := and_lt_of_right henemy _
  have har : attack.getBlackPawnAttacksRight (b.pieceBitboards BLACK_PAWN) &&&
      b.colorBitboards WHITE < 2 ^ 64 := and_lt_of_right henemy _
  unfold MoveList.generateBlackPawnMoves MoveList.generateBlackPawnCaptureMoves
  simp only [List.filter_append]
  have hpushes : ((MoveList.bits 64 ((b.pieceBitboards BLACK_PAWN >>> 8) &&&
      (b.colorBitboards BOTH_COLORS ^^^ U64))).flatMap (fun toSq =>
        MoveList.addPawnMove b.sideToMove
          (MoveList.getMove (toSq + 8) toSq INVALID INVALID 0)
          (MoveList.moveScore BLACK_PAWN))).filter
      (fun m => m &&& (CAPTURE_FLAG ||| EN_PASSANT_FLAG) != 0) = [] := by
    rw [List.filter_flatMap]
    rw [List.flatMap_congr (g := fun _ => ([] : List Nat)) ?_]
    · simp
    · intro toSq hts
      have ht64 : toSq < 64 := ((mem_bits hpm).mp hts).1
      have htb := ((mem_bits hpm).mp hts).2
      have hf8 : 8 + toSq < 64 :=
        shr_testBit_lt hpb (and_testBit_left htb)
      rw [List.filter_eq_nil_iff]
      intro m hm
      have := addPawnMove_cap b.sideToMove hstm _ _ m hm
      rw [getMove_cap _ _ _ _ _ (by omega) ht64] at this
      simp only [hCE, this]
      decide
  have hkeepL : ∀ m ∈ (MoveList.bits 64
      (attack.getBlackPawnAttacksLeft (b.pieceBitboards BLACK_PAWN) &&&
        b.colorBitboards WHITE)).flatMap (fun toSq =>
      MoveList.addPawnMove b.sideToMove
        (MoveList.getMove (toSq + 7) toSq (b.pieces toSq) INVALID
          CAPTURE_FLAG)
        (MoveList.captureScore BLACK_PAWN (b.pieces toSq))),
      (m &&& (CAPTURE_FLAG ||| EN_PASSANT_FLAG) != 0) = true := by
    intro m hm
    rw [List.mem_flatMap] at hm
    obtain ⟨toSq, hts, hmm⟩ := hm
    have ht64 : toSq < 64 := ((mem_bits hal).mp hts).1
    have htb := ((mem_bits hal).mp hts).2
    have hf7 : 7 + toSq < 64 := shr_testBit_lt hpb
      (and_testBit_left (and_testBit_left htb))
    have := addPawnMove_cap b.sideToMove hstm _ _ m hmm
    rw [getMove_cap _ _ _ _ _ (by omega) ht64] at this
    simp only [hCE, this]
    decide
  have hkeepR : ∀ m ∈ (MoveList.bits 64
      (attack.getBlackPawnAttacksRight (b.pieceBitboards BLACK_PAWN) &&&
        b.colorBitboards WHITE)).flatMap (fun toSq =>
      MoveList.addPawnMove b.sideToMove
        (MoveList.getMove (toSq + 9) toSq (b.pieces toSq) INVALID
          CAPTURE_FLAG)
        (MoveList.captureScore BLACK_PAWN (b.pieces toSq))),
      (m &&& (CAPTURE_FLAG ||| EN_PASSANT_FLAG) != 0) = true := by
    intro m hm
    rw [List.mem_flatMap] at hm
    obtain ⟨toSq, hts, hmm⟩ := hm
    have ht64 : toSq < 64 := ((mem_bits har).mp hts).1
    have htb := ((mem_bits har).mp hts).2
    have hf9 : 9 + toSq < 64 := shr_testBit_lt hpb
      (and_testBit_left (and_testBit_left htb))
    have := addPawnMove_cap b.sideToMove hstm _ _ m hmm
    rw [getMove_cap _ _ _ _ _ (by omega) ht64] at this
    simp only [hCE, this]
    decide
  have hstarts : ((MoveList.bits 64 (((((b.pieceBitboards BLACK_PAWN >>> 8) &&&
      (b.colorBitboards BOTH_COLORS ^^^ U64)) &&& 0x0000FF0000000000) >>> 8) &&&
      (b.colorBitboards BOTH_COLORS ^^^ U64))).map (fun toSq =>
        MoveList.addMove
          (MoveList.getMove (toSq + 16) toSq INVALID INVALID PAWN_START_FLAG)
          MoveList.pawnStartScore)).filter
      (fun m => m &&& (CAPTURE_FLAG ||| EN_PASSANT_FLAG) != 0) = [] := by
    rw [List.filter_map]
    rw [show List.filter ((fun m => m &&& (CAPTURE_FLAG ||| EN_PASSANT_FLAG)
        != 0) ∘ (fun toSq => MoveList.addMove (MoveList.getMove (toSq + 16)
        toSq INVALID INVALID PAWN_START_FLAG) MoveList.pawnStartScore))
        (MoveList.bits 64 (((((b.pieceBitboards BLACK_PAWN >>> 8) &&&
        (b.colorBitboards BOTH_COLORS ^^^ U64)) &&& 0x0000FF0000000000) >>> 8)
        &&& (b.colorBitboards BOTH_COLORS ^^^ U64))) = [] from ?_]
    · simp
    · rw [List.filter_eq_nil_iff]
      intro toSq hts
      have ht64 : toSq < 64 := ((mem_bits hps).mp hts).1
      have htb := ((mem_bits hps).mp hts).2
      have htb8 : ((b.pieceBitboards BLACK_PAWN >>> 8) &&&
          (b.colorBitboards BOTH_COLORS ^^^ U64)).testBit (8 + toSq) = true := by
        have h1 := and_testBit_left htb
        rw [Nat.testBit_shiftRight] at h1
        exact and_testBit_left h1
      have hf16 : 8 + (8 + toSq) < 64 :=
        shr_testBit_lt hpb (and_testBit_left htb8)
      simp only [Function.comp_apply]
      rw [hCE, getMove_addMove_cap _ _ _ _ _ _ (by omega) ht64]
      decide
  rw [hpushes, List.filter_eq_self.mpr hkeepL, List.filter_eq_self.mpr hkeepR,
    hstarts]
  simp only [List.nil_append, List.append_nil, List.append_assoc]
  congr 1
  congr 1
  have h7 : (b.enPassantSquare + 7).toNat < 64 := by
    rcases hep with h | ⟨h1, h2⟩ <;> omega
  have h9 : (b.enPassantSquare + 9).toNat < 64 := by
    rcases hep with h | ⟨h1, h2⟩ <;> omega
  have hT : b.enPassantSquare.toNat < 64 := by
    rcases hep with h | ⟨h1, h2⟩ <;> omega
  rw [apply_ite (List.filter (fun m =>
    m &&& (CAPTURE_FLAG ||| EN_PASSANT_FLAG) != 0))]
  congr 1
  · rw [List.filter_append]
    congr 1
    · rw [apply_ite (List.filter (fun m =>
        m &&& (CAPTURE_FLAG ||| EN_PASSANT_FLAG) != 0))]
      rw [filter_singleton_true (by
        rw [hCE, getMove_addMove_cap _ _ _ _ _ _ h7 hT]
        decide)]
      rw [List.filter_nil]
    · rw [apply_ite (List.filter (fun m =>
        m &&& (CAPTURE_FLAG ||| EN_PASSANT_FLAG) != 0))]
      rw [filter_singleton_true (by
        rw [hCE, getMove_addMove_cap _ _ _ _ _ _ h9 hT]
        decide)]
      rw [List.filter_nil]

/-- castle moves carry no capture or en passant bits, so the capture
filter removes the whole white castle segment. -/
theorem filter_generateWhiteCastleMoves (b : Board) :
    (MoveList.generateWhiteCastleMoves b).filter
        (fun m => m &&& (CAPTURE_FLAG ||| EN_PASSANT_FLAG) != 0) = [] := by
  have hCE : (CAPTURE_FLAG ||| EN_PASSANT_FLAG : Nat) = 0x900000 := by decide
  unfold MoveList.generateWhiteCastleMoves
  rw [List.filter_append]
  rw [apply_ite (List.filter (fun m =>
    m &&& (CAPTURE_FLAG ||| EN_PASSANT_FLAG) != 0))]
  rw [apply_ite (List.filter (fun m =>
    m &&& (CAPTURE_FLAG ||| EN_PASSANT_FLAG) != 0))]
  rw [filter_singleton_false (by
    rw [hCE, getMove_addMove_cap _ _ _ _ _ _ (by decide) (by decide)]
    decide)]
  rw [filter_singleton_false (by
    rw [hCE, getMove_addMove_cap _ _ _ _ _ _ (by decide) (by decide)]
    decide)]
  simp

/-- the capture filter removes the whole black castle segment. -/
theorem filter_generateBlackCastleMoves (b : Board) :
    (MoveList.generateBlackCastleMoves b).filter
        (fun m => m &&& (CAPTURE_FLAG ||| EN_PASSANT_FLAG) != 0) = [] := by
  have hCE : (CAPTURE_FLAG ||| EN_PASSANT_FLAG : Nat) = 0x900000 := by decide
  unfold MoveList.generateBlackCastleMoves
  rw [List.filter_append]
  rw [apply_ite (List.filter (fun m =>
    m &&& (CAPTURE_FLAG ||| EN_PASSANT_FLAG) != 0))]
  rw [apply_ite (List.filter (fun m =>
    m &&& (CAPTURE_FLAG ||| EN_PASSANT_FLAG) != 0))]
  rw [filter_singleton_false (by
    rw [hCE, getMove_addMove_cap _ _ _ _ _ _ (by decide) (by decide)]
    decide)]
  rw [filter_singleton_false (by
    rw [hCE, getMove_addMove_cap _ _ _ _ _ _ (by decide) (by decide)]
    decide)]
  simp

/-- C5: the capture-only move list is exactly the capture filter of the
full pseudo-legal move list — quiet pawn pushes, double pushes, castling
and quiet non-pawn moves drop out, captures and en passant survive.
Quiet promotions drop out as well, refuting the claim's inclusion of
non-capturing promotions (see the counterexample). -/
theorem spec_C5_captureMoves_filter (b : Board)
    (hstm : b.sideToMove = 0 ∨ b.sideToMove = 1)
    (hpb : ∀ p : Int, b.pieceBitboards p < 2 ^ 64)
    (hcb : ∀ c : Int, b.colorBitboards c < 2 ^ 64)
    (hep : b.enPassantSquare = -1 ∨
      (0 ≤ b.enPassantSquare ∧ b.enPassantSquare < 48))
    (hocc : ∀ s, s < 64 →
      ((b.colorBitboards (if b.sideToMove == WHITE then BLACK
          else WHITE)).testBit s = true ↔
        (b.colorBitboards (if b.sideToMove == WHITE then WHITE
          else BLACK)).testBit s = false ∧ b.pieces s ≠ -1)) :
    (MoveList.generateMoves b).filter
        (fun m => m &&& (CAPTURE_FLAG ||| EN_PASSANT_FLAG) != 0) =
      MoveList.generateCaptureMoves b := by
  unfold MoveList.generateMoves MoveList.generateCaptureMoves
  rcases hstm with h0 | h1
  · have hsel : (b.sideToMove == WHITE) = true := by rw [h0]; rfl
    simp only [if_pos hsel] at hocc ⊢
    simp only [List.filter_append]
    rw [filter_generateWhitePawnMoves b (Or.inl h0) (hpb WHITE_PAWN)
      (hcb BOTH_COLORS) (hcb BLACK) hep]
    rw [filter_generateWhiteCastleMoves b]
    have hkn : (List.filter (fun m =>
        m &&& (CAPTURE_FLAG ||| EN_PASSANT_FLAG) != 0)
          ((MoveList.bits 64 (b.pieceBitboards WHITE_KNIGHT)).flatMap
            (fun sq => MoveList.generatePieceMoves b sq
              (attack.getKnightAttacks sq &&&
                (b.colorBitboards WHITE ^^^ U64))))) =
        (MoveList.bits 64 (b.pieceBitboards WHITE_KNIGHT)).flatMap
          (fun sq => MoveList.generatePieceMoves b sq
            (attack.getKnightAttacks sq &&& b.colorBitboards BLACK)) := by
      rw [List.filter_flatMap]
      apply List.flatMap_congr
      intro sq hsq
      exact filter_generatePieceMoves b sq
        ((mem_bits (hpb WHITE_KNIGHT)).mp hsq).1 _ _ _
        (getKnightAttacks_lt sq) hocc
    have hbi : (List.filter (fun m =>
        m &&& (CAPTURE_FLAG ||| EN_PASSANT_FLAG) != 0)
          ((MoveList.bits 64 (b.pieceBitboards WHITE_BISHOP)).flatMap
            (fun sq => MoveList.generatePieceMoves b sq
              (attack.getBishopAttacks sq (b.colorBitboards BOTH_COLORS) &&&
                (b.colorBitboards WHITE ^^^ U64))))) =
        (MoveList.bits 64 (b.pieceBitboards WHITE_BISHOP)).flatMap
          (fun sq => MoveList.generatePieceMoves b sq
            (attack.getBishopAttacks sq (b.colorBitboards BOTH_COLORS) &&&
              b.colorBitboards BLACK)) := by
      rw [List.filter_flatMap]
      apply List.flatMap_congr
      intro sq hsq
      exact filter_generatePieceMoves b sq
        ((mem_bits (hpb WHITE_BISHOP)).mp hsq).1 _ _ _
        (getBishopAttacks_lt sq _) hocc
    have hro : (List.filter (fun m =>
        m &&& (CAPTURE_FLAG ||| EN_PASSANT_FLAG) != 0)
          ((MoveList.bits 64 (b.pieceBitboards WHITE_ROOK)).flatMap
            (fun sq => MoveList.generatePieceMoves b sq
              (attack.getRookAttacks sq (b.colorBitboards BOTH_COLORS) &&&
                (b.colorBitboards WHITE ^^^ U64))))) =
        (MoveList.bits 64 (b.pieceBitboards WHITE_ROOK)).flatMap
          (fun sq => MoveList.generatePieceMoves b sq
            (attack.getRookAttacks sq (b.colorBitboards BOTH_COLORS) &&&
              b.colorBitboards BLACK)) := by
      rw [List.filter_flatMap]
      apply List.flatMap_congr
      intro sq hsq
      exact filter_generatePieceMoves b sq
        ((mem_bits (hpb WHITE_ROOK)).mp hsq).1 _ _ _
        (getRookAttacks_lt sq _) hocc
    have hqu : (List.filter (fun m =>
        m &&& (CAPTURE_FLAG ||| EN_PASSANT_FLAG) != 0)
          ((MoveList.bits 64 (b.pieceBitboards WHITE_QUEEN)).flatMap
            (fun sq => MoveList.generatePieceMoves b sq
              (attack.getQueenAttacks sq (b.colorBitboards BOTH_COLORS) &&&
                (b.colorBitboards WHITE ^^^ U64))))) =
        (MoveList.bits 64 (b.pieceBitboards WHITE_QUEEN)).flatMap
          (fun sq => MoveList.generatePieceMoves b sq
            (attack.getQueenAttacks sq (b.colorBitboards BOTH_COLORS) &&&
              b.colorBitboards BLACK)) := by
      rw [List.filter_flatMap]
      apply List.flatMap_congr
      intro sq hsq
      exact filter_generatePieceMoves b sq
        ((mem_bits (hpb WHITE_QUEEN)).mp hsq).1 _ _ _
        (getQueenAttacks_lt sq _) hocc
    rw [hkn, hbi, hro, hqu]
    rw [filter_generatePieceMoves b (getLSB (b.pieceBitboards WHITE_KING))
      (by have := getLSB_le (b.pieceBitboards WHITE_KING); omega) _ _ _
      (getKingAttacks_lt _ (hpb WHITE_KING)) hocc]
    simp only [List.append_nil]
  · have hneg : ¬((b.sideToMove == WHITE) = true) := by rw [h1]; decide
    simp only [if_neg hneg] at hocc ⊢
    simp only [List.filter_append]
    rw [filter_generateBlackPawnMoves b (Or.inr h1) (hpb BLACK_PAWN)
      (hcb BOTH_COLORS) (hcb WHITE) hep]
    rw [filter_generateBlackCastleMoves b]
    have hkn : (List.filter (fun m =>
        m &&& (CAPTURE_FLAG ||| EN_PASSANT_FLAG) != 0)
          ((MoveList.bits 64 (b.pieceBitboards BLACK_KNIGHT)).flatMap
            (fun sq => MoveList.generatePieceMoves b sq
              (attack.getKnightAttacks sq &&&
                (b.colorBitboards BLACK ^^^ U64))))) =
        (MoveList.bits 64 (b.pieceBitboards BLACK_KNIGHT)).flatMap
          (fun sq => MoveList.generatePieceMoves b sq
            (attack.getKnightAttacks sq &&& b.colorBitboards WHITE)) := by
      rw [List.filter_flatMap]
      apply List.flatMap_congr
      intro sq hsq
      exact filter_generatePieceMoves b sq
        ((mem_bits (hpb BLACK_KNIGHT)).mp hsq).1 _ _ _
        (getKnightAttacks_lt sq) hocc
    have hbi : (List.filter (fun m =>
        m &&& (CAPTURE_FLAG ||| EN_PASSANT_FLAG) != 0)
          ((MoveList.bits 64 (b.pieceBitboards BLACK_BISHOP)).flatMap
            (fun sq => MoveList.generatePieceMoves b sq
              (attack.getBishopAttacks sq (b.colorBitboards BOTH_COLORS) &&&
                (b.colorBitboards BLACK ^^^ U64))))) =
        (MoveList.bits 64 (b.pieceBitboards BLACK_BISHOP)).flatMap
          (fun sq => MoveList.generatePieceMoves b sq
            (attack.getBishopAttacks sq (b.colorBitboards BOTH_COLORS) &&&
              b.colorBitboards WHITE)) := by
      rw [List.filter_flatMap]
      apply List.flatMap_congr
      intro sq hsq
      exact filter_generatePieceMoves b sq
        ((mem_bits (hpb BLACK_BISHOP)).mp hsq).1 _ _ _
        (getBishopAttacks_lt sq _) hocc
    have hro : (List.filter (fun m =>
        m &&& (CAPTURE_FLAG ||| EN_PASSANT_FLAG) != 0)
          ((MoveList.bits 64 (b.pieceBitboards BLACK_ROOK)).flatMap
            (fun sq => MoveList.generatePieceMoves b sq
              (attack.getRookAttacks sq (b.colorBitboards BOTH_COLORS) &&&
                (b.colorBitboards BLACK ^^^ U64))))) =
        (MoveList.bits 64 (b.pieceBitboards BLACK_ROOK)).flatMap
          (fun sq => MoveList.generatePieceMoves b sq
            (attack.getRookAttacks sq (b.colorBitboards BOTH_COLORS) &&&
              b.colorBitboards WHITE)) := by
      rw [List.filter_flatMap]
      apply List.flatMap_congr
      intro sq hsq
      exact filter_generatePieceMoves b sq
        ((mem_bits (hpb BLACK_ROOK)).mp hsq).1 _ _ _
        (getRookAttacks_lt sq _) hocc
    have hqu : (List.filter (fun m =>
        m &&& (CAPTURE_FLAG ||| EN_PASSANT_FLAG) != 0)
          ((MoveList.bits 64 (b.pieceBitboards BLACK_QUEEN)).flatMap
            (fun sq => MoveList.generatePieceMoves b sq
              (attack.getQueenAttacks sq (b.colorBitboards BOTH_COLORS) &&&
                (b.colorBitboards BLACK ^^^ U64))))) =
        (MoveList.bits 64 (b.pieceBitboards BLACK_QUEEN)).flatMap
          (fun sq => MoveList.generatePieceMoves b sq
            (attack.getQueenAttacks sq (b.colorBitboards BOTH_COLORS) &&&
              b.colorBitboards WHITE)) := by
      rw [List.filter_flatMap]
      apply List.flatMap_congr
      intro sq hsq
      exact filter_generatePieceMoves b sq
        ((mem_bits (hpb BLACK_QUEEN)).mp hsq).1 _ _ _
        (getQueenAttacks_lt sq _) hocc
    rw [hkn, hbi, hro, hqu]
    rw [filter_generatePieceMoves b (getLSB (b.pieceBitboards BLACK_KING))
      (by have := getLSB_le (b.pieceBitboards BLACK_KING); omega) _ _ _
      (getKingAttacks_lt _ (hpb BLACK_KING)) hocc]
    simp only [List.append_nil]

/-- witness for C5 at the concrete board `wBoardProm`. -/
theorem spec_C5_captureMoves_filter_witness :
    (MoveList.generateMoves wBoardProm).filter
        (fun m => m &&& (CAPTURE_FLAG ||| EN_PASSANT_FLAG) != 0) =
      MoveList.generateCaptureMoves wBoardProm :=
  spec_C5_captureMoves_filter wBoardProm (by decide)
    (fun p => by
      show (if p == WHITE_PAWN then 1 <<< 48
        else if p == WHITE_KING then 1 <<< 4
        else if p == BLACK_KING then 1 <<< 60
        else 0) < 2 ^ 64
      split
      · decide
      · split
        · decide
        · split
          · decide
          · decide)
    (fun c => by
      show (if c == WHITE then (1 <<< 48) ||| (1 <<< 4)
        else if c == BLACK then 1 <<< 60
        else ((1 <<< 48) ||| (1 <<< 4)) ||| (1 <<< 60)) < 2 ^ 64
      split
      · decide
      · split
        · decide
        · decide)
    (by decide) (by decide)

/-- counterexample for C5: on `wBoardProm` the full move list contains a
non-capturing promotion (the push a7a8 promoting), but the capture-only
list is empty, so quiet promotions are absent from the capture-only
generator. -/
theorem spec_C5_counterexample :
    ((MoveList.generateMoves wBoardProm).any (fun m =>
        m &&& PROMOTION_FLAG != 0 &&
        m &&& (CAPTURE_FLAG ||| EN_PASSANT_FLAG) == 0) = true) ∧
    MoveList.generateCaptureMoves wBoardProm = [] := by
  constructor
  · decide
  · decide

/-- C7: a FEN that is not the start-position shortcut and fails one of
the checks that precede any mutation — wrong token count, an invalid
character in the piece layout, or a row count other than eight — is
rejected with the Board unchanged.  (Checks that run later leave the
Board partially mutated, and a non-canonical castle token is not
rejected at all; see the counterexample.) -/
theorem spec_C7_setToFEN_reject (b : Board) (hk : HashKeys) (fen : List Char)
    (hne : fen ≠ START_POS)
    (hbad : (Board.fenSplit ' ' fen).length ≠ 6 ∨
      Board.containsOnly ((Board.fenSplit ' ' fen).getD 0 [])
        "PNBRQKpnbrqk/12345678".toList = false ∨
      (Board.fenSplit '/' ((Board.fenSplit ' ' fen).getD 0 [])).length ≠ 8) :
    (Board.setToFEN hk b fen).1 = false ∧ (Board.setToFEN hk b fen).2 = b := by
  simp only [Board.setToFEN]
  rw [if_neg (by simpa using hne)]
  split
  · exact ⟨rfl, rfl⟩
  next h6 =>
    split
    next hcs => exact ⟨rfl, rfl⟩
    next hcs =>
      split
      next hrows => exact ⟨rfl, rfl⟩
      next hrows =>
        exfalso
        rcases hbad with h | h | h
        · exact h6 h
        · rw [h] at hcs
          exact hcs rfl
        · exact hrows h

/-- witness for C7: a one-token FEN is rejected and leaves the board
untouched. -/
theorem spec_C7_setToFEN_reject_witness :
    (Board.setToFEN hk0 wBoardC1 "bad".toList).1 = false ∧
      (Board.setToFEN hk0 wBoardC1 "bad".toList).2 = wBoardC1 :=
  spec_C7_setToFEN_reject wBoardC1 hk0 ("bad".toList) (by decide)
    (Or.inl (by decide))

/-- counterexample for C7: the castle-permissions check reads the stale
member, so the non-canonical token XX is accepted (setToFEN returns
true on a board whose previous castlePerms was not INVALID); and a FEN
failing the side-to-move check is rejected only after the piece layout
has overwritten the mailbox, so the state observable after the failing
call differs from the state before it. -/
theorem spec_C7_counterexample :
    (Board.setToFEN hk0 wBoardC1 wFenBadCastle).1 = true ∧
    (Board.setToFEN hk0 wBoardC1 wFenBadSide).1 = false ∧
    (Board.setToFEN hk0 wBoardC1 wFenBadSide).2.pieces 4 ≠ wBoardC1.pieces 4 := by
  refine ⟨by decide, by decide, by decide⟩

theorem pieceColor_wb (p : Int) : pieceColor p = 0 ∨ pieceColor p = 1 := by
  unfold pieceColor
  rcases Nat.lt_or_ge p.toNat 12 with h | h
  · set n := p.toNat with hn
    interval_cases n <;> decide
  · rw [List.getD_eq_default]
    · left
      rfl
    · simpa [pieceColorC] using h

theorem rebuildSq_pieces (b : Board) (sq : Nat) :
    (Board.rebuildSq b sq).pieces = b.pieces := by
  unfold Board.rebuildSq
  split <;> rfl

theorem rebuildSq_pbb (b : Board) (sq : Nat) (p : Int) :
    (Board.rebuildSq b sq).pieceBitboards p =
      (if b.pieces sq ≠ -1 ∧ b.pieces sq = p
        then b.pieceBitboards p ||| (1 <<< sq) else b.pieceBitboards p) := by
  unfold Board.rebuildSq
  split
  next h =>
    have h' : b.pieces sq = -1 := by simpa using h
    rw [if_neg (by simp [h'])]
  next h =>
    have h' : b.pieces sq ≠ -1 := by simpa using h
    by_cases hp : b.pieces sq = p
    · rw [if_pos ⟨h', hp⟩]
      simp [hp]
    · rw [if_neg (by simp [hp])]
      have hps : ¬(p = b.pieces sq) := fun h => hp h.symm
      simp [hps]

theorem rebuildSq_cbb (b : Board) (sq : Nat) (c : Int) :
    (Board.rebuildSq b sq).colorBitboards c =
      (if b.pieces sq ≠ -1 ∧ (pieceColor (b.pieces sq) = c ∨ c = BOTH_COLORS)
        then b.colorBitboards c ||| (1 <<< sq) else b.colorBitboards c) := by
  unfold Board.rebuildSq
  split
  next h =>
    have h' : b.pieces sq = -1 := by simpa using h
    rw [if_neg (by simp [h'])]
  next h =>
    have h' : b.pieces sq ≠ -1 := by simpa using h
    by_cases hpc : c = pieceColor (b.pieces sq)
    · rw [if_pos ⟨h', Or.inl hpc.symm⟩]
      simp [hpc]
    · by_cases hb : c = BOTH_COLORS
      · rw [if_pos ⟨h', Or.inr hb⟩]
        simp [hpc, hb]
      · rw [if_neg (by
          rintro ⟨-, h2 | h2⟩
          · exact hpc h2.symm
          · exact hb h2)]
        simp [hpc, hb]

theorem rebuildSq_material (b : Board) (sq : Nat) (c : Int) :
    (Board.rebuildSq b sq).material c =
      (if b.pieces sq ≠ -1 ∧ pieceColor (b.pieces sq) = c
        then b.material c + pieceMaterial (b.pieces sq) else b.material c) := by
  unfold Board.rebuildSq
  split
  next h =>
    have h' : b.pieces sq = -1 := by simpa using h
    rw [if_neg (by simp [h'])]
  next h =>
    have h' : b.pieces sq ≠ -1 := by simpa using h
    by_cases hpc : c = pieceColor (b.pieces sq)
    · rw [if_pos ⟨h', hpc.symm⟩]
      simp [hpc]
    · rw [if_neg (by rintro ⟨-, h2⟩; exact hpc h2.symm)]
      simp [hpc]

theorem rebuildLoop_pieces : ∀ n, ∀ b : Board,
    (Board.rebuildLoop b n).pieces = b.pieces := by
  intro n
  induction n with
  | zero => intro b; rfl
  | succ n ih =>
    intro b
    show (Board.rebuildLoop (Board.rebuildSq b (64 - (n + 1))) n).pieces = _
    rw [ih, rebuildSq_pieces]

theorem rebuildLoop_pbb : ∀ n, n ≤ 64 → ∀ b : Board, ∀ p : Int,
    (Board.rebuildLoop b n).pieceBitboards p =
      b.pieceBitboards p ||| orRange b.pieces p (64 - n) n := by
  intro n
  induction n with
  | zero =>
    intro _ b p
    show b.pieceBitboards p = b.pieceBitboards p ||| orRange b.pieces p 64 0
    simp [orRange]
  | succ n ih =>
    intro hn b p
    show (Board.rebuildLoop (Board.rebuildSq b (64 - (n + 1))) n).pieceBitboards p = _
    rw [ih (by omega), rebuildSq_pbb, rebuildSq_pieces]
    have he : orRange b.pieces p (64 - (n + 1)) (n + 1) =
        (if b.pieces (64 - (n + 1)) ≠ -1 ∧ b.pieces (64 - (n + 1)) = p
          then 1 <<< (64 - (n + 1)) else 0) |||
          orRange b.pieces p ((64 - (n + 1)) + 1) n := rfl
    rw [he, show (64 - (n + 1)) + 1 = 64 - n by omega]
    by_cases hc : b.pieces (64 - (n + 1)) ≠ -1 ∧ b.pieces (64 - (n + 1)) = p
    · rw [if_pos hc, if_pos hc, Nat.or_assoc]
    · rw [if_neg hc, if_neg hc, Nat.zero_or]

theorem rebuildLoop_cbb : ∀ n, n ≤ 64 → ∀ b : Board, ∀ c : Int,
    (Board.rebuildLoop b n).colorBitboards c =
      b.colorBitboards c ||| orRangeColor b.pieces c (64 - n) n := by
  intro n
  induction n with
  | zero =>
    intro _ b c
    show b.colorBitboards c = b.colorBitboards c ||| orRangeColor b.pieces c 64 0
    simp [orRangeColor]
  | succ n ih =>
    intro hn b c
    show (Board.rebuildLoop (Board.rebuildSq b (64 - (n + 1))) n).colorBitboards c = _
    rw [ih (by omega), rebuildSq_cbb, rebuildSq_pieces]
    have he : orRangeColor b.pieces c (64 - (n + 1)) (n + 1) =
        (if b.pieces (64 - (n + 1)) ≠ -1 ∧
            (pieceColor (b.pieces (64 - (n + 1))) = c ∨ c = BOTH_COLORS)
          then 1 <<< (64 - (n + 1)) else 0) |||
          orRangeColor b.pieces c ((64 - (n + 1)) + 1) n := rfl
    rw [he, show (64 - (n + 1)) + 1 = 64 - n by omega]
    by_cases hc : b.pieces (64 - (n + 1)) ≠ -1 ∧
        (pieceColor (b.pieces (64 - (n + 1))) = c ∨ c = BOTH_COLORS)
    · rw [if_pos hc, if_pos hc, Nat.or_assoc]
    · rw [if_neg hc, if_neg hc, Nat.zero_or]

theorem rebuildLoop_material : ∀ n, n ≤ 64 → ∀ b : Board, ∀ c : Int,
    (Board.rebuildLoop b n).material c =
      b.material c + sumRange b.pieces c (64 - n) n := by
  intro n
  induction n with
  | zero =>
    intro _ b c
    show b.material c = b.material c + sumRange b.pieces c 64 0
    simp [sumRange]
  | succ n ih =>
    intro hn b c
    show (Board.rebuildLoop (Board.rebuildSq b (64 - (n + 1))) n).material c = _
    rw [ih (by omega), rebuildSq_material, rebuildSq_pieces]
    have he : sumRange b.pieces c (64 - (n + 1)) (n + 1) =
        (if b.pieces (64 - (n + 1)) ≠ -1 ∧
            pieceColor (b.pieces (64 - (n + 1))) = c
          then pieceMaterial (b.pieces (64 - (n + 1))) else 0) +
          sumRange b.pieces c ((64 - (n + 1)) + 1) n := rfl
    rw [he, show (64 - (n + 1)) + 1 = 64 - n by omega]
    by_cases hc : b.pieces (64 - (n + 1)) ≠ -1 ∧
        pieceColor (b.pieces (64 - (n + 1))) = c
    · rw [if_pos hc, if_pos hc, Int.add_assoc]
    · rw [if_neg hc, if_neg hc, Int.zero_add]

theorem orRange_testBit : ∀ n start (pc : Nat → Int) (p : Int) (s : Nat),
    ((orRange pc p start n).testBit s = true ↔
      (start ≤ s ∧ s < start + n ∧ pc s ≠ -1 ∧ pc s = p)) := by
  intro n
  induction n with
  | zero =>
    intro start pc p s
    simp only [orRange, Nat.zero_testBit]
    constructor
    · intro h
      cases h
    · rintro ⟨h1, h2, -⟩
      omega
  | succ n ih =>
    intro start pc p s
    simp only [orRange, Nat.testBit_or, Bool.or_eq_true, ih]
    by_cases hc : pc start ≠ -1 ∧ pc start = p
    · rw [if_pos hc, Nat.one_shiftLeft, Nat.testBit_two_pow]
      constructor
      · rintro (h | ⟨h1, h2, h3, h4⟩)
        · have hs : start = s := by simpa using h
          subst hs
          exact ⟨Nat.le_refl _, by omega, hc.1, hc.2⟩
        · exact ⟨by omega, by omega, h3, h4⟩
      · rintro ⟨h1, h2, h3, h4⟩
        by_cases hs : s = start
        · subst hs
          exact Or.inl (by simp)
        · exact Or.inr ⟨by omega, by omega, h3, h4⟩
    · rw [if_neg hc]
      simp only [Nat.zero_testBit, Bool.false_eq_true, false_or]
      constructor
      · rintro ⟨h1, h2, h3, h4⟩
        exact ⟨by omega, by omega, h3, h4⟩
      · rintro ⟨h1, h2, h3, h4⟩
        refine ⟨?_, by omega, h3, h4⟩
        by_cases hs : s = start
        · subst hs
          exact absurd ⟨h3, h4⟩ hc
        · omega

theorem orRangeColor_testBit : ∀ n start (pc : Nat → Int) (c : Int) (s : Nat),
    ((orRangeColor pc c start n).testBit s = true ↔
      (start ≤ s ∧ s < start + n ∧ pc s ≠ -1 ∧
        (pieceColor (pc s) = c ∨ c = BOTH_COLORS))) := by
  intro n
  induction n with
  | zero =>
    intro start pc c s
    simp only [orRangeColor, Nat.zero_testBit]
    constructor
    · intro h
      cases h
    · rintro ⟨h1, h2, -⟩
      omega
  | succ n ih =>
    intro start pc c s
    simp only [orRangeColor, Nat.testBit_or, Bool.or_eq_true, ih]
    by_cases hc : pc start ≠ -1 ∧ (pieceColor (pc start) = c ∨ c = BOTH_COLORS)
    · rw [if_pos hc, Nat.one_shiftLeft, Nat.testBit_two_pow]
      constructor
      · rintro (h | ⟨h1, h2, h3, h4⟩)
        · have hs : start = s := by simpa using h
          subst hs
          exact ⟨Nat.le_refl _, by omega, hc.1, hc.2⟩
        · exact ⟨by omega, by omega, h3, h4⟩
      · rintro ⟨h1, h2, h3, h4⟩
        by_cases hs : s = start
        · subst hs
          exact Or.inl (by simp)
        · exact Or.inr ⟨by omega, by omega, h3, h4⟩
    · rw [if_neg hc]
      simp only [Nat.zero_testBit, Bool.false_eq_true, false_or]
      constructor
      · rintro ⟨h1, h2, h3, h4⟩
        exact ⟨by omega, by omega, h3, h4⟩
      · rintro ⟨h1, h2, h3, h4⟩
        refine ⟨?_, by omega, h3, h4⟩
        by_cases hs : s = start
        · subst hs
          exact absurd ⟨h3, h4⟩ hc
        · omega

theorem fenRebuild_pieces (hk : HashKeys) (b : Board) :
    (Board.fenRebuild hk b).pieces = b.pieces := by
  unfold Board.fenRebuild
  simp only [rebuildLoop_pieces]

theorem fenRebuild_pbb (hk : HashKeys) (b : Board) (p : Int)
    (h0 : 0 ≤ p) (h12 : p < 12) :
    (Board.fenRebuild hk b).pieceBitboards p = orRange b.pieces p 0 64 := by
  unfold Board.fenRebuild
  simp only [rebuildLoop_pbb 64 (Nat.le_refl 64)]
  rw [if_pos ⟨h0, h12⟩, Nat.zero_or]

theorem fenRebuild_cbb (hk : HashKeys) (b : Board) (c : Int)
    (hc : c = WHITE ∨ c = BLACK ∨ c = BOTH_COLORS) :
    (Board.fenRebuild hk b).colorBitboards c = orRangeColor b.pieces c 0 64 := by
  unfold Board.fenRebuild
  simp only [rebuildLoop_cbb 64 (Nat.le_refl 64)]
  rw [if_pos (by rcases hc with rfl | rfl | rfl <;> decide), Nat.zero_or]

theorem fenRebuild_material (hk : HashKeys) (b : Board) (c : Int)
    (hc : c = WHITE ∨ c = BLACK) :
    (Board.fenRebuild hk b).material c = sumRange b.pieces c 0 64 := by
  unfold Board.fenRebuild
  simp only [rebuildLoop_material 64 (Nat.le_refl 64)]
  rw [if_pos (by rcases hc with rfl | rfl <;> decide), Int.zero_add]

theorem pieceColor_eq_white_iff (p : Int) (h1 : -1 ≤ p) (h2 : p < 12)
    (h3 : p ≠ -1) :
    (pieceColor p = WHITE ↔
      (p = WHITE_PAWN ∨ p = WHITE_KNIGHT ∨ p = WHITE_BISHOP ∨
        p = WHITE_ROOK ∨ p = WHITE_QUEEN ∨ p = WHITE_KING)) := by
  have hp : p = 0 ∨ p = 1 ∨ p = 2 ∨ p = 3 ∨ p = 4 ∨ p = 5 ∨ p = 6 ∨
      p = 7 ∨ p = 8 ∨ p = 9 ∨ p = 10 ∨ p = 11 := by omega
  rcases hp with rfl | rfl | rfl | rfl | rfl | rfl | rfl | rfl | rfl | rfl |
    rfl | rfl <;> decide

theorem pieceColor_eq_black_iff (p : Int) (h1 : -1 ≤ p) (h2 : p < 12)
    (h3 : p ≠ -1) :
    (pieceColor p = BLACK ↔
      (p = BLACK_PAWN ∨ p = BLACK_KNIGHT ∨ p = BLACK_BISHOP ∨
        p = BLACK_ROOK ∨ p = BLACK_QUEEN ∨ p = BLACK_KING)) := by
  have hp : p = 0 ∨ p = 1 ∨ p = 2 ∨ p = 3 ∨ p = 4 ∨ p = 5 ∨ p = 6 ∨
      p = 7 ∨ p = 8 ∨ p = 9 ∨ p = 10 ∨ p = 11 := by omega
  rcases hp with rfl | rfl | rfl | rfl | rfl | rfl | rfl | rfl | rfl | rfl |
    rfl | rfl <;> decide

theorem orRangeColor_white (pc : Nat → Int)
    (hpc : ∀ sq, sq < 64 → -1 ≤ pc sq ∧ pc sq < 12) :
    orRangeColor pc WHITE 0 64 =
      orRange pc WHITE_PAWN 0 64 ||| orRange pc WHITE_KNIGHT 0 64 |||
      orRange pc WHITE_BISHOP 0 64 ||| orRange pc WHITE_ROOK 0 64 |||
      orRange pc WHITE_QUEEN 0 64 ||| orRange pc WHITE_KING 0 64 := by
  apply Nat.eq_of_testBit_eq
  intro s
  rw [Bool.eq_iff_iff]
  simp only [Nat.testBit_or, Bool.or_eq_true, orRange_testBit,
    orRangeColor_testBit]
  constructor
  · rintro ⟨h1, h2, h3, h4 | h4⟩
    · have hb := hpc s (by omega)
      rcases (pieceColor_eq_white_iff (pc s) hb.1 hb.2 h3).mp h4 with
        h | h | h | h | h | h
      · exact Or.inl (Or.inl (Or.inl (Or.inl (Or.inl ⟨h1, h2, h3, h⟩))))
      · exact Or.inl (Or.inl (Or.inl (Or.inl (Or.inr ⟨h1, h2, h3, h⟩))))
      · exact Or.inl (Or.inl (Or.inl (Or.inr ⟨h1, h2, h3, h⟩)))
      · exact Or.inl (Or.inl (Or.inr ⟨h1, h2, h3, h⟩))
      · exact Or.inl (Or.inr ⟨h1, h2, h3, h⟩)
      · exact Or.inr ⟨h1, h2, h3, h⟩
    · exact absurd h4 (by decide)
  · rintro (((((⟨h1, h2, h3, h4⟩ | ⟨h1, h2, h3, h4⟩) | ⟨h1, h2, h3, h4⟩) |
      ⟨h1, h2, h3, h4⟩) | ⟨h1, h2, h3, h4⟩) | ⟨h1, h2, h3, h4⟩) <;>
    exact ⟨h1, h2, h3, Or.inl (by rw [h4]; decide)⟩

theorem orRangeColor_black (pc : Nat → Int)
    (hpc : ∀ sq, sq < 64 → -1 ≤ pc sq ∧ pc sq < 12) :
    orRangeColor pc BLACK 0 64 =
      orRange pc BLACK_PAWN 0 64 ||| orRange pc BLACK_KNIGHT 0 64 |||
      orRange pc BLACK_BISHOP 0 64 ||| orRange pc BLACK_ROOK 0 64 |||
      orRange pc BLACK_QUEEN 0 64 ||| orRange pc BLACK_KING 0 64 := by
  apply Nat.eq_of_testBit_eq
  intro s
  rw [Bool.eq_iff_iff]
  simp only [Nat.testBit_or, Bool.or_eq_true, orRange_testBit,
    orRangeColor_testBit]
  constructor
  · rintro ⟨h1, h2, h3, h4 | h4⟩
    · have hb := hpc s (by omega)
      rcases (pieceColor_eq_black_iff (pc s) hb.1 hb.2 h3).mp h4 with
        h | h | h | h | h | h
      · exact Or.inl (Or.inl (Or.inl (Or.inl (Or.inl ⟨h1, h2, h3, h⟩))))
      · exact Or.inl (Or.inl (Or.inl (Or.inl (Or.inr ⟨h1, h2, h3, h⟩))))
      · exact Or.inl (Or.inl (Or.inl (Or.inr ⟨h1, h2, h3, h⟩)))
      · exact Or.inl (Or.inl (Or.inr ⟨h1, h2, h3, h⟩))
      · exact Or.inl (Or.inr ⟨h1, h2, h3, h⟩)
      · exact Or.inr ⟨h1, h2, h3, h⟩
    · exact absurd h4 (by decide)
  · rintro (((((⟨h1, h2, h3, h4⟩ | ⟨h1, h2, h3, h4⟩) | ⟨h1, h2, h3, h4⟩) |
      ⟨h1, h2, h3, h4⟩) | ⟨h1, h2, h3, h4⟩) | ⟨h1, h2, h3, h4⟩) <;>
    exact ⟨h1, h2, h3, Or.inl (by rw [h4]; decide)⟩

theorem orRangeColor_both (pc : Nat → Int) :
    orRangeColor pc BOTH_COLORS 0 64 =
      orRangeColor pc WHITE 0 64 ||| orRangeColor pc BLACK 0 64 := by
  apply Nat.eq_of_testBit_eq
  intro s
  rw [Bool.eq_iff_iff, Nat.testBit_or, Bool.or_eq_true, orRangeColor_testBit,
    orRangeColor_testBit, orRangeColor_testBit]
  constructor
  · rintro ⟨h1, h2, h3, -⟩
    rcases pieceColor_wb (pc s) with hw | hw
    · exact Or.inl ⟨h1, h2, h3, Or.inl hw⟩
    · exact Or.inr ⟨h1, h2, h3, Or.inl hw⟩
  · rintro (⟨h1, h2, h3, -⟩ | ⟨h1, h2, h3, -⟩) <;>
    exact ⟨h1, h2, h3, Or.inr rfl⟩

theorem generatePositionKey_fields (hk : HashKeys) (a c : Board)
    (h1 : a.pieces = c.pieces) (h2 : a.sideToMove = c.sideToMove)
    (h3 : a.castlePerms = c.castlePerms)
    (h4 : a.enPassantSquare = c.enPassantSquare) :
    Board.generatePositionKey hk a = Board.generatePositionKey hk c := by
  unfold Board.generatePositionKey
  rw [h1, h2, h3, h4]

theorem fenRebuild_positionKey_aux (hk : HashKeys) (b1 : Board) :
    ({ b1 with positionKey := Board.generatePositionKey hk b1 } :
        Board).positionKey =
      Board.generatePositionKey hk
        { b1 with positionKey := Board.generatePositionKey hk b1 } :=
  generatePositionKey_fields hk b1
    { b1 with positionKey := Board.generatePositionKey hk b1 } rfl rfl rfl rfl

theorem fenRebuild_positionKey (hk : HashKeys) (b : Board) :
    (Board.fenRebuild hk b).positionKey =
      Board.generatePositionKey hk (Board.fenRebuild hk b) := by
  unfold Board.fenRebuild
  exact fenRebuild_positionKey_aux hk _

/-- C2: the rebuild at the end of every successful setToFEN establishes
the audited invariants on the resulting board: the stored position key
equals the key recomputed from scratch, each color bitboard is the OR
of that color's six piece bitboards, the BOTH_COLORS bitboard is the OR
of the two color bitboards, a piece bitboard has bit `s` set exactly
when the mailbox names that piece on square `s` (and an empty mailbox
square has no piece bit at all), and each side's material is the sum of
pieceMaterial over its pieces.  The claim's stronger version — that
these invariants hold on every board reachable from a successful
setToFEN by legal makeMove calls — fails: see the counterexample. -/
theorem spec_C2_fen_invariants (hk : HashKeys) (b : Board)
    (hpc : ∀ sq, sq < 64 → -1 ≤ b.pieces sq ∧ b.pieces sq < 12) :
    (Board.fenRebuild hk b).positionKey =
        Board.generatePositionKey hk (Board.fenRebuild hk b) ∧
    (Board.fenRebuild hk b).colorBitboards WHITE =
        ((Board.fenRebuild hk b).pieceBitboards WHITE_PAWN |||
         (Board.fenRebuild hk b).pieceBitboards WHITE_KNIGHT |||
         (Board.fenRebuild hk b).pieceBitboards WHITE_BISHOP |||
         (Board.fenRebuild hk b).pieceBitboards WHITE_ROOK |||
         (Board.fenRebuild hk b).pieceBitboards WHITE_QUEEN |||
         (Board.fenRebuild hk b).pieceBitboards WHITE_KING) ∧
    (Board.fenRebuild hk b).colorBitboards BLACK =
        ((Board.fenRebuild hk b).pieceBitboards BLACK_PAWN |||
         (Board.fenRebuild hk b).pieceBitboards BLACK_KNIGHT |||
         (Board.fenRebuild hk b).pieceBitboards BLACK_BISHOP |||
         (Board.fenRebuild hk b).pieceBitboards BLACK_ROOK |||
         (Board.fenRebuild hk b).pieceBitboards BLACK_QUEEN |||
         (Board.fenRebuild hk b).pieceBitboards BLACK_KING) ∧
    (Board.fenRebuild hk b).colorBitboards BOTH_COLORS =
        ((Board.fenRebuild hk b).colorBitboards WHITE |||
         (Board.fenRebuild hk b).colorBitboards BLACK) ∧
    (∀ s, s < 64 → ∀ pn : Nat, pn < 12 →
      (((Board.fenRebuild hk b).pieceBitboards (pn : Int)).testBit s = true ↔
        (Board.fenRebuild hk b).pieces s = (pn : Int))) ∧
    (∀ s, s < 64 → ((Board.fenRebuild hk b).pieces s = -1 ↔
      (∀ pn : Nat, pn < 12 →
        ((Board.fenRebuild hk b).pieceBitboards (pn : Int)).testBit s =
          false))) ∧
    (Board.fenRebuild hk b).material WHITE =
        sumRange (Board.fenRebuild hk b).pieces WHITE 0 64 ∧
    (Board.fenRebuild hk b).material BLACK =
        sumRange (Board.fenRebuild hk b).pieces BLACK 0 64 := by
  refine ⟨fenRebuild_positionKey hk b, ?_, ?_, ?_, ?_, ?_, ?_, ?_⟩
  · rw [fenRebuild_cbb hk b WHITE (Or.inl rfl),
      fenRebuild_pbb hk b WHITE_PAWN (by decide) (by decide),
      fenRebuild_pbb hk b WHITE_KNIGHT (by decide) (by decide),
      fenRebuild_pbb hk b WHITE_BISHOP (by decide) (by decide),
      fenRebuild_pbb hk b WHITE_ROOK (by decide) (by decide),
      fenRebuild_pbb hk b WHITE_QUEEN (by decide) (by decide),
      fenRebuild_pbb hk b WHITE_KING (by decide) (by decide),
      orRangeColor_white b.pieces hpc]
  · rw [fenRebuild_cbb hk b BLACK (Or.inr (Or.inl rfl)),
      fenRebuild_pbb hk b BLACK_PAWN (by decide) (by decide),
      fenRebuild_pbb hk b BLACK_KNIGHT (by decide) (by decide),
      fenRebuild_pbb hk b BLACK_BISHOP (by decide) (by decide),
      fenRebuild_pbb hk b BLACK_ROOK (by decide) (by decide),
      fenRebuild_pbb hk b BLACK_QUEEN (by decide) (by decide),
      fenRebuild_pbb hk b BLACK_KING (by decide) (by decide),
      orRangeColor_black b.pieces hpc]
  · rw [fenRebuild_cbb hk b BOTH_COLORS (Or.inr (Or.inr rfl)),
      fenRebuild_cbb hk b WHITE (Or.inl rfl),
      fenRebuild_cbb hk b BLACK (Or.inr (Or.inl rfl)),
      orRangeColor_both b.pieces]
  · intro s hs pn hpn
    rw [fenRebuild_pbb hk b (pn : Int) (Int.natCast_nonneg pn)
      (by exact_mod_cast hpn), fenRebuild_pieces, orRange_testBit]
    constructor
    · rintro ⟨-, -, -, h4⟩
      exact h4
    · intro h
      refine ⟨Nat.zero_le s, by omega, ?_, h⟩
      rw [h]
      have := Int.natCast_nonneg pn
      omega
  · intro s hs
    rw [fenRebuild_pieces]
    constructor
    · intro hm pn hpn
      rw [fenRebuild_pbb hk b (pn : Int) (Int.natCast_nonneg pn)
        (by exact_mod_cast hpn)]
      cases hbit : (orRange b.pieces (pn : Int) 0 64).testBit s
      · rfl
      · exfalso
        obtain ⟨-, -, -, h4⟩ :=
          (orRange_testBit 64 0 b.pieces (pn : Int) s).mp hbit
        rw [hm] at h4
        have := Int.natCast_nonneg pn
        omega
    · intro hall
      by_contra hne
      have hb := hpc s hs
      have h0 : 0 ≤ b.pieces s := by omega
      have hlt : ((b.pieces s).toNat : Int) < 12 := by omega
      have hbit := hall (b.pieces s).toNat (by omega)
      rw [fenRebuild_pbb hk b ((b.pieces s).toNat : Int)
        (Int.natCast_nonneg _) hlt] at hbit
      have htrue := (orRange_testBit 64 0 b.pieces
        ((b.pieces s).toNat : Int) s).mpr
        ⟨Nat.zero_le s, by omega, hne, (Int.toNat_of_nonneg h0).symm⟩
      rw [hbit] at htrue
      exact absurd htrue (by decide)
  · rw [fenRebuild_material hk b WHITE (Or.inl rfl), fenRebuild_pieces]
  · rw [fenRebuild_material hk b BLACK (Or.inr rfl), fenRebuild_pieces]

/-- witness for C2 at the concrete board `wBoardC1`. -/
theorem spec_C2_fen_invariants_witness :
    (Board.fenRebuild hk0 wBoardC1).positionKey =
        Board.generatePositionKey hk0 (Board.fenRebuild hk0 wBoardC1) ∧
    (Board.fenRebuild hk0 wBoardC1).colorBitboards WHITE =
        ((Board.fenRebuild hk0 wBoardC1).pieceBitboards WHITE_PAWN |||
         (Board.fenRebuild hk0 wBoardC1).pieceBitboards WHITE_KNIGHT |||
         (Board.fenRebuild hk0 wBoardC1).pieceBitboards WHITE_BISHOP |||
         (Board.fenRebuild hk0 wBoardC1).pieceBitboards WHITE_ROOK |||
         (Board.fenRebuild hk0 wBoardC1).pieceBitboards WHITE_QUEEN |||
         (Board.fenRebuild hk0 wBoardC1).pieceBitboards WHITE_KING) ∧
    (Board.fenRebuild hk0 wBoardC1).colorBitboards BLACK =
        ((Board.fenRebuild hk0 wBoardC1).pieceBitboards BLACK_PAWN |||
         (Board.fenRebuild hk0 wBoardC1).pieceBitboards BLACK_KNIGHT |||
         (Board.fenRebuild hk0 wBoardC1).pieceBitboards BLACK_BISHOP |||
         (Board.fenRebuild hk0 wBoardC1).pieceBitboards BLACK_ROOK |||
         (Board.fenRebuild hk0 wBoardC1).pieceBitboards BLACK_QUEEN |||
         (Board.fenRebuild hk0 wBoardC1).pieceBitboards BLACK_KING) ∧
    (Board.fenRebuild hk0 wBoardC1).colorBitboards BOTH_COLORS =
        ((Board.fenRebuild hk0 wBoardC1).colorBitboards WHITE |||
         (Board.fenRebuild hk0 wBoardC1).colorBitboards BLACK) ∧
    (∀ s, s < 64 → ∀ pn : Nat, pn < 12 →
      (((Board.fenRebuild hk0 wBoardC1).pieceBitboards (pn : Int)).testBit s =
          true ↔
        (Board.fenRebuild hk0 wBoardC1).pieces s = (pn : Int))) ∧
    (∀ s, s < 64 → ((Board.fenRebuild hk0 wBoardC1).pieces s = -1 ↔
      (∀ pn : Nat, pn < 12 →
        ((Board.fenRebuild hk0 wBoardC1).pieceBitboards (pn : Int)).testBit s =
          false))) ∧
    (Board.fenRebuild hk0 wBoardC1).material WHITE =
        sumRange (Board.fenRebuild hk0 wBoardC1).pieces WHITE 0 64 ∧
    (Board.fenRebuild hk0 wBoardC1).material BLACK =
        sumRange (Board.fenRebuild hk0 wBoardC1).pieces BLACK 0 64 :=
  spec_C2_fen_invariants hk0 wBoardC1 (by decide)

set_option maxRecDepth 100000 in
/-- counterexample for C2: setToFEN accepts an en passant square that is
occupied (e6 holds a black knight in `wFenEp`), the generator then emits
the en passant capture f5xe6, makeMove plays it as a legal move, and the
resulting board violates the mailbox-bitboard invariant: square e6 (44)
holds WHITE_PAWN in the mailbox while the BLACK_KNIGHT bitboard still
has bit 44 set. -/
theorem spec_C2_counterexample :
    (Board.setToFEN hk0 wBoardC1 wFenEp).1 = true ∧
    wMoveEp ∈ MoveList.generateMoves wBoardEp ∧
    (Board.makeMove hk0 wBoardEp wMoveEp).2 = true ∧
    (Board.makeMove hk0 wBoardEp wMoveEp).1.pieces 44 = WHITE_PAWN ∧
    ((Board.makeMove hk0 wBoardEp wMoveEp).1.pieceBitboards
      BLACK_KNIGHT).testBit 44 = true := by
  refine ⟨by decide, by decide, by decide, by decide, by decide⟩

/-! Infrastructure for the magic attack tables: enumeration of blocker
subsets and surjectivity of the magic index. -/

theorem eq_zero_of_floor (m : Nat) (hm : m < 2 ^ 64)
    (hlow : ∀ i, i < 64 → m.testBit i = false) : m = 0 := by
  apply Nat.eq_of_testBit_eq
  intro i
  rw [Nat.zero_testBit]
  rcases Nat.lt_or_ge i 64 with h | h
  · exact hlow i h
  · exact testBit_small_false hm h

theorem one_shiftLeft_getLSB (m : Nat) (h0 : m ≠ 0) (hm : m < 2 ^ 64) :
    1 <<< getLSB m = m ^^^ (m &&& (m - 1)) := by
  apply Nat.eq_of_testBit_eq
  intro i
  rw [Nat.one_shiftLeft, Nat.testBit_two_pow, Nat.testBit_xor,
    testBit_and_sub_one m h0 hm]
  by_cases hi : i = getLSB m
  · subst hi
    simp [getLSB_testBit m h0 hm]
  · have hd : decide (getLSB m = i) = false :=
      decide_eq_false (fun h => hi h.symm)
    have hne : (i == getLSB m) = false := by simpa using hi
    rw [hd, hne]
    cases hb : m.testBit i <;> simp

theorem and_sub_one_lt (m : Nat) (hm : m < 2 ^ 64) :
    m &&& (m - 1) < 2 ^ 64 := and_lt_of_left hm _

theorem clearLow_floor (m j : Nat) (hm : m < 2 ^ 64) (h0 : m ≠ 0)
    (hlow : ∀ i, i < j → m.testBit i = false) :
    j ≤ getLSB m ∧
      (∀ i, i < getLSB m + 1 → (m &&& (m - 1)).testBit i = false) := by
  have hjl : j ≤ getLSB m := by
    by_contra hc
    push_neg at hc
    have h2 := hlow (getLSB m) hc
    rw [getLSB_testBit m h0 hm] at h2
    cases h2
  refine ⟨hjl, ?_⟩
  intro i hi
  rw [testBit_and_sub_one m h0 hm]
  rcases Nat.lt_or_ge i (getLSB m) with h | h
  · rw [getLSB_testBit_lt m h0 hm i h]
    rfl
  · have hig : i = getLSB m := by omega
    subst hig
    simp

theorem countBitsAux_zero_arg : ∀ fuel, countBitsAux fuel 0 = 0 := by
  intro fuel
  cases fuel <;> rfl

theorem countBitsAux_stable : ∀ fuel1 fuel2 m j, m < 2 ^ 64 →
    (∀ i, i < j → m.testBit i = false) → 64 - j ≤ fuel1 → 64 - j ≤ fuel2 →
    countBitsAux fuel1 m = countBitsAux fuel2 m := by
  intro fuel1
  induction fuel1 with
  | zero =>
    intro fuel2 m j hm hlow h1 h2
    have hz : m = 0 := eq_zero_of_floor m hm (fun i hi => hlow i (by omega))
    subst hz
    rw [countBitsAux_zero_arg, countBitsAux_zero_arg]
  | succ fuel1 ih =>
    intro fuel2 m j hm hlow h1 h2
    by_cases h0 : m = 0
    · subst h0
      rw [countBitsAux_zero_arg, countBitsAux_zero_arg]
    · obtain ⟨hjl, hlow'⟩ := clearLow_floor m j hm h0 hlow
      have hl63 := getLSB_le m
      cases fuel2 with
      | zero =>
        exact absurd (eq_zero_of_floor m hm
          (fun i hi => hlow i (by omega))) h0
      | succ fuel2 =>
        show countBitsAux (fuel1 + 1) m = countBitsAux (fuel2 + 1) m
        rw [countBitsAux, countBitsAux, if_neg (by simpa using h0),
          if_neg (by simpa using h0)]
        congr 1
        exact ih fuel2 (m &&& (m - 1)) (getLSB m + 1) (and_sub_one_lt m hm)
          hlow' (by omega) (by omega)

theorem countBits_clearLow (m : Nat) (hm : m < 2 ^ 64) (h0 : m ≠ 0) :
    countBits m = countBits (m &&& (m - 1)) + 1 := by
  unfold countBits
  rw [show (64 : Nat) = 63 + 1 from rfl, countBitsAux,
    if_neg (by simpa using h0)]
  congr 1
  obtain ⟨-, hlow'⟩ := clearLow_floor m 0 hm h0 (fun i hi => absurd hi (by omega))
  have hl63 := getLSB_le m
  exact countBitsAux_stable 63 (63 + 1) (m &&& (m - 1)) (getLSB m + 1)
    (and_sub_one_lt m hm) hlow' (by omega) (by omega)

theorem and_pow_eq (k i : Nat) :
    k &&& (1 <<< i) = (if k.testBit i then 1 <<< i else 0) := by
  apply Nat.eq_of_testBit_eq
  intro t
  rw [Nat.testBit_and, apply_ite (fun x : Nat => x.testBit t),
    Nat.zero_testBit, Nat.one_shiftLeft, Nat.testBit_two_pow]
  by_cases ht : i = t
  · subst ht
    cases hb : k.testBit i <;> simp [hb]
  · rw [decide_eq_false ht]
    cases hb : k.testBit i <;> simp [hb]

theorem cond_bit_eq (k i : Nat) :
    (k &&& (1 <<< i) != 0) = ((k >>> i) &&& 1 != 0) := by
  rw [and_pow_eq, show (1 : Nat) = 1 <<< 0 from rfl, and_pow_eq,
    Nat.testBit_shiftRight, Nat.add_zero]
  cases hb : k.testBit i <;> simp [hb, Nat.one_shiftLeft, (Nat.two_pow_pos i).ne']

theorem subsetOfAux_eq_spreadAux : ∀ fuel m j k i acc, m < 2 ^ 64 →
    (∀ t, t < j → m.testBit t = false) → 64 - j ≤ fuel →
    attack.subsetOfAux fuel m k i acc = acc ||| spreadAux fuel m (k >>> i) := by
  intro fuel
  induction fuel with
  | zero =>
    intro m j k i acc hm hlow hfuel
    have hz : m = 0 := eq_zero_of_floor m hm (fun t ht => hlow t (by omega))
    subst hz
    show acc = acc ||| 0
    rw [Nat.or_zero]
  | succ fuel ih =>
    intro m j k i acc hm hlow hfuel
    by_cases h0 : m = 0
    · subst h0
      show acc = acc ||| (0 : Nat)
      rw [Nat.or_zero]
    · obtain ⟨hjl, hlow'⟩ := clearLow_floor m j hm h0 hlow
      have hl63 := getLSB_le m
      show (if (m == 0) = true then acc else
        attack.subsetOfAux fuel (m &&& (m - 1)) k (i + 1)
          (if (k &&& (1 <<< i) != 0) = true then acc ||| (1 <<< getLSB m)
            else acc)) = acc ||| spreadAux (fuel + 1) m (k >>> i)
      rw [if_neg (by simpa using h0)]
      rw [ih (m &&& (m - 1)) (getLSB m + 1) k (i + 1) _
        (and_sub_one_lt m hm) hlow' (by omega)]
      have hsp : spreadAux (fuel + 1) m (k >>> i) =
          (if ((k >>> i) &&& 1 != 0) = true then m ^^^ (m &&& (m - 1)) else 0)
            ||| spreadAux fuel (m &&& (m - 1)) ((k >>> i) >>> 1) := by
        rw [show spreadAux (fuel + 1) m (k >>> i) =
            (if ((m : Nat) == 0) = true then 0 else
              (if ((k >>> i) &&& 1 != 0) = true then m ^^^ (m &&& (m - 1))
                else 0) |||
                spreadAux fuel (m &&& (m - 1)) ((k >>> i) >>> 1)) from rfl]
        rw [if_neg (by simpa using h0)]
      rw [hsp, Nat.shiftRight_add k i 1, cond_bit_eq k i]
      by_cases hc : (((k >>> i) &&& 1) != 0) = true
      · rw [if_pos hc, if_pos hc, one_shiftLeft_getLSB m h0 hm, Nat.or_assoc]
      · rw [if_neg hc, if_neg hc, Nat.zero_or]

theorem subsetOf_eq_spread (m k : Nat) (hm : m < 2 ^ 64) :
    attack.subsetOf m k = spread m k := by
  unfold attack.subsetOf spread
  rw [subsetOfAux_eq_spreadAux 64 m 0 k 0 0 hm
    (fun t ht => absurd ht (by omega)) (by omega)]
  rw [Nat.zero_or]
  rfl

theorem spreadAux_zero_arg : ∀ fuel k, spreadAux fuel 0 k = 0 := by
  intro fuel k
  cases fuel <;> rfl

theorem spreadAux_step (fuel m k : Nat) (h0 : m ≠ 0) :
    spreadAux (fuel + 1) m k =
      (if ((k &&& 1) != 0) = true then m ^^^ (m &&& (m - 1)) else 0) |||
        spreadAux fuel (m &&& (m - 1)) (k >>> 1) := by
  rw [show spreadAux (fuel + 1) m k =
      (if ((m : Nat) == 0) = true then 0 else
        (if ((k &&& 1) != 0) = true then m ^^^ (m &&& (m - 1)) else 0) |||
          spreadAux fuel (m &&& (m - 1)) (k >>> 1)) from rfl]
  rw [if_neg (by simpa using h0)]

theorem and_eq_self_testBit {S m : Nat} (h : S &&& m = S) {i : Nat}
    (hb : S.testBit i = true) : m.testBit i = true := by
  rw [← h, Nat.testBit_and, Bool.and_eq_true] at hb
  exact hb.2

theorem spreadAux_subset : ∀ fuel m j k, m < 2 ^ 64 →
    (∀ t, t < j → m.testBit t = false) → 64 - j ≤ fuel →
    ∀ i, (spreadAux fuel m k).testBit i = true → m.testBit i = true := by
  intro fuel
  induction fuel with
  | zero =>
    intro m j k hm hlow hfuel i hi
    rw [show spreadAux 0 m k = 0 from rfl, Nat.zero_testBit] at hi
    cases hi
  | succ fuel ih =>
    intro m j k hm hlow hfuel i hi
    by_cases h0 : m = 0
    · subst h0
      rw [spreadAux_zero_arg, Nat.zero_testBit] at hi
      cases hi
    · obtain ⟨hjl, hlow'⟩ := clearLow_floor m j hm h0 hlow
      have hl63 := getLSB_le m
      rw [spreadAux_step fuel m k h0, Nat.testBit_or, Bool.or_eq_true] at hi
      rcases hi with hi | hi
      · by_cases hc : ((k &&& 1) != 0) = true
        · rw [if_pos hc, ← one_shiftLeft_getLSB m h0 hm, Nat.one_shiftLeft,
            Nat.testBit_two_pow] at hi
          have hgi : getLSB m = i := by simpa using hi
          subst hgi
          exact getLSB_testBit m h0 hm
        · rw [if_neg hc, Nat.zero_testBit] at hi
          cases hi
      · have hm' := ih (m &&& (m - 1)) (getLSB m + 1) (k >>> 1)
          (and_sub_one_lt m hm) hlow' (by omega) i hi
        rw [testBit_and_sub_one m h0 hm, Bool.and_eq_true] at hm'
        exact hm'.1

theorem spreadAux_testBit_lsb (fuel m k j : Nat) (hm : m < 2 ^ 64)
    (h0 : m ≠ 0) (hlow : ∀ t, t < j → m.testBit t = false)
    (hfuel : 64 - j ≤ fuel + 1) :
    (spreadAux (fuel + 1) m k).testBit (getLSB m) = ((k &&& 1) != 0) := by
  obtain ⟨hjl, hlow'⟩ := clearLow_floor m j hm h0 hlow
  have hl63 := getLSB_le m
  rw [spreadAux_step fuel m k h0, Nat.testBit_or]
  have hrest : (spreadAux fuel (m &&& (m - 1)) (k >>> 1)).testBit (getLSB m) =
      false := by
    cases hb : (spreadAux fuel (m &&& (m - 1)) (k >>> 1)).testBit (getLSB m)
    · rfl
    · have := spreadAux_subset fuel (m &&& (m - 1)) (getLSB m + 1) (k >>> 1)
        (and_sub_one_lt m hm) hlow' (by omega) (getLSB m) hb
      rw [testBit_and_sub_one m h0 hm] at this
      simp at this
  rw [hrest, Bool.or_false]
  by_cases hc : ((k &&& 1) != 0) = true
  · rw [if_pos hc, hc, ← one_shiftLeft_getLSB m h0 hm, Nat.one_shiftLeft,
      Nat.testBit_two_pow]
    simp
  · rw [if_neg hc, Nat.zero_testBit]
    simp at hc
    simp [hc]

theorem spreadAux_inj : ∀ fuel m j, m < 2 ^ 64 →
    (∀ t, t < j → m.testBit t = false) → 64 - j ≤ fuel →
    ∀ k1 k2, k1 < 2 ^ countBits m → k2 < 2 ^ countBits m →
      spreadAux fuel m k1 = spreadAux fuel m k2 → k1 = k2 := by
  intro fuel
  induction fuel with
  | zero =>
    intro m j hm hlow hfuel k1 k2 hk1 hk2 heq
    have hz : m = 0 := eq_zero_of_floor m hm (fun t ht => hlow t (by omega))
    subst hz
    rw [show countBits 0 = 0 from rfl, pow_zero] at hk1 hk2
    omega
  | succ fuel ih =>
    intro m j hm hlow hfuel k1 k2 hk1 hk2 heq
    by_cases h0 : m = 0
    · subst h0
      rw [show countBits 0 = 0 from rfl, pow_zero] at hk1 hk2
      omega
    · obtain ⟨hjl, hlow'⟩ := clearLow_floor m j hm h0 hlow
      have hl63 := getLSB_le m
      have hcb := countBits_clearLow m hm h0
      have hpar : ((k1 &&& 1) != 0) = ((k2 &&& 1) != 0) := by
        rw [← spreadAux_testBit_lsb fuel m k1 j hm h0 hlow hfuel,
          ← spreadAux_testBit_lsb fuel m k2 j hm h0 hlow hfuel, heq]
      have hrest : spreadAux fuel (m &&& (m - 1)) (k1 >>> 1) =
          spreadAux fuel (m &&& (m - 1)) (k2 >>> 1) := by
        apply Nat.eq_of_testBit_eq
        intro i
        by_cases hil : i = getLSB m
        · subst hil
          have hx1 : (spreadAux fuel (m &&& (m - 1)) (k1 >>> 1)).testBit
              (getLSB m) = false := by
            cases hb : (spreadAux fuel (m &&& (m - 1)) (k1 >>> 1)).testBit
                (getLSB m)
            · rfl
            · have := spreadAux_subset fuel (m &&& (m - 1)) (getLSB m + 1)
                (k1 >>> 1) (and_sub_one_lt m hm) hlow' (by omega) _ hb
              rw [testBit_and_sub_one m h0 hm] at this
              simp at this
          have hx2 : (spreadAux fuel (m &&& (m - 1)) (k2 >>> 1)).testBit
              (getLSB m) = false := by
            cases hb : (spreadAux fuel (m &&& (m - 1)) (k2 >>> 1)).testBit
                (getLSB m)
            · rfl
            · have := spreadAux_subset fuel (m &&& (m - 1)) (getLSB m + 1)
                (k2 >>> 1) (and_sub_one_lt m hm) hlow' (by omega) _ hb
              rw [testBit_and_sub_one m h0 hm] at this
              simp at this
          rw [hx1, hx2]
        · have hfull := congrArg (fun x => x.testBit i) heq
          rw [spreadAux_step fuel m k1 h0, spreadAux_step fuel m k2 h0] at hfull
          simp only [Nat.testBit_or] at hfull
          have hgi : decide (getLSB m = i) = false :=
            decide_eq_false (fun h => hil h.symm)
          have hlow1 : (if ((k1 &&& 1) != 0) = true
              then m ^^^ (m &&& (m - 1)) else 0).testBit i = false := by
            rw [apply_ite (fun x : Nat => x.testBit i),
              ← one_shiftLeft_getLSB m h0 hm, Nat.one_shiftLeft,
              Nat.testBit_two_pow, Nat.zero_testBit, hgi, ite_self]
          have hlow2 : (if ((k2 &&& 1) != 0) = true
              then m ^^^ (m &&& (m - 1)) else 0).testBit i = false := by
            rw [apply_ite (fun x : Nat => x.testBit i),
              ← one_shiftLeft_getLSB m h0 hm, Nat.one_shiftLeft,
              Nat.testBit_two_pow, Nat.zero_testBit, hgi, ite_self]
          rw [hlow1, hlow2, Bool.false_or, Bool.false_or] at hfull
          exact hfull
      rw [hcb, pow_succ] at hk1 hk2
      have hk1' : k1 >>> 1 < 2 ^ countBits (m &&& (m - 1)) := by
        rw [Nat.shiftRight_one]
        omega
      have hk2' : k2 >>> 1 < 2 ^ countBits (m &&& (m - 1)) := by
        rw [Nat.shiftRight_one]
        omega
      have hhalf := ih (m &&& (m - 1)) (getLSB m + 1) (and_sub_one_lt m hm)
        hlow' (by omega) (k1 >>> 1) (k2 >>> 1) hk1' hk2' hrest
      have hp1 : k1 % 2 = k2 % 2 := by
        rw [and1_eq, and1_eq] at hpar
        rcases Nat.mod_two_eq_zero_or_one k1 with h | h <;>
          rcases Nat.mod_two_eq_zero_or_one k2 with h2 | h2 <;>
            simp [h, h2] at hpar ⊢
      rw [Nat.shiftRight_one, Nat.shiftRight_one] at hhalf
      omega

theorem spreadAux_surj : ∀ fuel m j, m < 2 ^ 64 →
    (∀ t, t < j → m.testBit t = false) → 64 - j ≤ fuel →
    ∀ S, S &&& m = S →
      ∃ k, k < 2 ^ countBits m ∧ spreadAux fuel m k = S := by
  intro fuel
  induction fuel with
  | zero =>
    intro m j hm hlow hfuel S hS
    have hz : m = 0 := eq_zero_of_floor m hm (fun t ht => hlow t (by omega))
    subst hz
    rw [Nat.and_zero] at hS
    refine ⟨0, by simp [show countBits 0 = 0 from rfl], ?_⟩
    rw [show spreadAux 0 0 0 = 0 from rfl]
    exact hS
  | succ fuel ih =>
    intro m j hm hlow hfuel S hS
    by_cases h0 : m = 0
    · subst h0
      rw [Nat.and_zero] at hS
      refine ⟨0, by simp [show countBits 0 = 0 from rfl], ?_⟩
      rw [spreadAux_zero_arg]
      exact hS
    · obtain ⟨hjl, hlow'⟩ := clearLow_floor m j hm h0 hlow
      have hl63 := getLSB_le m
      have hcb := countBits_clearLow m hm h0
      have hSrest : (S &&& (m &&& (m - 1))) &&& (m &&& (m - 1)) =
          S &&& (m &&& (m - 1)) := by
        rw [Nat.and_assoc, Nat.and_self]
      obtain ⟨k', hk', hsp⟩ := ih (m &&& (m - 1)) (getLSB m + 1)
        (and_sub_one_lt m hm) hlow' (by omega) (S &&& (m &&& (m - 1))) hSrest
      refine ⟨2 * k' + (if S.testBit (getLSB m) then 1 else 0), ?_, ?_⟩
      · rw [hcb, pow_succ]
        by_cases hb : S.testBit (getLSB m) = true <;> simp [hb] <;> omega
      · rw [spreadAux_step fuel m _ h0]
        have hsh : (2 * k' + (if S.testBit (getLSB m) then 1 else 0)) >>> 1 =
            k' := by
          rw [Nat.shiftRight_one]
          by_cases hb : S.testBit (getLSB m) = true <;> simp [hb] <;> omega
        have hpar : (((2 * k' + (if S.testBit (getLSB m) then 1 else 0)) &&& 1)
            != 0) = S.testBit (getLSB m) := by
          rw [and1_eq]
          by_cases hb : S.testBit (getLSB m) = true <;> simp [hb] <;> omega
        rw [hsh, hsp, hpar]
        apply Nat.eq_of_testBit_eq
        intro i
        rw [Nat.testBit_or, apply_ite (fun x : Nat => x.testBit i),
          ← one_shiftLeft_getLSB m h0 hm, Nat.one_shiftLeft,
          Nat.testBit_two_pow, Nat.zero_testBit, Nat.testBit_and,
          testBit_and_sub_one m h0 hm]
        by_cases hil : i = getLSB m
        · subst hil
          cases hb : S.testBit (getLSB m) <;> simp [hb]
        · have hne : (decide (getLSB m = i)) = false :=
            decide_eq_false (fun h => hil h.symm)
          rw [hne]
          cases hb : S.testBit i
          · simp [hb]
          · have hmb : m.testBit i = true := and_eq_self_testBit hS hb
            simp [hb, hmb, hil]

theorem spread_subset (m k : Nat) (hm : m < 2 ^ 64) :
    ∀ i, (spread m k).testBit i = true → m.testBit i = true :=
  spreadAux_subset 64 m 0 k hm (fun t ht => absurd ht (by omega)) (by omega)

theorem spread_inj (m : Nat) (hm : m < 2 ^ 64) (k1 k2 : Nat)
    (h1 : k1 < 2 ^ countBits m) (h2 : k2 < 2 ^ countBits m)
    (heq : spread m k1 = spread m k2) : k1 = k2 :=
  spreadAux_inj 64 m 0 hm (fun t ht => absurd ht (by omega)) (by omega)
    k1 k2 h1 h2 heq

theorem spread_surj (m : Nat) (hm : m < 2 ^ 64) (S : Nat) (hS : S &&& m = S) :
    ∃ k, k < 2 ^ countBits m ∧ spread m k = S :=
  spreadAux_surj 64 m 0 hm (fun t ht => absurd ht (by omega)) (by omega) S hS

theorem and_eq_self_of_subset {e a b : Nat} (h : e &&& a = e)
    (hab : ∀ t, a.testBit t = true → b.testBit t = true) : e &&& b = e := by
  apply Nat.eq_of_testBit_eq
  intro t
  rw [Nat.testBit_and]
  cases hb : e.testBit t
  · simp
  · rw [hab t (and_eq_self_testBit h hb)]
    rfl

theorem orFoldSub_step (magic shift fuel m sub : Nat) (h0 : m ≠ 0) :
    attack.orFoldSub magic shift (fuel + 1) m sub =
      attack.orFoldSub magic shift fuel (m &&& (m - 1)) sub |||
        attack.orFoldSub magic shift fuel (m &&& (m - 1))
          (sub ||| (m ^^^ (m &&& (m - 1)))) := by
  rw [show attack.orFoldSub magic shift (fuel + 1) m sub =
      (if ((m : Nat) == 0) = true then 1 <<< attack.magicIndex magic shift sub
      else attack.orFoldSub magic shift fuel (m &&& (m - 1)) sub |||
        attack.orFoldSub magic shift fuel (m &&& (m - 1))
          (sub ||| (m ^^^ (m &&& (m - 1))))) from rfl]
  rw [if_neg (by simpa using h0)]

theorem orFoldSub_zero_fuel (magic shift m sub : Nat) :
    attack.orFoldSub magic shift 0 m sub =
      1 <<< attack.magicIndex magic shift sub := rfl

theorem orFoldSub_zero_arg (magic shift : Nat) : ∀ fuel sub,
    attack.orFoldSub magic shift fuel 0 sub =
      1 <<< attack.magicIndex magic shift sub := by
  intro fuel sub
  cases fuel <;> rfl

theorem orFoldSub_bits (magic shift : Nat) : ∀ fuel m j sub, m < 2 ^ 64 →
    (∀ t, t < j → m.testBit t = false) → 64 - j ≤ fuel →
    ∀ i, ((attack.orFoldSub magic shift fuel m sub).testBit i = true ↔
      ∃ e, e &&& m = e ∧ i = attack.magicIndex magic shift (sub ||| e)) := by
  intro fuel
  induction fuel with
  | zero =>
    intro m j sub hm hlow hfuel i
    have hz : m = 0 := eq_zero_of_floor m hm (fun t ht => hlow t (by omega))
    subst hz
    rw [orFoldSub_zero_fuel, Nat.one_shiftLeft, Nat.testBit_two_pow]
    constructor
    · intro h
      refine ⟨0, by rw [Nat.and_zero], ?_⟩
      rw [Nat.or_zero]
      exact (of_decide_eq_true h).symm
    · rintro ⟨e, he, hi⟩
      rw [Nat.and_zero] at he
      subst he
      rw [Nat.or_zero] at hi
      subst hi
      simp
  | succ fuel ih =>
    intro m j sub hm hlow hfuel i
    by_cases h0 : m = 0
    · subst h0
      rw [orFoldSub_zero_arg, Nat.one_shiftLeft, Nat.testBit_two_pow]
      constructor
      · intro h
        refine ⟨0, by rw [Nat.and_zero], ?_⟩
        rw [Nat.or_zero]
        exact (of_decide_eq_true h).symm
      · rintro ⟨e, he, hi⟩
        rw [Nat.and_zero] at he
        subst he
        rw [Nat.or_zero] at hi
        subst hi
        simp
    · obtain ⟨hjl, hlow'⟩ := clearLow_floor m j hm h0 hlow
      have hl63 := getLSB_le m
      have hmsub : ∀ t, (m &&& (m - 1)).testBit t = true →
          m.testBit t = true := by
        intro t ht
        rw [testBit_and_sub_one m h0 hm, Bool.and_eq_true] at ht
        exact ht.1
      rw [orFoldSub_step magic shift fuel m sub h0, Nat.testBit_or,
        Bool.or_eq_true,
        ih (m &&& (m - 1)) (getLSB m + 1) sub (and_sub_one_lt m hm) hlow'
          (by omega),
        ih (m &&& (m - 1)) (getLSB m + 1) _ (and_sub_one_lt m hm) hlow'
          (by omega)]
      constructor
      · rintro (⟨e, he, hi⟩ | ⟨e, he, hi⟩)
        · exact ⟨e, and_eq_self_of_subset he hmsub, hi⟩
        · refine ⟨(m ^^^ (m &&& (m - 1))) ||| e, ?_, ?_⟩
          · apply Nat.eq_of_testBit_eq
            intro t
            rw [Nat.testBit_and, Nat.testBit_or, ← one_shiftLeft_getLSB m h0 hm,
              Nat.one_shiftLeft, Nat.testBit_two_pow]
            by_cases htl : getLSB m = t
            · subst htl
              rw [getLSB_testBit m h0 hm]
              simp
            · rw [decide_eq_false htl]
              cases hb : e.testBit t
              · simp
              · rw [hmsub t (and_eq_self_testBit he hb)]
                simp
          · rw [hi]
            congr 1
            rw [← Nat.or_assoc]
      · rintro ⟨e, he, hi⟩
        by_cases hel : e.testBit (getLSB m) = true
        · right
          refine ⟨e &&& (m &&& (m - 1)), by rw [Nat.and_assoc, Nat.and_self],
            ?_⟩
          rw [hi]
          have he' : e = (m ^^^ (m &&& (m - 1))) |||
              (e &&& (m &&& (m - 1))) := by
            apply Nat.eq_of_testBit_eq
            intro t
            rw [Nat.testBit_or, ← one_shiftLeft_getLSB m h0 hm,
              Nat.one_shiftLeft, Nat.testBit_two_pow, Nat.testBit_and,
              testBit_and_sub_one m h0 hm]
            by_cases htl : t = getLSB m
            · subst htl
              rw [hel, decide_eq_true rfl]
              simp
            · rw [decide_eq_false (fun h => htl h.symm)]
              cases hb : e.testBit t
              · simp
              · rw [and_eq_self_testBit he hb]
                simp [htl]
          conv_lhs => rw [he']
          rw [← Nat.or_assoc]
        · left
          refine ⟨e, ?_, hi⟩
          apply Nat.eq_of_testBit_eq
          intro t
          rw [Nat.testBit_and, testBit_and_sub_one m h0 hm]
          cases hb : e.testBit t
          · simp
          · rw [and_eq_self_testBit he hb]
            by_cases htl : t = getLSB m
            · subst htl
              rw [hb] at hel
              exact absurd rfl hel
            · simp [htl]

set_option maxRecDepth 1000000 in
theorem rookMagic_surj_c0 :
    ((List.range' 0 16).all (fun sq =>
      attack.orFoldSub (attack.rookMagics sq) (64 - attack.numRookBlockers sq)
        64 (attack.rookBlockers sq) 0 ==
      (1 <<< (1 <<< attack.numRookBlockers sq)) - 1)) = true := by decide

set_option maxRecDepth 1000000 in
theorem rookMagic_surj_c1 :
    ((List.range' 16 16).all (fun sq =>
      attack.orFoldSub (attack.rookMagics sq) (64 - attack.numRookBlockers sq)
        64 (attack.rookBlockers sq) 0 ==
      (1 <<< (1 <<< attack.numRookBlockers sq)) - 1)) = true := by decide

set_option maxRecDepth 1000000 in
theorem rookMagic_surj_c2 :
    ((List.range' 32 16).all (fun sq =>
      attack.orFoldSub (attack.rookMagics sq) (64 - attack.numRookBlockers sq)
        64 (attack.rookBlockers sq) 0 ==
      (1 <<< (1 <<< attack.numRookBlockers sq)) - 1)) = true := by decide

set_option maxRecDepth 1000000 in
theorem rookMagic_surj_c3 :
    ((List.range' 48 16).all (fun sq =>
      attack.orFoldSub (attack.rookMagics sq) (64 - attack.numRookBlockers sq)
        64 (attack.rookBlockers sq) 0 ==
      (1 <<< (1 <<< attack.numRookBlockers sq)) - 1)) = true := by decide

set_option maxRecDepth 1000000 in
theorem bishopMagic_surj_all :
    ((List.range' 0 64).all (fun sq =>
      attack.orFoldSub (attack.bishopMagics sq)
        (64 - attack.numBishopBlockers sq)
        64 (attack.bishopBlockers sq) 0 ==
      (1 <<< (1 <<< attack.numBishopBlockers sq)) - 1)) = true := by decide

theorem all_range'_extract {f : Nat → Bool} {a n : Nat}
    (h : ((List.range' a n).all f) = true) {sq : Nat} (h1 : a ≤ sq)
    (h2 : sq < a + n) : f sq = true := by
  rw [List.all_eq_true] at h
  exact h sq (List.mem_range'_1.mpr ⟨h1, h2⟩)

theorem rookMagic_surj (sq : Nat) (hsq : sq < 64) :
    attack.orFoldSub (attack.rookMagics sq) (64 - attack.numRookBlockers sq)
      64 (attack.rookBlockers sq) 0 =
    (1 <<< (1 <<< attack.numRookBlockers sq)) - 1 := by
  apply eq_of_beq
  rcases Nat.lt_or_ge sq 16 with h | h
  · exact all_range'_extract rookMagic_surj_c0 (by omega) (by omega)
  rcases Nat.lt_or_ge sq 32 with h2 | h2
  · exact all_range'_extract rookMagic_surj_c1 (by omega) (by omega)
  rcases Nat.lt_or_ge sq 48 with h3 | h3
  · exact all_range'_extract rookMagic_surj_c2 (by omega) (by omega)
  · exact all_range'_extract rookMagic_surj_c3 (by omega) (by omega)

theorem bishopMagic_surj (sq : Nat) (hsq : sq < 64) :
    attack.orFoldSub (attack.bishopMagics sq)
      (64 - attack.numBishopBlockers sq)
      64 (attack.bishopBlockers sq) 0 =
    (1 <<< (1 <<< attack.numBishopBlockers sq)) - 1 := by
  apply eq_of_beq
  exact all_range'_extract bishopMagic_surj_all (by omega) (by omega)

theorem rookBlockers_lt64 : ∀ sq, sq < 64 →
    attack.rookBlockers sq < 2 ^ 64 := by decide

theorem bishopBlockers_lt64 : ∀ sq, sq < 64 →
    attack.bishopBlockers sq < 2 ^ 64 := by decide

theorem countBits_rookBlockers : ∀ sq, sq < 64 →
    countBits (attack.rookBlockers sq) = attack.numRookBlockers sq := by
  decide

theorem countBits_bishopBlockers : ∀ sq, sq < 64 →
    countBits (attack.bishopBlockers sq) = attack.numBishopBlockers sq := by
  decide

theorem magic_inj_of_surj (magic shift mask n : Nat) (hmask : mask < 2 ^ 64)
    (hn : countBits mask = n)
    (hsurj : attack.orFoldSub magic shift 64 mask 0 =
      (1 <<< (1 <<< n)) - 1) :
    ∀ k1 k2, k1 < 2 ^ n → k2 < 2 ^ n →
      attack.magicIndex magic shift (spread mask k1) =
        attack.magicIndex magic shift (spread mask k2) → k1 = k2 := by
  have hcover : ∀ j, j < 2 ^ n → ∃ k, k < 2 ^ n ∧
      attack.magicIndex magic shift (spread mask k) = j := by
    intro j hj
    have hbit : ((attack.orFoldSub magic shift 64 mask 0).testBit j) = true := by
      rw [hsurj, Nat.one_shiftLeft, Nat.one_shiftLeft,
        Nat.testBit_two_pow_sub_one]
      simpa using hj
    obtain ⟨e, he, hje⟩ := (orFoldSub_bits magic shift 64 mask 0 0 hmask
      (fun t ht => absurd ht (by omega)) (by omega) j).mp hbit
    rw [Nat.zero_or] at hje
    obtain ⟨k, hk, hsp⟩ := spread_surj mask hmask e he
    refine ⟨k, by rwa [hn] at hk, ?_⟩
    rw [hsp]
    exact hje.symm
  intro k1 k2 hk1 hk2 heq
  have hsub : Finset.range (2 ^ n) ⊆ (Finset.range (2 ^ n)).image
      (fun k => attack.magicIndex magic shift (spread mask k)) := by
    intro j hj
    rw [Finset.mem_range] at hj
    obtain ⟨k, hk, hkj⟩ := hcover j hj
    exact Finset.mem_image.mpr ⟨k, Finset.mem_range.mpr hk, hkj⟩
  have hcard : ((Finset.range (2 ^ n)).image
      (fun k => attack.magicIndex magic shift (spread mask k))).card =
      (Finset.range (2 ^ n)).card :=
    le_antisymm Finset.card_image_le (Finset.card_le_card hsub)
  exact (Finset.card_image_iff.mp hcard)
    (by simpa using hk1) (by simpa using hk2) heq

theorem fillTable_lookup (valFn : Nat → Nat) (mask magic shift : Nat)
    (t0 : Nat → Nat) :
    ∀ K, (∀ k1 k2, k1 < K → k2 < K →
      attack.magicIndex magic shift (attack.subsetOf mask k1) =
        attack.magicIndex magic shift (attack.subsetOf mask k2) → k1 = k2) →
    ∀ k, k < K → attack.fillTable valFn mask magic shift K t0
      (attack.magicIndex magic shift (attack.subsetOf mask k)) =
      valFn (attack.subsetOf mask k) := by
  intro K
  induction K with
  | zero =>
    intro _ k hk
    omega
  | succ K ih =>
    intro hinj k hk
    show Function.update (attack.fillTable valFn mask magic shift K t0)
      (attack.magicIndex magic shift (attack.subsetOf mask K))
      (valFn (attack.subsetOf mask K))
      (attack.magicIndex magic shift (attack.subsetOf mask k)) =
      valFn (attack.subsetOf mask k)
    by_cases hkK : k = K
    · subst hkK
      rw [Function.update_same]
    · rw [Function.update_noteq
        (fun hEq => hkK (hinj k K (by omega) (by omega) hEq))]
      exact ih (fun k1 k2 h1 h2 he => hinj k1 k2 (by omega) (by omega) he)
        k (by omega)

theorem rookTable_correct (sq : Nat) (hsq : sq < 64) (k : Nat)
    (hk : k < 2 ^ attack.numRookBlockers sq) :
    attack.rookAttackTable sq (attack.magicIndex (attack.rookMagics sq)
      (64 - attack.numRookBlockers sq)
      (attack.subsetOf (attack.rookBlockers sq) k)) =
    attack.rookAttacksSlow sq (attack.subsetOf (attack.rookBlockers sq) k) := by
  have hmask := rookBlockers_lt64 sq hsq
  have hn := countBits_rookBlockers sq hsq
  have hinj0 := magic_inj_of_surj (attack.rookMagics sq)
    (64 - attack.numRookBlockers sq) (attack.rookBlockers sq)
    (attack.numRookBlockers sq) hmask hn (rookMagic_surj sq hsq)
  unfold attack.rookAttackTable
  refine fillTable_lookup _ _ _ _ _ (1 <<< attack.numRookBlockers sq)
    ?_ k (by rwa [Nat.one_shiftLeft])
  intro k1 k2 h1 h2 he
  rw [Nat.one_shiftLeft] at h1 h2
  refine hinj0 k1 k2 h1 h2 ?_
  rwa [subsetOf_eq_spread _ _ hmask, subsetOf_eq_spread _ _ hmask] at he

theorem bishopTable_correct (sq : Nat) (hsq : sq < 64) (k : Nat)
    (hk : k < 2 ^ attack.numBishopBlockers sq) :
    attack.bishopAttackTable sq (attack.magicIndex (attack.bishopMagics sq)
      (64 - attack.numBishopBlockers sq)
      (attack.subsetOf (attack.bishopBlockers sq) k)) =
    attack.bishopAttacksSlow sq
      (attack.subsetOf (attack.bishopBlockers sq) k) := by
  have hmask := bishopBlockers_lt64 sq hsq
  have hn := countBits_bishopBlockers sq hsq
  have hinj0 := magic_inj_of_surj (attack.bishopMagics sq)
    (64 - attack.numBishopBlockers sq) (attack.bishopBlockers sq)
    (attack.numBishopBlockers sq) hmask hn (bishopMagic_surj sq hsq)
  unfold attack.bishopAttackTable
  refine fillTable_lookup _ _ _ _ _ (1 <<< attack.numBishopBlockers sq)
    ?_ k (by rwa [Nat.one_shiftLeft])
  intro k1 k2 h1 h2 he
  rw [Nat.one_shiftLeft] at h1 h2
  refine hinj0 k1 k2 h1 h2 ?_
  rwa [subsetOf_eq_spread _ _ hmask, subsetOf_eq_spread _ _ hmask] at he

theorem getRookAttacks_eq_slow (sq occ : Nat) (hsq : sq < 64) :
    attack.getRookAttacks sq occ =
      attack.rookAttacksSlow sq (occ &&& attack.rookBlockers sq) := by
  have hmask := rookBlockers_lt64 sq hsq
  have hn := countBits_rookBlockers sq hsq
  have hsub : (occ &&& attack.rookBlockers sq) &&& attack.rookBlockers sq =
      occ &&& attack.rookBlockers sq := by
    rw [Nat.and_assoc, Nat.and_self]
  obtain ⟨k, hk, hsp⟩ := spread_surj (attack.rookBlockers sq) hmask _ hsub
  rw [hn] at hk
  have hself : occ &&& attack.rookBlockers sq =
      attack.subsetOf (attack.rookBlockers sq) k := by
    rw [subsetOf_eq_spread _ _ hmask, hsp]
  show attack.rookAttackTable sq (attack.magicIndex (attack.rookMagics sq)
      (64 - attack.numRookBlockers sq) (occ &&& attack.rookBlockers sq)) = _
  rw [hself]
  exact rookTable_correct sq hsq k hk

theorem getBishopAttacks_eq_slow (sq occ : Nat) (hsq : sq < 64) :
    attack.getBishopAttacks sq occ =
      attack.bishopAttacksSlow sq (occ &&& attack.bishopBlockers sq) := by
  have hmask := bishopBlockers_lt64 sq hsq
  have hn := countBits_bishopBlockers sq hsq
  have hsub : (occ &&& attack.bishopBlockers sq) &&& attack.bishopBlockers sq =
      occ &&& attack.bishopBlockers sq := by
    rw [Nat.and_assoc, Nat.and_self]
  obtain ⟨k, hk, hsp⟩ := spread_surj (attack.bishopBlockers sq) hmask _ hsub
  rw [hn] at hk
  have hself : occ &&& attack.bishopBlockers sq =
      attack.subsetOf (attack.bishopBlockers sq) k := by
    rw [subsetOf_eq_spread _ _ hmask, hsp]
  show attack.bishopAttackTable sq (attack.magicIndex (attack.bishopMagics sq)
      (64 - attack.numBishopBlockers sq)
      (occ &&& attack.bishopBlockers sq)) = _
  rw [hself]
  exact bishopTable_correct sq hsq k hk

end DB
